import Mathlib

/-!
# The GL texture cache of rpcs3 (`rpcs3/Emu/RSX/GL/gl_texture_cache.cpp`)

A shallow embedding of the three tiers of the cache:

* `cached_texture`   : one tracked texture with its two authority bits,
* `protected_region` : a page range owning a map `texture_info → cached_texture`
  and the protection flags applied to the range,
* `texture_cache`    : the ordered map `start address → protected_region`.

Conventions of the embedding.

* `u32` arithmetic is arithmetic on `Nat` reduced modulo `2^32` at every place
  where the C++ expression can wrap.
* Calls into OpenGL and into `vm::page_protect` are recorded, in the order in
  which they are issued, in the `trace` of a `backend` value that is threaded
  through every operation.  `LOG_*` calls are not recorded.
* A `std::map` is an association list in iteration order.  A pointer to a value
  stored in a map is the key of that value: a `protected_region*` is the key of
  the region in `m_protected_regions`, a `cached_texture*` is that key together
  with the `texture_info` the entry is stored under.
* The member `info` of a `cached_texture` is a pointer to a key of an entry
  map: the address of the region that owns the map, and the key.  `add` sets
  it; `combine()` copies it with the entry, so that the `info` of a copy still
  points into the map of the absorbed region and dangles once `entry()` has
  erased that region.
* The methods `cached_texture.read`, `cached_texture.sync` and
  `cached_texture.invalidate` are the methods of an entry whose pointers are
  intact: `m_parent_region` points at the region that holds the entry, and the
  `info` of the entries of that region point at the keys they are stored
  under.  They take that region as an argument, read `info` as the key, and
  return the new value of the region.
* `texture_cache.read` and `texture_cache.invalidate` are the same two methods
  for arbitrary pointers.  They take the registry, follow `m_parent_region`
  and `info` where the code does, and return `none` where the code
  dereferences a pointer that is null or dangles.  `read_intact` and
  `invalidate_intact` relate the two levels.
* The iteration order of `m_textures` is the order of the list; a new entry is
  visited last.  The statements about a region are proved for every list.
* `gl_texture_cache.h` and the `vm` headers are not among the sources.  What
  the code needs from them is modelled from the spec and marked so; the body of
  `texture_info::size()` is a parameter `sz` of every operation that uses it.
-/

namespace gl

/-! ## Machine integers -/

/-- Reduction of a natural number to an unsigned 32-bit value. -/
def u32 (n : Nat) : Nat := n % 4294967296

/-- Unsigned 32-bit subtraction `a - b` (wraps below zero). -/
def u32_sub (a b : Nat) : Nat := (a % 4294967296 + 4294967296 - b % 4294967296) % 4294967296

/-- Unsigned 32-bit complement `~a`. -/
def u32_not (a : Nat) : Nat := 4294967295 - a % 4294967296

/-! ## Declarations of headers that are not part of the sources -/

/-- Modelled from the spec: `vm::page_size`, declared in the memory headers
which are not among the sources; the granularity of a region, 4096 bytes. -/
def vm.page_size : Nat := 4096

/-- Modelled from the spec: `vm::page_readable`, one of the two capability
flags {readable, writable} of the protection backend. -/
def vm.page_readable : Nat := 1

/-- Modelled from the spec: `vm::page_writable`, the other capability flag. -/
def vm.page_writable : Nat := 2

/-- Modelled from the spec: `align(value, alignment)`, the helper that rounds a
`u32` up to the next multiple of a power-of-two alignment. -/
def align (value alignment : Nat) : Nat :=
  u32 (value + (alignment - 1)) &&& u32_not (alignment - 1)

/-- Modelled from the spec: `enum class cache_buffers`, the sides a caller can
name: `host`, `local`, both (`all`) or neither (`none`). -/
structure cache_buffers where
  host_bit : Bool
  local_bit : Bool
deriving DecidableEq, Repr

/-- The value `cache_buffers::none`. -/
def cache_buffers.none : cache_buffers := ⟨false, false⟩
/-- The value `cache_buffers::host`. -/
def cache_buffers.host : cache_buffers := ⟨true, false⟩
/-- The value `cache_buffers::local`. -/
def cache_buffers.local_ : cache_buffers := ⟨false, true⟩
/-- The value `cache_buffers::all`. -/
def cache_buffers.all : cache_buffers := ⟨true, true⟩

/-- Bitwise `&` of `cache_buffers`. -/
def cache_buffers.and (a b : cache_buffers) : cache_buffers :=
  ⟨a.host_bit && b.host_bit, a.local_bit && b.local_bit⟩

/-- Modelled from the spec: `enum class cache_entry_state`, a 2-bit flag set;
both bits set is `synchronized`, neither is `invalid`. -/
structure cache_entry_state where
  host_bit : Bool
  local_bit : Bool
deriving DecidableEq, Repr

/-- The value `cache_entry_state::invalid`. -/
def cache_entry_state.invalid : cache_entry_state := ⟨false, false⟩
/-- The value `cache_entry_state::host_synchronized`. -/
def cache_entry_state.host_synchronized : cache_entry_state := ⟨true, false⟩
/-- The value `cache_entry_state::local_synchronized`. -/
def cache_entry_state.local_synchronized : cache_entry_state := ⟨false, true⟩
/-- The value `cache_entry_state::synchronized`. -/
def cache_entry_state.synchronized : cache_entry_state := ⟨true, true⟩

/-- Bitwise `&` of `cache_entry_state`. -/
def cache_entry_state.and (a b : cache_entry_state) : cache_entry_state :=
  ⟨a.host_bit && b.host_bit, a.local_bit && b.local_bit⟩
/-- Bitwise `|` of `cache_entry_state`. -/
def cache_entry_state.or (a b : cache_entry_state) : cache_entry_state :=
  ⟨a.host_bit || b.host_bit, a.local_bit || b.local_bit⟩
/-- Bitwise `~` of `cache_entry_state`, restricted to the two bits. -/
def cache_entry_state.not (a : cache_entry_state) : cache_entry_state :=
  ⟨!a.host_bit, !a.local_bit⟩

/-- Modelled from the spec: `enum class cache_access`, the set
{none, read, write, read+write}. -/
structure cache_access where
  read_bit : Bool
  write_bit : Bool
deriving DecidableEq, Repr

/-- The value `cache_access::none`. -/
def cache_access.none : cache_access := ⟨false, false⟩
/-- The value `cache_access::read`. -/
def cache_access.read : cache_access := ⟨true, false⟩
/-- The value `cache_access::write`. -/
def cache_access.write : cache_access := ⟨false, true⟩
/-- The value `cache_access::read_write`. -/
def cache_access.read_write : cache_access := ⟨true, true⟩

/-- Bitwise `&` of `cache_access`. -/
def cache_access.and (a b : cache_access) : cache_access :=
  ⟨a.read_bit && b.read_bit, a.write_bit && b.write_bit⟩
/-- Bitwise `|` of `cache_access`. -/
def cache_access.or (a b : cache_access) : cache_access :=
  ⟨a.read_bit || b.read_bit, a.write_bit || b.write_bit⟩

/-- Modelled from the spec: the pixel formats `gl::texture::format` that the
cache distinguishes: the two depth formats, and colour formats. -/
inductive texture.format where
  | rgba
  | bgra
  | depth
  | depth_stencil
deriving DecidableEq, Repr

/-- Modelled from the spec: `texture_format`, the format of a descriptor with
its bytes per pixel and its `swap_bytes` flag. -/
structure texture_format where
  bpp : Nat
  format : texture.format
  swap_bytes : Bool
deriving DecidableEq, Repr

/-- Modelled from the spec: `texture_info`, the resource descriptor with the
fields the spec lists; it is the key of a region's entry map and two
descriptors are equal only if all fields match. -/
structure texture_info where
  start_address : Nat
  pitch : Nat
  width : Nat
  height : Nat
  depth : Nat
  format : texture_format
  compressed_size : Nat
deriving DecidableEq, Repr

/-- The `u32` result of `texture_info::size()`.  The body of `size()` is in a
header that is not among the sources, so the function `sz` computing it is a
parameter of the whole development. -/
def texture_info.size (sz : texture_info → Nat) (info : texture_info) : Nat :=
  u32 (sz info)

/-! ## The backend: OpenGL and `vm::page_protect` -/

/-- The calls the cache issues to its collaborators. -/
inductive backend_call where
  | glGenTextures (name : Nat)
  | glBindTexture (name : Nat)
  | glTexImage2D (name : Nat) (info : texture_info) (pixels : Option Nat)
  | glCompressedTexImage2D (name : Nat) (info : texture_info) (pixels : Nat)
  | glCopyImageSubData (src dst width height depth : Nat)
  | glGetTexImage (name : Nat) (info : texture_info) (pixels : Nat)
  | glDeleteTextures (name : Nat)
  | page_protect (addr size flags_test flags_set flags_clear : Nat)
deriving DecidableEq, Repr

/-- The state of the collaborators: the calls issued so far, oldest first, and
the number of texture names handed out by `glGenTextures`. -/
structure backend where
  trace : List backend_call
  names : Nat
deriving DecidableEq, Repr

/-- Record one call. -/
def backend.call (w : backend) (c : backend_call) : backend :=
  { w with trace := w.trace ++ [c] }

/-! ## `cached_texture` -/

/-- The class `cached_texture`.  The pointer `m_parent_region` is the address of
a region.  The pointer `info`, which `add` sets to the key of the new map
entry, is the pair of the address of the region whose map holds that key and
the key itself; `none` is a pointer that was never set. -/
structure cached_texture where
  gl_name : Nat
  m_state : cache_entry_state
  m_parent_region : Option Nat
  info : Option (Nat × texture_info)
deriving DecidableEq, Repr

/-- Modelled from the spec: the value-initialised entry `cached_texture{}`, whose
member initialisers are in the header: state `invalid`, no device handle, no
owning region and no descriptor yet (`add` sets both pointers). -/
def cached_texture.fresh : cached_texture :=
  { gl_name := 0, m_state := cache_entry_state.invalid, m_parent_region := none,
    info := none }

/-- A region's `m_textures` in iteration order. -/
abbrev texture_map := List (texture_info × cached_texture)

/-- The class `protected_region`. -/
structure protected_region where
  start_address : Nat
  pages_count : Nat
  m_textures : texture_map
  m_current_protection : Nat
deriving DecidableEq, Repr

/-- Lookup in an association list: the value of the first pair with key `k`. -/
def assoc_find {α β : Type} [DecidableEq α] (k : α) : List (α × β) → Option β
  | [] => none
  | (k1, v) :: rest => if k1 = k then some v else assoc_find k rest

/-- Update through a pointer: apply `f` to the value stored under key `k`. -/
def assoc_modify {α β : Type} [DecidableEq α] (k : α) (f : β → β) : List (α × β) → List (α × β)
  | [] => []
  | (k1, v) :: rest => if k1 = k then (k1, f v) :: rest else (k1, v) :: assoc_modify k f rest

/-- Removal of the pair with key `k` (`std::map::erase(key)`). -/
def assoc_erase {α β : Type} [DecidableEq α] (k : α) : List (α × β) → List (α × β)
  | [] => []
  | (k1, v) :: rest => if k1 = k then rest else (k1, v) :: assoc_erase k rest

/-- Apply `f` to the entry stored under `info` in the region. -/
def protected_region.update (r : protected_region) (info : texture_info)
    (f : cached_texture → cached_texture) : protected_region :=
  { r with m_textures := assoc_modify info f r.m_textures }

/-- Method `cached_texture::created`. -/
def cached_texture.created (t : cached_texture) : Bool := t.gl_name != 0

/-- Method `cached_texture::bind` with its default index (no `glActiveTexture`). -/
def cached_texture.bind (w : backend) (t : cached_texture) : backend :=
  w.call (backend_call.glBindTexture t.gl_name)

/-- Method `cached_texture::create`: `glGenTextures` hands out the next unused,
non-zero name; storage is allocated with a null pixel pointer. -/
def cached_texture.create (w : backend) (info : texture_info) (t : cached_texture) :
    backend × cached_texture :=
  let name := w.names + 1
  let w1 : backend := { trace := w.trace ++ [backend_call.glGenTextures name], names := name }
  let t1 : cached_texture := { t with gl_name := name }
  let w2 := t1.bind w1
  (w2.call (backend_call.glTexImage2D name info none), t1)

/-- Method `cached_texture::ignore`. -/
def cached_texture.ignore (t : cached_texture) (buffers : cache_buffers) : cached_texture :=
  let t1 : cached_texture :=
    if buffers.and cache_buffers.host ≠ cache_buffers.none then
      { t with m_state := t.m_state.or cache_entry_state.host_synchronized }
    else t
  if buffers.and cache_buffers.local_ ≠ cache_buffers.none then
    { t1 with m_state := t1.m_state.or cache_entry_state.local_synchronized }
  else t1

/-- Method `cached_texture::is_synchronized`. -/
def cached_texture.is_synchronized (t : cached_texture) (buffers : cache_buffers) : Bool :=
  if buffers.and cache_buffers.host ≠ cache_buffers.none ∧
      t.m_state.and cache_entry_state.host_synchronized = cache_entry_state.invalid then
    false
  else if buffers.and cache_buffers.local_ ≠ cache_buffers.none ∧
      t.m_state.and cache_entry_state.local_synchronized = cache_entry_state.invalid then
    false
  else
    true

/-- Method `cached_texture::requires_protection`. -/
def cached_texture.requires_protection (t : cached_texture) : cache_access :=
  if t.m_state = cache_entry_state.local_synchronized then cache_access.read_write
  else if t.m_state = cache_entry_state.synchronized then cache_access.write
  else cache_access.none

/-- Method `cached_texture::write`: the download into guest memory, which the code
skips for depth formats and for compressed textures, then `ignore(all)`. -/
def cached_texture.write (w : backend) (info : texture_info) (t : cached_texture) :
    backend × cached_texture :=
  let w1 := t.bind w
  let w2 :=
    if info.format.format = texture.format.depth ∨
        info.format.format = texture.format.depth_stencil then w1
    else if info.compressed_size ≠ 0 then w1
    else w1.call (backend_call.glGetTexImage t.gl_name info info.start_address)
  (w2, t.ignore cache_buffers.all)

/-- The call `texture.sync(gl::cache_buffers::host)` that `read()` makes on the
entries of its region.  It is the body of `sync` with `buffers = host`: the
test `(buffers & local) != none` of the first two cases is false, so `read()`
is not entered again (`sync_host_eq` below). -/
def cached_texture.sync_host (w : backend) (info : texture_info) (t : cached_texture) :
    backend × cached_texture × Bool :=
  let p := if !t.created then t.create w info else (w, t)
  if p.2.m_state = cache_entry_state.invalid ∨
      p.2.m_state = cache_entry_state.host_synchronized then
    (p.1, p.2, false)
  else if p.2.m_state = cache_entry_state.local_synchronized then
    let q := p.2.write p.1 info
    (q.1, q.2, true)
  else
    (p.1, p.2, false)

/-- The loop of `protected_region::for_each(start_address, size, callback)` over
the entries; `callback` may change the entry it is given and a state `s`
captured by reference. -/
def for_each_loop {σ : Type} (sz : texture_info → Nat) (start_address size : Nat)
    (callback : σ → texture_info → cached_texture → σ × cached_texture) :
    σ → texture_map → σ × texture_map
  | s, [] => (s, [])
  | s, (info, t) :: rest =>
    if info.start_address ≥ u32 (start_address + size) then
      let q := for_each_loop sz start_address size callback s rest
      (q.1, (info, t) :: q.2)
    else if u32 (info.start_address + info.size sz) ≤ start_address then
      let q := for_each_loop sz start_address size callback s rest
      (q.1, (info, t) :: q.2)
    else
      let p := callback s info t
      let q := for_each_loop sz start_address size callback p.1 rest
      (q.1, (info, p.2) :: q.2)

/-- Method `protected_region::for_each(start_address, size, callback)`. -/
def protected_region.for_each {σ : Type} (sz : texture_info → Nat) (r : protected_region)
    (start_address size : Nat)
    (callback : σ → texture_info → cached_texture → σ × cached_texture) (s : σ) :
    σ × protected_region :=
  let q := for_each_loop sz start_address size callback s r.m_textures
  (q.1, { r with m_textures := q.2 })

/-- The first callback of `read()`: remember the last entry that has its local
bit set, starts at the same address with the same pitch and is at least as
large. -/
def read_find_callback (info : texture_info) (found : Option (texture_info × cached_texture))
    (tinfo : texture_info) (texture : cached_texture) :
    Option (texture_info × cached_texture) × cached_texture :=
  if texture.m_state.and cache_entry_state.local_synchronized = cache_entry_state.invalid then
    (found, texture)
  else if tinfo.start_address ≠ info.start_address ∨ tinfo.pitch ≠ info.pitch ∨
      tinfo.height < info.height ∨ tinfo.width < info.width then
    (found, texture)
  else
    (some (tinfo, texture), texture)

/-- The second callback of `read()`: `texture.sync(gl::cache_buffers::host)`. -/
def read_flush_callback (w : backend) (tinfo : texture_info) (texture : cached_texture) :
    backend × cached_texture :=
  let p := texture.sync_host w tinfo
  (p.1, p.2.1)

/-- The upload from guest memory at the end of the host path of `read()`. -/
def read_upload (w : backend) (info : texture_info) (t : cached_texture) : backend :=
  if info.format.format = texture.format.depth ∨
      info.format.format = texture.format.depth_stencil then w
  else if info.compressed_size ≠ 0 then
    w.call (backend_call.glCompressedTexImage2D t.gl_name info info.start_address)
  else
    w.call (backend_call.glTexImage2D t.gl_name info (some info.start_address))

/-- Method `cached_texture::read` for the entry stored under `info` in region `r`,
where `m_parent_region` of the entry points at `r` and each `info` of `r`
points at its own key; `texture_cache.read` follows the pointers. -/
def cached_texture.read (sz : texture_info → Nat) (w : backend) (r : protected_region)
    (info : texture_info) : backend × protected_region :=
  match assoc_find info r.m_textures with
  | none => (w, r)
  | some this =>
    let texture_size := info.size sz
    let found := (r.for_each sz info.start_address texture_size (read_find_callback info) none).1
    match found with
    | some found_texture =>
      let w1 := w.call (backend_call.glCopyImageSubData found_texture.2.gl_name this.gl_name
        info.width info.height info.depth)
      (w1, r.update info (fun t => t.ignore cache_buffers.all))
    | none =>
      let p := r.for_each sz info.start_address texture_size read_flush_callback w
      match assoc_find info p.2.m_textures with
      | none => p
      | some this1 =>
        let w2 := this1.bind p.1
        let w3 := read_upload w2 info this1
        (w3, p.2.update info (fun t => t.ignore cache_buffers.all))

/-- Method `cached_texture::sync` for the entry stored under `info` in region `r`,
where `m_parent_region` of the entry points at `r` and each `info` of `r`
points at its own key. -/
def cached_texture.sync (sz : texture_info → Nat) (w : backend) (r : protected_region)
    (info : texture_info) (buffers : cache_buffers) : backend × protected_region × Bool :=
  match assoc_find info r.m_textures with
  | none => (w, r, false)
  | some this =>
    let c : backend × cached_texture := if !this.created then this.create w info else (w, this)
    let r1 : protected_region := if !this.created then r.update info (fun _ => c.2) else r
    if this.m_state = cache_entry_state.invalid ∨
        this.m_state = cache_entry_state.host_synchronized then
      if buffers.and cache_buffers.local_ ≠ cache_buffers.none then
        let q := cached_texture.read sz c.1 r1 info
        (q.1, q.2, true)
      else (c.1, r1, false)
    else if this.m_state = cache_entry_state.local_synchronized then
      if buffers.and cache_buffers.host ≠ cache_buffers.none then
        let q := c.2.write c.1 info
        (q.1, r1.update info (fun _ => q.2), true)
      else (c.1, r1, false)
    else (c.1, r1, false)

/-- The call `texture.invalidate(cache_buffers::local)` that `invalidate` makes
on the other entries of the region: with `buffers = local` only the second
branch of `invalidate` runs. -/
def cached_texture.invalidate_local (t : cached_texture) : cached_texture :=
  { t with m_state := t.m_state.and cache_entry_state.local_synchronized.not }

/-- The callback of `invalidate`: every entry but `this` loses its local bit. -/
def invalidate_callback (this : texture_info) (_s : Unit) (tinfo : texture_info)
    (texture : cached_texture) : Unit × cached_texture :=
  if tinfo ≠ this then ((), texture.invalidate_local) else ((), texture)

/-- Method `cached_texture::invalidate` for the entry stored under `info` in region
`r`, where `m_parent_region` of the entry points at `r` and its `info` at its
own key; `texture_cache.invalidate` follows the pointers. -/
def cached_texture.invalidate (sz : texture_info → Nat) (r : protected_region)
    (info : texture_info) (buffers : cache_buffers) : protected_region :=
  let r1 : protected_region :=
    if buffers.and cache_buffers.host ≠ cache_buffers.none then
      let r0 := r.update info
        (fun t => { t with m_state := t.m_state.and cache_entry_state.host_synchronized.not })
      (r0.for_each sz info.start_address (info.size sz) (invalidate_callback info) ()).2
    else r
  if buffers.and cache_buffers.local_ ≠ cache_buffers.none then
    r1.update info
      (fun t => { t with m_state := t.m_state.and cache_entry_state.local_synchronized.not })
  else r1

/-! ## `protected_region` -/

/-- Modelled from the spec: `protected_region::size()`, declared in the header:
the byte length `pages_count * page_size` of the region, a `u32`. -/
def protected_region.size (r : protected_region) : Nat := u32 (r.pages_count * vm.page_size)

/-- Method `protected_region::requires_protection`: the union of the entries' needs. -/
def protected_region.requires_protection (r : protected_region) : cache_access :=
  r.m_textures.foldl (fun result entry => result.or entry.2.requires_protection) cache_access.none

/-- The flags `protect()` computes from a required access. -/
def protection_flags (required_protection : cache_access) : Nat :=
  let flags1 : Nat :=
    if required_protection.and cache_access.read ≠ cache_access.none then
      0 ||| vm.page_readable
    else 0
  if required_protection.and cache_access.write ≠ cache_access.none then
    flags1 ||| vm.page_writable
  else flags1

/-- Method `protected_region::protect`. -/
def protected_region.protect (w : backend) (r : protected_region) : backend × protected_region :=
  let flags := protection_flags r.requires_protection
  if r.m_current_protection ≠ flags then
    (w.call (backend_call.page_protect r.start_address r.size 0
        (r.m_current_protection &&& u32_not flags) flags),
      { r with m_current_protection := flags })
  else (w, r)

/-- Method `protected_region::unprotect(access)`. -/
def protected_region.unprotect (w : backend) (r : protected_region) (access : cache_access) :
    backend × protected_region :=
  let flags1 : Nat :=
    if access.and cache_access.read ≠ cache_access.none then
      if r.m_current_protection &&& vm.page_readable ≠ 0 then 0 ||| vm.page_readable else 0
    else 0
  let flags : Nat :=
    if access.and cache_access.write ≠ cache_access.none then
      if r.m_current_protection &&& vm.page_writable ≠ 0 then flags1 ||| vm.page_writable
      else flags1
    else flags1
  (w.call (backend_call.page_protect r.start_address r.size 0 flags 0),
    { r with m_current_protection := r.m_current_protection &&& u32_not flags })

/-- Modelled from the spec: the default argument of `unprotect()`, declared in
the header: `clear()` and `combine()` release the whole protection. -/
def unprotect_default : cache_access := cache_access.read_write

/-- Model of `std::map::emplace`: a new pair is stored only if the key is absent; new
pairs are visited last. -/
def texture_map_emplace (m : texture_map) (info : texture_info) (t : cached_texture) :
    texture_map × Bool :=
  match assoc_find info m with
  | some _ => (m, false)
  | none => (m ++ [(info, t)], true)

/-- Model of `std::map::insert(first, last)`: emplace every pair of `other` in turn. -/
def texture_map_insert_range : texture_map → texture_map → texture_map
  | [], m => m
  | (info, t) :: rest, m => texture_map_insert_range rest (texture_map_emplace m info t).1

/-- The assignment `texture.info = &key` for the key `info` of the map of the
region at address `region`. -/
def cached_texture.set_info (t : cached_texture) (region : Nat) (info : texture_info) :
    cached_texture :=
  { t with info := some (region, info) }

/-- Method `cached_texture::parent`. -/
def cached_texture.parent (t : cached_texture) (region : Nat) : cached_texture :=
  { t with m_parent_region := some region }

/-- Method `protected_region::combine` called on the region at address `this` with
argument `region`; returns the new values of `*this` and of `region`. -/
def protected_region.combine (w : backend) (this : Nat) (self region : protected_region) :
    backend × protected_region × protected_region :=
  let u1 := region.unprotect w unprotect_default
  let u2 := self.unprotect u1.1 unprotect_default
  let region1 : protected_region :=
    { u1.2 with m_textures := u1.2.m_textures.map (fun texture => (texture.1, texture.2.parent this)) }
  let self1 : protected_region :=
    { u2.2 with m_textures := texture_map_insert_range region1.m_textures u2.2.m_textures }
  if region1.start_address < self1.start_address then
    (u2.1,
      { self1 with
        pages_count :=
          u32 (self1.pages_count + u32_sub self1.start_address region1.start_address / vm.page_size)
        start_address := region1.start_address },
      region1)
  else
    (u2.1,
      { self1 with
        pages_count :=
          u32_sub (u32 (region1.start_address + region1.pages_count)) self1.start_address
            / vm.page_size },
      region1)

/-- Method `protected_region::add` called on the region at address `this`; `none` is
the exception thrown for a descriptor that is already present. -/
def protected_region.add (this : Nat) (r : protected_region) (info : texture_info) :
    Option protected_region :=
  let result := texture_map_emplace r.m_textures info cached_texture.fresh
  if !result.2 then none
  else some { r with
    m_textures := assoc_modify info (fun t => (t.set_info this info).parent this) result.1 }

/-- Method `protected_region::find`. -/
def protected_region.find (r : protected_region) (info : texture_info) : Option cached_texture :=
  assoc_find info r.m_textures

/-- Method `cached_texture::remove`. -/
def cached_texture.remove (w : backend) (t : cached_texture) : backend × cached_texture :=
  if t.created then (w.call (backend_call.glDeleteTextures t.gl_name), { t with gl_name := 0 })
  else (w, t)

/-- The loop of `protected_region::clear` that removes every entry's texture. -/
def remove_loop (w : backend) : texture_map → backend
  | [] => w
  | (_, t) :: rest => remove_loop (t.remove w).1 rest

/-- Method `protected_region::clear`. -/
def protected_region.clear (w : backend) (r : protected_region) : backend × protected_region :=
  let u := r.unprotect w unprotect_default
  (remove_loop u.1 u.2.m_textures, { u.2 with m_textures := [] })

/-! ## `texture_cache` -/

/-- The member `m_protected_regions`, a `std::map<u32, protected_region>` in
iteration order, which is ascending key order. -/
abbrev region_map := List (Nat × protected_region)

/-- The class `texture_cache`. -/
structure texture_cache where
  m_protected_regions : region_map
deriving DecidableEq, Repr

/-- The registry without regions. -/
def texture_cache.empty : texture_cache := { m_protected_regions := [] }

/-- Modelled from the spec: the region that `operator[]` stores for a new key,
whose member initialisers are in the header: no entries, no protection applied;
`entry()` assigns `start_address` and `pages_count` right after. -/
def protected_region.fresh : protected_region :=
  { start_address := 0, pages_count := 0, m_textures := [], m_current_protection := 0 }

/-- Insertion of a new key into the map, keeping ascending key order. -/
def region_map_insert (key : Nat) (region : protected_region) : region_map → region_map
  | [] => [(key, region)]
  | (k1, r1) :: rest =>
    if key < k1 then (key, region) :: (k1, r1) :: rest
    else (k1, r1) :: region_map_insert key region rest

/-- The subscript `m_protected_regions[key]`: the map after the access; the key is added with
a value-initialised region if it is absent. -/
def region_map_index (key : Nat) (m : region_map) : region_map :=
  match assoc_find key m with
  | some _ => m
  | none => region_map_insert key protected_region.fresh m

/-- The loop of `texture_cache::find_region`; the result points at a region. -/
def find_region_loop (address : Nat) : region_map → Option Nat
  | [] => none
  | (key, region) :: rest =>
    if key > address then none
    else if address ≥ key ∧ address < u32 (key + region.size) then some key
    else find_region_loop address rest

/-- Method `texture_cache::find_region`. -/
def texture_cache.find_region (c : texture_cache) (address : Nat) : Option Nat :=
  find_region_loop address c.m_protected_regions

/-- The loop of `texture_cache::find_regions`; the result points at regions. -/
def find_regions_loop (address size : Nat) : region_map → List Nat
  | [] => []
  | (key, region) :: rest =>
    if key ≥ u32 (address + size) then []
    else if u32 (key + region.size) ≤ address then find_regions_loop address size rest
    else key :: find_regions_loop address size rest

/-- Method `texture_cache::find_regions`. -/
def texture_cache.find_regions (c : texture_cache) (address size : Nat) : List Nat :=
  find_regions_loop address size c.m_protected_regions

/-- The loop of `texture_cache::update_protection`. -/
def update_protection_loop (w : backend) : region_map → backend × region_map
  | [] => (w, [])
  | (key, region) :: rest =>
    let p := region.protect w
    let q := update_protection_loop p.1 rest
    (q.1, (key, p.2) :: q.2)

/-- Method `texture_cache::update_protection`. -/
def texture_cache.update_protection (w : backend) (c : texture_cache) : backend × texture_cache :=
  let q := update_protection_loop w c.m_protected_regions
  (q.1, { m_protected_regions := q.2 })

/-- The loop of `texture_cache::clear` that clears every region. -/
def clear_loop (w : backend) : region_map → backend × region_map
  | [] => (w, [])
  | (key, region) :: rest =>
    let p := region.clear w
    let q := clear_loop p.1 rest
    (q.1, (key, p.2) :: q.2)

/-- Method `texture_cache::clear`: every region is cleared, then the map is emptied. -/
def texture_cache.clear (w : backend) (c : texture_cache) : backend × texture_cache :=
  let q := clear_loop w c.m_protected_regions
  (q.1, { m_protected_regions := [] })

/-- The loop of `entry()` over `regions[1..]`: combine each region into
`regions[0]` (the pointer `region`) and remember its `start_address`.  A
pointer that is not in the map cannot be dereferenced (`none`). -/
def entry_combine_loop (region : Nat) :
    List Nat → backend → region_map → List Nat → Option (backend × region_map × List Nat)
  | [], w, m, remove_addresses => some (w, m, remove_addresses)
  | index :: rest, w, m, remove_addresses =>
    match assoc_find region m, assoc_find index m with
    | some self, some other =>
      let c := self.combine w region other
      let m1 := assoc_modify region (fun _ => c.2.1) m
      let m2 := assoc_modify index (fun _ => c.2.2) m1
      entry_combine_loop region rest c.1 m2 (remove_addresses ++ [c.2.2.start_address])
    | _, _ => none

/-- The loop of `entry()` that erases the remembered addresses. -/
def entry_erase_loop : List Nat → region_map → region_map
  | [], m => m
  | address :: rest, m => entry_erase_loop rest (assoc_erase address m)

/-- The part of `entry()` that determines the region of the descriptor: the
map afterwards and the pointer `region`. -/
def entry_region (sz : texture_info → Nat) (w : backend) (m : region_map) (info : texture_info) :
    Option (backend × region_map × Nat) :=
  let aligned_address := info.start_address &&& u32_not (vm.page_size - 1)
  let aligned_size := align (info.size sz) vm.page_size
  match find_regions_loop aligned_address aligned_size m with
  | [] =>
    let m1 := region_map_index aligned_address m
    some (w, assoc_modify aligned_address
      (fun r => { r with pages_count := aligned_size / vm.page_size
                         start_address := aligned_address }) m1, aligned_address)
  | region :: others =>
    match entry_combine_loop region others w m [] with
    | none => none
    | some (w1, m1, remove_addresses) =>
      let m2 := entry_erase_loop remove_addresses m1
      match assoc_find region m2 with
      | none => none
      | some r =>
        let r1 : protected_region :=
          if r.start_address > aligned_address then
            { r with
              pages_count :=
                u32 (r.pages_count + u32_sub r.start_address aligned_address / vm.page_size)
              start_address := aligned_address }
          else r
        let new_pages_count :=
          u32_sub (u32 (aligned_address + aligned_size)) r1.start_address / vm.page_size
        let r2 : protected_region := { r1 with pages_count := max r1.pages_count new_pages_count }
        some (w1, assoc_modify region (fun _ => r2) m2, region)

/-- Method `texture_cache::entry`.  The result is the new state and the pointer to the
region holding the returned entry, which is stored there under `info`.  The
result is `none` where the code dereferences a pointer to an erased region. -/
def texture_cache.entry (sz : texture_info → Nat) (w : backend) (c : texture_cache)
    (info : texture_info) (sync : cache_buffers) : Option (backend × texture_cache × Nat) :=
  match entry_region sz w c.m_protected_regions info with
  | none => none
  | some (w1, m1, region) =>
    match assoc_find region m1 with
    | none => none
    | some r =>
      let added : Option protected_region :=
        match r.find info with
        | some _ => some r
        | none => r.add region info
      match added with
      | none => none
      | some r1 =>
        let s := cached_texture.sync sz w1 r1 info sync
        some (s.1, { m_protected_regions := assoc_modify region (fun _ => s.2.1) m1 }, region)

/-! ## Observations used in the statements -/

/-- The state of the entry stored under `info` in the region, if there is one. -/
def protected_region.state_of (r : protected_region) (info : texture_info) :
    Option cache_entry_state :=
  (assoc_find info r.m_textures).map cached_texture.m_state

/-- A call that moves pixel data: an upload from guest memory, a download to
guest memory, or a copy between two textures. -/
def backend_call.is_transfer : backend_call → Bool
  | backend_call.glTexImage2D _ _ (some _) => true
  | backend_call.glCompressedTexImage2D _ _ _ => true
  | backend_call.glCopyImageSubData _ _ _ _ _ => true
  | backend_call.glGetTexImage _ _ _ => true
  | _ => false

/-- The pixel transfers issued so far. -/
def backend.transfers (w : backend) : List backend_call :=
  w.trace.filter backend_call.is_transfer

/-! ## Concrete inputs -/

/-- A size function for concrete inputs: `pitch * height` bytes. -/
def example_size (info : texture_info) : Nat := info.pitch * info.height

/-- A colour descriptor at `address` with the given pitch, width and height. -/
def example_info (address pitch width height : Nat) : texture_info :=
  { start_address := address, pitch := pitch, width := width, height := height, depth := 1,
    format := { bpp := 4, format := texture.format.rgba, swap_bytes := false },
    compressed_size := 0 }

/-- The backend before any call. -/
def backend.initial : backend := { trace := [], names := 0 }

/-- A region of 64 pages at `0x1000` holding one entry that was just added. -/
def example_region_one_invalid : protected_region :=
  { start_address := 4096, pages_count := 64,
    m_textures := [(example_info 4096 1024 256 256, cached_texture.fresh)],
    m_current_protection := 0 }

/-- A region at the top of the address space: entry `A` covers the last page
`[0xFFFFF000, 2^32)`, entry `B` its first half; both are `synchronized`. -/
def example_region_top : protected_region :=
  { start_address := 4294963200, pages_count := 1,
    m_textures :=
      [(example_info 4294963200 4096 1024 1,
          { gl_name := 1, m_state := cache_entry_state.synchronized, m_parent_region := some 4294963200,
            info := some (4294963200, example_info 4294963200 4096 1024 1) }),
       (example_info 4294963200 2048 512 1,
          { gl_name := 2, m_state := cache_entry_state.synchronized, m_parent_region := some 4294963200,
            info := some (4294963200, example_info 4294963200 2048 512 1) })],
    m_current_protection := 0 }

/-- The protection an entry in state `s` requires, in the words of the spec:
`local_synchronized` requires read and write, `synchronized` requires write
only, `invalid` and `host_synchronized` require nothing. -/
def entry_requirement (s : cache_entry_state) : Nat :=
  if s = cache_entry_state.local_synchronized then vm.page_readable ||| vm.page_writable
  else if s = cache_entry_state.synchronized then vm.page_writable
  else 0

/-- The union over the entries of a region of each entry's requirement, in the
words of the spec; no entries, no flags. -/
def region_requirement : texture_map → Nat
  | [] => 0
  | (_, t) :: rest => entry_requirement t.m_state ||| region_requirement rest

/-- Whether a call is a `vm::page_protect`. -/
def backend_call.is_page_protect : backend_call → Bool
  | backend_call.page_protect _ _ _ _ _ => true
  | _ => false

/-- The number of `vm::page_protect` calls issued so far. -/
def backend.protect_calls (w : backend) : Nat :=
  (w.trace.filter backend_call.is_page_protect).length

/-- A registry holding one region to which no protection is applied. -/
def example_cache_unprotected : texture_cache :=
  { m_protected_regions := [(4096, example_region_one_invalid)] }

/-- A sequence of `entry()` calls, each made on the state the previous call
left; `none` if one of the calls dereferences a pointer to an erased region. -/
def entry_sequence (sz : texture_info → Nat) :
    backend × texture_cache → List (texture_info × cache_buffers) → Option (backend × texture_cache)
  | s, [] => some s
  | s, (info, sync) :: rest =>
    match s.2.entry sz s.1 info sync with
    | none => none
    | some (w1, c1, _) => entry_sequence sz (w1, c1) rest

/-- Whether the ranges `[start_address, start_address + pages_count * page_size)`
of two regions have a byte in common. -/
def ranges_intersect (a b : protected_region) : Bool :=
  decide (max a.start_address b.start_address <
    min (a.start_address + a.pages_count * vm.page_size)
      (b.start_address + b.pages_count * vm.page_size))

/-- Whether two of the regions in the map have intersecting ranges. -/
def has_overlap : region_map → Bool
  | [] => false
  | (_, r) :: rest => rest.any (fun p => ranges_intersect r p.2) || has_overlap rest

/-- Two values of a region that differ at most in the entries' own fields: the
range, the applied protection and the descriptors held are the same. -/
def same_shape (r r1 : protected_region) : Prop :=
  r1.start_address = r.start_address ∧ r1.pages_count = r.pages_count ∧
    r1.m_current_protection = r.m_current_protection ∧
    r1.m_textures.map Prod.fst = r.m_textures.map Prod.fst

/-- The key, start address and page count of every region of the registry. -/
def texture_cache.ranges (c : texture_cache) : List (Nat × Nat × Nat) :=
  c.m_protected_regions.map (fun p => (p.1, p.2.start_address, p.2.pages_count))

/-- The range of the surviving region after `entry()` has grown it to cover
the aligned range of the descriptor. -/
def grown (r : protected_region) (aligned_address aligned_size : Nat) : protected_region :=
  let r1 : protected_region :=
    if r.start_address > aligned_address then
      { r with
        pages_count :=
          u32 (r.pages_count + u32_sub r.start_address aligned_address / vm.page_size)
        start_address := aligned_address }
    else r
  { r1 with
    pages_count := max r1.pages_count
      (u32_sub (u32 (aligned_address + aligned_size)) r1.start_address / vm.page_size) }

/-! ## Observations used in the statements about the registry and `combine` -/

/-- Whether the byte ranges `[start_address, start_address + size())` of two
descriptors have a byte in common. -/
def descriptors_overlap (sz : texture_info → Nat) (a b : texture_info) : Bool :=
  decide (max a.start_address b.start_address <
    min (a.start_address + a.size sz) (b.start_address + b.size sz))

/-- Every entry of the registry, as the key of its region and its descriptor. -/
def texture_cache.entries (c : texture_cache) : List (Nat × texture_info) :=
  c.m_protected_regions.flatMap (fun p => p.2.m_textures.map (fun e => (p.1, e.1)))

/-- Whether two entries stored in different regions of the registry have
overlapping byte ranges. -/
def texture_cache.has_split_overlap (sz : texture_info → Nat) (c : texture_cache) : Bool :=
  c.entries.any (fun a => c.entries.any (fun b =>
    decide (a.1 ≠ b.1) && descriptors_overlap sz a.2 b.2))

/-- Whether the range `[start_address, start_address + pages_count * page_size)`
of the region contains the byte range of the descriptor. -/
def region_contains (sz : texture_info → Nat) (r : protected_region) (d : texture_info) : Bool :=
  decide (r.start_address ≤ d.start_address ∧
    d.start_address + d.size sz ≤ r.start_address + r.pages_count * vm.page_size)

/-- Whether the region starts on a page boundary and its range contains the
byte range of every descriptor stored in it. -/
def region_covers (sz : texture_info → Nat) (r : protected_region) : Bool :=
  decide (r.start_address % vm.page_size = 0) && r.m_textures.all (fun e => region_contains sz r e.1)

/-- The end `start_address + pages_count * page_size` of the range of a region. -/
def protected_region.range_end (r : protected_region) : Nat :=
  r.start_address + r.pages_count * vm.page_size

/-- A region of one page at address 0 without entries. -/
def example_region_low : protected_region :=
  { start_address := 0, pages_count := 1, m_textures := [], m_current_protection := 0 }

/-- A region of one page at `0x2000` holding one entry. -/
def example_region_high : protected_region :=
  { start_address := 8192, pages_count := 1,
    m_textures :=
      [(example_info 8192 4096 1024 1,
        (cached_texture.fresh.set_info 8192 (example_info 8192 4096 1024 1)).parent 8192)],
    m_current_protection := 0 }

/-! ## Observations used in the statements about transfers and lookups -/

/-- A call that uploads pixel data from guest memory into a texture. -/
def backend_call.is_upload : backend_call → Bool
  | backend_call.glTexImage2D _ _ (some _) => true
  | backend_call.glCompressedTexImage2D _ _ _ => true
  | _ => false

/-- The uploads from guest memory issued so far. -/
def backend.uploads (w : backend) : List backend_call :=
  w.trace.filter backend_call.is_upload

/-- A call that copies pixel data from one texture to another. -/
def backend_call.is_copy : backend_call → Bool
  | backend_call.glCopyImageSubData _ _ _ _ _ => true
  | _ => false

/-- The texture-to-texture copies issued so far. -/
def backend.copies (w : backend) : List backend_call :=
  w.trace.filter backend_call.is_copy

/-- The test by which `find_regions(address, size)` keeps a region stored under
`key`: `key < address + size` and `address < key + size()`, both sums in `u32`
arithmetic. -/
def overlap_test (address size key : Nat) (region : protected_region) : Bool :=
  decide (key < u32 (address + size) ∧ address < u32 (key + region.size))

/-- A registry with one region of two pages under key `0x1000`. -/
def example_cache_two_pages : texture_cache :=
  { m_protected_regions :=
      [(4096, { start_address := 4096, pages_count := 2, m_textures := [],
                m_current_protection := 0 })] }

/-- The test by which `read()` for the descriptor `info` accepts the entry
`texture` stored under `tinfo` as the source of a copy: `for_each` visits it
(the two comparisons of its `u32` sums pass), its local bit is set, it starts
at the same address with the same pitch, and it is at least as high and as
wide. -/
def is_donor (sz : texture_info → Nat) (info tinfo : texture_info) (texture : cached_texture) :
    Bool :=
  decide (tinfo.start_address < u32 (info.start_address + info.size sz) ∧
    info.start_address < u32 (tinfo.start_address + tinfo.size sz) ∧
    texture.m_state.local_bit = true ∧
    tinfo.start_address = info.start_address ∧ tinfo.pitch = info.pitch ∧
    info.height ≤ tinfo.height ∧ info.width ≤ tinfo.width)

/-- The upload that the host path of `read()` issues for the descriptor `info`
into the texture `name`: none for a depth format, a compressed upload if there
is a `compressed_size`, a plain upload otherwise. -/
def host_upload (info : texture_info) (name : Nat) : List backend_call :=
  if info.format.format = texture.format.depth ∨
      info.format.format = texture.format.depth_stencil then []
  else if info.compressed_size ≠ 0 then
    [backend_call.glCompressedTexImage2D name info info.start_address]
  else [backend_call.glTexImage2D name info (some info.start_address)]

/-- A region of two pages at `0x1000`: entry `A` covers both pages and is
`synchronized`, entry `B` covers the second page and is `invalid`. -/
def example_region_contained : protected_region :=
  { start_address := 4096, pages_count := 2,
    m_textures :=
      [(example_info 4096 4096 1024 2,
          { gl_name := 1, m_state := cache_entry_state.synchronized, m_parent_region := some 4096,
            info := some (4096, example_info 4096 4096 1024 2) }),
       (example_info 8192 4096 1024 1,
          { gl_name := 2, m_state := cache_entry_state.invalid, m_parent_region := some 4096,
            info := some (4096, example_info 8192 4096 1024 1) })],
    m_current_protection := 0 }

/-- Inclusion of authority bits: every bit set in `a` is set in `b`. -/
def cache_entry_state.subset (a b : cache_entry_state) : Prop :=
  (a.host_bit = true → b.host_bit = true) ∧ (a.local_bit = true → b.local_bit = true)

/-! ## `invalidate` and `read` through the pointers of the entry -/

/-- Dereference of a `protected_region*`: the region stored at that address. -/
def texture_cache.region (c : texture_cache) (address : Nat) : Option protected_region :=
  assoc_find address c.m_protected_regions

/-- Store through a `protected_region*`. -/
def texture_cache.set_region (c : texture_cache) (address : Nat) (r : protected_region) :
    texture_cache :=
  { m_protected_regions := assoc_modify address (fun _ => r) c.m_protected_regions }

/-- Dereference of the pointer `info` of an entry: the descriptor pointed at,
if the region whose map held it is still in the registry and still holds it;
`none` for a pointer that was never set or that dangles.  A region is
identified by its address in the registry. -/
def texture_cache.deref_info (c : texture_cache) (t : cached_texture) : Option texture_info :=
  match t.info with
  | none => none
  | some (address, k) =>
    match c.region address with
    | none => none
    | some r => if (assoc_find k r.m_textures).isSome then some k else none

/-- The callback of `invalidate`, called by the entry stored under `this` in
the region at `holder`, on the entry stored under `tinfo` in the region at
`region`: `std::addressof(texture) != this` compares the two objects, which
are the same only if they are stored under the same key of the same region. -/
def texture_cache.invalidate_callback (holder : Nat) (this : texture_info) (region : Nat)
    (_s : Unit) (tinfo : texture_info) (texture : cached_texture) : Unit × cached_texture :=
  if ¬ (region = holder ∧ tinfo = this) then ((), texture.invalidate_local) else ((), texture)

/-- Method `cached_texture::invalidate` of the entry stored under `key` in the region
at `holder`.  The loop runs over the region `m_parent_region` points at, with
the range of the descriptor `info` points at; the result is `none` when one of
the two pointers is dereferenced while null or dangling. -/
def texture_cache.invalidate (sz : texture_info → Nat) (c : texture_cache) (holder : Nat)
    (key : texture_info) (buffers : cache_buffers) : Option texture_cache :=
  match c.region holder with
  | none => none
  | some r =>
    match assoc_find key r.m_textures with
    | none => none
    | some this =>
      let c1 : Option texture_cache :=
        if buffers.and cache_buffers.host ≠ cache_buffers.none then
          let c0 := c.set_region holder (r.update key
            (fun t => { t with m_state := t.m_state.and cache_entry_state.host_synchronized.not }))
          match c0.deref_info this, this.m_parent_region with
          | some info, some parent =>
            match c0.region parent with
            | none => none
            | some rp =>
              some (c0.set_region parent
                (rp.for_each sz info.start_address (info.size sz)
                  (texture_cache.invalidate_callback holder key parent) ()).2)
          | _, _ => none
        else some c
      match c1 with
      | none => none
      | some c2 =>
        if buffers.and cache_buffers.local_ ≠ cache_buffers.none then
          match c2.region holder with
          | none => none
          | some r2 =>
            some (c2.set_region holder (r2.update key
              (fun t =>
                { t with m_state := t.m_state.and cache_entry_state.local_synchronized.not })))
        else some c2

/-- The first callback of `read()`, with `texture.info` dereferenced where the
code does: only for an entry whose local bit is set.  The outer `none` records
that a null or dangling pointer was dereferenced. -/
def texture_cache.read_find_callback (c : texture_cache) (info : texture_info)
    (found : Option (Option (texture_info × cached_texture))) (_tinfo : texture_info)
    (texture : cached_texture) :
    Option (Option (texture_info × cached_texture)) × cached_texture :=
  match found with
  | none => (none, texture)
  | some found_texture =>
    if texture.m_state.and cache_entry_state.local_synchronized = cache_entry_state.invalid then
      (some found_texture, texture)
    else
      match c.deref_info texture with
      | none => (none, texture)
      | some tinfo =>
        if tinfo.start_address ≠ info.start_address ∨ tinfo.pitch ≠ info.pitch ∨
            tinfo.height < info.height ∨ tinfo.width < info.width then
          (some found_texture, texture)
        else
          (some (some (tinfo, texture)), texture)

/-- The call `texture.sync(gl::cache_buffers::host)` of `read()`, with `texture.info`
dereferenced where the code does: in `create()` and in `write()`. -/
def texture_cache.sync_host (c : texture_cache) (w : backend) (t : cached_texture) :
    Option (backend × cached_texture × Bool) :=
  let created : Option (backend × cached_texture) :=
    if !t.created then
      match c.deref_info t with
      | none => none
      | some info => some (t.create w info)
    else some (w, t)
  match created with
  | none => none
  | some p =>
    if p.2.m_state = cache_entry_state.invalid ∨
        p.2.m_state = cache_entry_state.host_synchronized then
      some (p.1, p.2, false)
    else if p.2.m_state = cache_entry_state.local_synchronized then
      match c.deref_info p.2 with
      | none => none
      | some info =>
        let q := p.2.write p.1 info
        some (q.1, q.2, true)
    else
      some (p.1, p.2, false)

/-- The second callback of `read()`, through the pointer `texture.info`. -/
def texture_cache.read_flush_callback (c : texture_cache) (s : Option backend)
    (_tinfo : texture_info) (texture : cached_texture) : Option backend × cached_texture :=
  match s with
  | none => (none, texture)
  | some w =>
    match c.sync_host w texture with
    | none => (none, texture)
    | some p => (some p.1, p.2.1)

/-- Method `cached_texture::read` of the entry stored under `key` in the region at
`holder`.  The descriptor is the one `info` points at, both loops run over the
region `m_parent_region` points at, and the callbacks read the `info` of the
entries they visit; the result is `none` when a pointer is dereferenced while
null or dangling. -/
def texture_cache.read (sz : texture_info → Nat) (w : backend) (c : texture_cache)
    (holder : Nat) (key : texture_info) : Option (backend × texture_cache) :=
  match c.region holder with
  | none => none
  | some r =>
    match assoc_find key r.m_textures with
    | none => none
    | some this =>
      match c.deref_info this, this.m_parent_region with
      | some info, some parent =>
        match c.region parent with
        | none => none
        | some rp =>
          let texture_size := info.size sz
          match (rp.for_each sz info.start_address texture_size
              (c.read_find_callback info) (some none)).1 with
          | none => none
          | some (some found_texture) =>
            let w1 := w.call (backend_call.glCopyImageSubData found_texture.2.gl_name
              this.gl_name info.width info.height info.depth)
            some (w1, c.set_region holder (r.update key (fun t => t.ignore cache_buffers.all)))
          | some none =>
            let p := rp.for_each sz info.start_address texture_size
              c.read_flush_callback (some w)
            match p.1 with
            | none => none
            | some w1 =>
              let c1 := c.set_region parent p.2
              match c1.region holder with
              | none => none
              | some r1 =>
                match assoc_find key r1.m_textures with
                | none => none
                | some this1 =>
                  let w2 := this1.bind w1
                  let w3 := read_upload w2 info this1
                  some (w3,
                    c1.set_region holder (r1.update key (fun t => t.ignore cache_buffers.all)))
      | _, _ => none

/-- The state of the entry stored under `info` in the region at `address`. -/
def texture_cache.state_of (c : texture_cache) (address : Nat) (info : texture_info) :
    Option cache_entry_state :=
  match c.region address with
  | none => none
  | some r => r.state_of info

/-- The test by which `read()` for the descriptor `info` accepts the entry
`texture` stored under `tinfo` as the source of a copy, for byte ranges that
do not wrap: the byte ranges overlap, the local bit of `texture` is set, it
starts at the same address with the same pitch, and it is at least as high and
as wide. -/
def donor_test (sz : texture_info → Nat) (info tinfo : texture_info) (texture : cached_texture) :
    Bool :=
  decide (tinfo.start_address < info.start_address + info.size sz ∧
    info.start_address < tinfo.start_address + tinfo.size sz ∧
    texture.m_state.local_bit = true ∧
    tinfo.start_address = info.start_address ∧ tinfo.pitch = info.pitch ∧
    info.height ≤ tinfo.height ∧ info.width ≤ tinfo.width)

/-- The registry that holds `example_region_top` at its address: both entries
have `m_parent_region` and `info` as `add` sets them. -/
def example_cache_top : texture_cache :=
  { m_protected_regions := [(4294963200, example_region_top)] }

/-- The registry that holds `example_region_contained` at its address: both
entries have `m_parent_region` and `info` as `add` sets them. -/
def example_cache_contained : texture_cache :=
  { m_protected_regions := [(4096, example_region_contained)] }

/-- Four `entry()` calls: one page at `0x2000`, two pages at `0x1000`, one page
at 0 and three pages at 0, each synchronising the local side. -/
def example_calls_reparent : List (texture_info × cache_buffers) :=
  [(example_info 8192 4096 1024 1, cache_buffers.local_),
   (example_info 4096 4096 1024 2, cache_buffers.local_),
   (example_info 0 4096 1024 1, cache_buffers.local_),
   (example_info 0 4096 1024 3, cache_buffers.local_)]

/-- A region at the top of the address space: entry `A` covers the last page
`[0xFFFFF000, 2^32)` and is `synchronized`; entry `B` starts at the same
address with the same pitch and height and half the width, has its texture
and is `invalid`. -/
def example_region_top_invalid : protected_region :=
  { start_address := 4294963200, pages_count := 1,
    m_textures :=
      [(example_info 4294963200 4096 1024 1,
          { gl_name := 1, m_state := cache_entry_state.synchronized,
            m_parent_region := some 4294963200,
            info := some (4294963200, example_info 4294963200 4096 1024 1) }),
       (example_info 4294963200 4096 512 1,
          { gl_name := 2, m_state := cache_entry_state.invalid,
            m_parent_region := some 4294963200,
            info := some (4294963200, example_info 4294963200 4096 512 1) })],
    m_current_protection := 0 }

/-- The registry that holds `example_region_top_invalid` at its address. -/
def example_cache_top_invalid : texture_cache :=
  { m_protected_regions := [(4294963200, example_region_top_invalid)] }

/-- Whether the `info` of every entry of the region at `address` points at the
key under which the entry is stored in that region. -/
def texture_cache.info_intact (c : texture_cache) (address : Nat) : Bool :=
  match c.region address with
  | none => false
  | some r => r.m_textures.all (fun p => decide (p.2.info = some (address, p.1)))

/-- The pointers `m_parent_region` of the entries of the region at `address`. -/
def texture_cache.parents_of (c : texture_cache) (address : Nat) :
    List (texture_info × Option Nat) :=
  match c.region address with
  | none => []
  | some r => r.m_textures.map (fun p => (p.1, p.2.m_parent_region))

/-! ## Association lists -/

theorem assoc_find_modify_self {α β : Type} [DecidableEq α] (k : α) (f : β → β)
    (l : List (α × β)) : assoc_find k (assoc_modify k f l) = (assoc_find k l).map f := by
  induction l with
  | nil => rfl
  | cons p rest ih =>
    obtain ⟨k1, v⟩ := p
    by_cases h : k1 = k
    · simp [assoc_find, assoc_modify, h]
    · simp [assoc_find, assoc_modify, h, ih]

theorem assoc_find_modify_ne {α β : Type} [DecidableEq α] (k k2 : α) (f : β → β)
    (l : List (α × β)) (hne : k2 ≠ k) :
    assoc_find k2 (assoc_modify k f l) = assoc_find k2 l := by
  induction l with
  | nil => rfl
  | cons p rest ih =>
    obtain ⟨k1, v⟩ := p
    by_cases h : k1 = k
    · subst h
      have h2 : ¬ k1 = k2 := fun e => hne e.symm
      simp [assoc_find, assoc_modify, h2]
    · by_cases h3 : k1 = k2
      · subst h3
        simp [assoc_find, assoc_modify, h]
      · simp [assoc_find, assoc_modify, h, h3, ih]

theorem assoc_modify_keys {α β : Type} [DecidableEq α] (k : α) (f : β → β)
    (l : List (α × β)) : (assoc_modify k f l).map Prod.fst = l.map Prod.fst := by
  induction l with
  | nil => rfl
  | cons p rest ih =>
    obtain ⟨k1, v⟩ := p
    by_cases h : k1 = k
    · simp [assoc_modify, h]
    · simp [assoc_modify, h, ih]

theorem assoc_find_isSome_iff {α β : Type} [DecidableEq α] (k : α) (l : List (α × β)) :
    (assoc_find k l).isSome = true ↔ k ∈ l.map Prod.fst := by
  induction l with
  | nil => simp [assoc_find]
  | cons p rest ih =>
    obtain ⟨k1, v⟩ := p
    by_cases h : k1 = k
    · simp [assoc_find, h]
    · have h2 : ¬ k = k1 := fun e => h e.symm
      simp [assoc_find, h, h2, ih]

/-! ## Entries -/

theorem buffers_and_host_ne_none (b : cache_buffers) :
    b.and cache_buffers.host ≠ cache_buffers.none ↔ b.host_bit = true := by
  rcases b with ⟨h, l⟩
  cases h <;> cases l <;> decide

theorem buffers_and_local_ne_none (b : cache_buffers) :
    b.and cache_buffers.local_ ≠ cache_buffers.none ↔ b.local_bit = true := by
  rcases b with ⟨h, l⟩
  cases h <;> cases l <;> decide

theorem ignore_all_state (t : cached_texture) :
    (t.ignore cache_buffers.all).m_state = cache_entry_state.synchronized := by
  rcases t with ⟨g, ⟨h, l⟩, p, ip⟩
  cases h <;> cases l <;> rfl

theorem ignore_gl_name (t : cached_texture) (b : cache_buffers) :
    (t.ignore b).gl_name = t.gl_name := by
  unfold cached_texture.ignore
  split <;> split <;> rfl

theorem create_created (w : backend) (info : texture_info) (t : cached_texture) :
    (t.create w info).2.created = true := by
  simp [cached_texture.create, cached_texture.created]

theorem write_state (w : backend) (info : texture_info) (t : cached_texture) :
    (t.write w info).2.m_state = cache_entry_state.synchronized := by
  simp [cached_texture.write, ignore_all_state]

theorem write_created (w : backend) (info : texture_info) (t : cached_texture)
    (h : t.created = true) : (t.write w info).2.created = true := by
  simpa [cached_texture.write, cached_texture.created, ignore_gl_name] using h

theorem sync_host_created (w : backend) (info : texture_info) (t : cached_texture) :
    (t.sync_host w info).2.1.created = true := by
  unfold cached_texture.sync_host
  by_cases hc : t.created = true
  · simp only [hc, Bool.not_true, Bool.false_eq_true, if_false]
    split
    · exact hc
    · split
      · exact write_created w info t hc
      · exact hc
  · have hc2 : t.created = false := by simpa using hc
    simp only [hc2, Bool.not_false, if_true]
    split
    · exact create_created w info t
    · split
      · exact write_created (t.create w info).1 info _ (create_created w info t)
      · exact create_created w info t

/-! ## `for_each` -/

theorem for_each_loop_keys {σ : Type} (sz : texture_info → Nat) (a n : Nat)
    (cb : σ → texture_info → cached_texture → σ × cached_texture) (l : texture_map) :
    ∀ s : σ, (for_each_loop sz a n cb s l).2.map Prod.fst = l.map Prod.fst := by
  induction l with
  | nil => intro s; rfl
  | cons p rest ih =>
    intro s
    obtain ⟨k, t⟩ := p
    unfold for_each_loop
    split
    · simp [ih]
    · split
      · simp [ih]
      · simp [ih]

theorem for_each_loop_find {σ : Type} (sz : texture_info → Nat) (a n : Nat)
    (cb : σ → texture_info → cached_texture → σ × cached_texture)
    (P : cached_texture → Prop) (hP : ∀ s k t, P t → P (cb s k t).2)
    (info : texture_info) (l : texture_map) :
    ∀ (s : σ) (t : cached_texture), assoc_find info l = some t → P t →
      ∃ t1, assoc_find info (for_each_loop sz a n cb s l).2 = some t1 ∧ P t1 := by
  induction l with
  | nil => intro s t h; simp [assoc_find] at h
  | cons p rest ih =>
    intro s t h hPt
    obtain ⟨k, v⟩ := p
    unfold for_each_loop
    by_cases hk : k = info
    · subst hk
      have hv : v = t := by simpa [assoc_find] using h
      subst hv
      split
      · exact ⟨v, by simp [assoc_find], hPt⟩
      · split
        · exact ⟨v, by simp [assoc_find], hPt⟩
        · exact ⟨(cb s k v).2, by simp [assoc_find], hP s k v hPt⟩
    · have h1 : assoc_find info rest = some t := by simpa [assoc_find, hk] using h
      split
      · obtain ⟨t1, h2, h3⟩ := ih s t h1 hPt
        exact ⟨t1, by simpa [assoc_find, hk] using h2, h3⟩
      · split
        · obtain ⟨t1, h2, h3⟩ := ih s t h1 hPt
          exact ⟨t1, by simpa [assoc_find, hk] using h2, h3⟩
        · obtain ⟨t1, h2, h3⟩ := ih (cb s k v).1 t h1 hPt
          exact ⟨t1, by simpa [assoc_find, hk] using h2, h3⟩

theorem read_flush_created (w : backend) (k : texture_info) (t : cached_texture) :
    t.created = true → (read_flush_callback w k t).2.created = true := by
  intro _
  exact sync_host_created w k t

/-- After `read()` the entry is `synchronized`, and it still has its texture. -/
theorem read_find (sz : texture_info → Nat) (w : backend) (r : protected_region)
    (info : texture_info) (this : cached_texture)
    (h : assoc_find info r.m_textures = some this) (hc : this.created = true) :
    ∃ t1, assoc_find info (cached_texture.read sz w r info).2.m_textures = some t1 ∧
      t1.m_state = cache_entry_state.synchronized ∧ t1.created = true := by
  unfold cached_texture.read
  simp only [h]
  split
  · refine ⟨this.ignore cache_buffers.all, ?_, ignore_all_state _, ?_⟩
    · simp [protected_region.update, assoc_find_modify_self, h]
    · simpa [cached_texture.created, ignore_gl_name] using hc
  · obtain ⟨t1, h1, h2⟩ := for_each_loop_find sz info.start_address (info.size sz)
      read_flush_callback (fun t => t.created = true) read_flush_created info r.m_textures w
      this h hc
    simp only [protected_region.for_each, h1]
    refine ⟨t1.ignore cache_buffers.all, ?_, ignore_all_state _, ?_⟩
    · simp [protected_region.update, assoc_find_modify_self, h1]
    · simpa [cached_texture.created, ignore_gl_name] using h2

/-! ## `sync` -/

theorem create_state (w : backend) (info : texture_info) (t : cached_texture) :
    (t.create w info).2.m_state = t.m_state := rfl

theorem create_transfers (w : backend) (info : texture_info) (t : cached_texture) :
    (t.create w info).1.transfers = w.transfers := by
  simp [cached_texture.create, cached_texture.bind, backend.call, backend.transfers,
    List.filter_append, backend_call.is_transfer]

/-- The entry after the first step of `sync`, `if (!created()) create();`. -/
theorem sync_create_find (w : backend) (r : protected_region) (info : texture_info)
    (this : cached_texture) (hthis : assoc_find info r.m_textures = some this) :
    assoc_find info
        (if !this.created then
          r.update info (fun _ => (if !this.created then this.create w info else (w, this)).2)
        else r).m_textures
      = some (if !this.created then this.create w info else (w, this)).2 := by
  by_cases hc : this.created = true
  · simp [hc, hthis]
  · have hc2 : this.created = false := by simpa using hc
    simp [hc2, protected_region.update, assoc_find_modify_self, hthis]

theorem sync_create_created (w : backend) (info : texture_info) (this : cached_texture) :
    (if !this.created then this.create w info else (w, this)).2.created = true := by
  by_cases hc : this.created = true
  · simp [hc]
  · have hc2 : this.created = false := by simpa using hc
    simp [hc2, create_created]

theorem sync_create_state (w : backend) (info : texture_info) (this : cached_texture) :
    (if !this.created then this.create w info else (w, this)).2.m_state = this.m_state := by
  by_cases hc : this.created = true
  · simp [hc]
  · have hc2 : this.created = false := by simpa using hc
    simp [hc2, create_state]

theorem sync_create_transfers (w : backend) (info : texture_info) (this : cached_texture) :
    (if !this.created then this.create w info else (w, this)).1.transfers = w.transfers := by
  by_cases hc : this.created = true
  · simp [hc]
  · have hc2 : this.created = false := by simpa using hc
    simp [hc2, create_transfers]

theorem state_cases (s : cache_entry_state) :
    s = cache_entry_state.invalid ∨ s = cache_entry_state.host_synchronized ∨
      s = cache_entry_state.local_synchronized ∨ s = cache_entry_state.synchronized := by
  rcases s with ⟨h, l⟩
  cases h <;> cases l <;> simp [cache_entry_state.invalid, cache_entry_state.host_synchronized,
    cache_entry_state.local_synchronized, cache_entry_state.synchronized]

/-- The three cases of `sync(buffers)`, from which the decision table follows. -/
theorem sync_cases (sz : texture_info → Nat) (w : backend) (r : protected_region)
    (info : texture_info) (this : cached_texture) (buffers : cache_buffers)
    (hthis : assoc_find info r.m_textures = some this) :
    let c := if !this.created then this.create w info else (w, this)
    let r1 := if !this.created then r.update info (fun _ => c.2) else r
    let s := cached_texture.sync sz w r info buffers
    let reads := (this.m_state = cache_entry_state.invalid ∨
        this.m_state = cache_entry_state.host_synchronized) ∧ buffers.local_bit = true
    let writes := this.m_state = cache_entry_state.local_synchronized ∧ buffers.host_bit = true
    (reads → s = ((cached_texture.read sz c.1 r1 info).1, (cached_texture.read sz c.1 r1 info).2, true)
        ∧ s.2.1.state_of info = some cache_entry_state.synchronized) ∧
    (writes → s = ((c.2.write c.1 info).1, r1.update info (fun _ => (c.2.write c.1 info).2), true)
        ∧ s.2.1.state_of info = some cache_entry_state.synchronized) ∧
    (¬ (reads ∨ writes) → s = (c.1, r1, false) ∧ s.1.transfers = w.transfers
        ∧ s.2.1.state_of info = some this.m_state) ∧
    ((s.2.2 = true ∧ s.2.1.state_of info = some cache_entry_state.synchronized) ↔
        (reads ∨ writes)) := by
  intro c r1 s reads writes
  have hfind : assoc_find info r1.m_textures = some c.2 := sync_create_find w r info this hthis
  have hcreated : c.2.created = true := sync_create_created w info this
  have hstate : c.2.m_state = this.m_state := sync_create_state w info this
  have htrans : c.1.transfers = w.transfers := sync_create_transfers w info this
  have hread : reads → s = ((cached_texture.read sz c.1 r1 info).1,
      (cached_texture.read sz c.1 r1 info).2, true)
        ∧ s.2.1.state_of info = some cache_entry_state.synchronized := by
    intro hr
    have hs : s = ((cached_texture.read sz c.1 r1 info).1,
        (cached_texture.read sz c.1 r1 info).2, true) := by
      show cached_texture.sync sz w r info buffers = _
      unfold cached_texture.sync
      simp only [hthis]
      rw [if_pos hr.1, if_pos ((buffers_and_local_ne_none buffers).2 hr.2)]
    obtain ⟨t1, h1, h2, _⟩ := read_find sz c.1 r1 info c.2 hfind hcreated
    refine ⟨hs, ?_⟩
    rw [hs]
    simp [protected_region.state_of, h1, h2]
  have hnot_first : this.m_state = cache_entry_state.local_synchronized →
      ¬ (this.m_state = cache_entry_state.invalid ∨
        this.m_state = cache_entry_state.host_synchronized) := by
    intro h
    rw [h]
    decide
  have hwrite : writes → s = ((c.2.write c.1 info).1,
      r1.update info (fun _ => (c.2.write c.1 info).2), true)
        ∧ s.2.1.state_of info = some cache_entry_state.synchronized := by
    intro hw
    have hs : s = ((c.2.write c.1 info).1,
        r1.update info (fun _ => (c.2.write c.1 info).2), true) := by
      show cached_texture.sync sz w r info buffers = _
      unfold cached_texture.sync
      simp only [hthis]
      rw [if_neg (hnot_first hw.1), if_pos hw.1,
        if_pos ((buffers_and_host_ne_none buffers).2 hw.2)]
    refine ⟨hs, ?_⟩
    rw [hs]
    simp [protected_region.state_of, protected_region.update, assoc_find_modify_self, hfind,
      write_state]
  have hother : ¬ (reads ∨ writes) → s = (c.1, r1, false) ∧ s.1.transfers = w.transfers
        ∧ s.2.1.state_of info = some this.m_state := by
    intro hn
    have hs : s = (c.1, r1, false) := by
      show cached_texture.sync sz w r info buffers = _
      unfold cached_texture.sync
      simp only [hthis]
      by_cases h1 : this.m_state = cache_entry_state.invalid ∨
          this.m_state = cache_entry_state.host_synchronized
      · have hl : ¬ buffers.and cache_buffers.local_ ≠ cache_buffers.none := by
          rw [buffers_and_local_ne_none]
          exact fun hl => hn (Or.inl ⟨h1, hl⟩)
        rw [if_pos h1, if_neg hl]
      · rw [if_neg h1]
        by_cases h2 : this.m_state = cache_entry_state.local_synchronized
        · have hh : ¬ buffers.and cache_buffers.host ≠ cache_buffers.none := by
            rw [buffers_and_host_ne_none]
            exact fun hh => hn (Or.inr ⟨h2, hh⟩)
          rw [if_pos h2, if_neg hh]
        · rw [if_neg h2]
    refine ⟨hs, ?_, ?_⟩
    · rw [hs]; exact htrans
    · rw [hs]; simp [protected_region.state_of, hfind, hstate]
  refine ⟨hread, hwrite, hother, ?_⟩
  constructor
  · intro hs
    by_contra hn
    have h := (hother hn).1
    rw [h] at hs
    simp at hs
  · intro h
    rcases h with h | h
    · have h1 := hread h
      exact ⟨by rw [h1.1], h1.2⟩
    · have h1 := hwrite h
      exact ⟨by rw [h1.1], h1.2⟩

/-- C3. Decision table of `sync(buffers)`.  With `c` the backend and the entry
after the initial `create()` step and `r1` the region at that point: if the
state is `invalid` or `host_synchronized` and `buffers` includes local, `sync`
is `read()` followed by `return true` and the state ends `synchronized`; if the
state is `local_synchronized` and `buffers` includes host, `sync` is `write()`
followed by `return true` and the state ends `synchronized`; in every other
case `sync` returns false, issues no pixel transfer and leaves the state as it
was.  Hence `sync` returns true with the state `synchronized` exactly in the
first two cases. -/
theorem sync_decision_table (sz : texture_info → Nat) (w : backend) (r : protected_region)
    (info : texture_info) (this : cached_texture) (buffers : cache_buffers)
    (hthis : assoc_find info r.m_textures = some this) :
    let c := if !this.created then this.create w info else (w, this)
    let r1 := if !this.created then r.update info (fun _ => c.2) else r
    let s := cached_texture.sync sz w r info buffers
    let reads := (this.m_state = cache_entry_state.invalid ∨
        this.m_state = cache_entry_state.host_synchronized) ∧ buffers.local_bit = true
    let writes := this.m_state = cache_entry_state.local_synchronized ∧ buffers.host_bit = true
    (reads → s = ((cached_texture.read sz c.1 r1 info).1, (cached_texture.read sz c.1 r1 info).2, true)
        ∧ s.2.1.state_of info = some cache_entry_state.synchronized) ∧
    (writes → s = ((c.2.write c.1 info).1, r1.update info (fun _ => (c.2.write c.1 info).2), true)
        ∧ s.2.1.state_of info = some cache_entry_state.synchronized) ∧
    (¬ (reads ∨ writes) → s = (c.1, r1, false) ∧ s.1.transfers = w.transfers
        ∧ s.2.1.state_of info = some this.m_state) ∧
    ((s.2.2 = true ∧ s.2.1.state_of info = some cache_entry_state.synchronized) ↔
        (reads ∨ writes)) :=
  sync_cases sz w r info this buffers hthis

/-! ## The calls that `read()` and `invalidate()` make on other entries -/

theorem assoc_modify_const_self {α β : Type} [DecidableEq α] (k : α) (v : β)
    (l : List (α × β)) (h : assoc_find k l = some v) : assoc_modify k (fun _ => v) l = l := by
  induction l with
  | nil => rfl
  | cons p rest ih =>
    obtain ⟨k1, v1⟩ := p
    by_cases hk : k1 = k
    · have hv : v1 = v := by simpa [assoc_find, hk] using h
      simp [assoc_modify, hk, hv]
    · have h1 : assoc_find k rest = some v := by simpa [assoc_find, hk] using h
      simp [assoc_modify, hk, ih h1]

theorem assoc_modify_const_twice {α β : Type} [DecidableEq α] (k : α) (v v2 : β)
    (l : List (α × β)) :
    assoc_modify k (fun _ => v2) (assoc_modify k (fun _ => v) l) = assoc_modify k (fun _ => v2) l := by
  induction l with
  | nil => rfl
  | cons p rest ih =>
    obtain ⟨k1, v1⟩ := p
    by_cases hk : k1 = k
    · simp [assoc_modify, hk]
    · simp [assoc_modify, hk, ih]

/-- The function `sync_host` is `sync` called with `cache_buffers::host`: the entry is
replaced by the one `sync_host` computes, the backend and the result are the
same. -/
theorem sync_host_eq (sz : texture_info → Nat) (w : backend) (r : protected_region)
    (info : texture_info) (this : cached_texture)
    (h : assoc_find info r.m_textures = some this) :
    cached_texture.sync sz w r info cache_buffers.host =
      ((this.sync_host w info).1, r.update info (fun _ => (this.sync_host w info).2.1),
        (this.sync_host w info).2.2) := by
  have hl : ¬ cache_buffers.host.and cache_buffers.local_ ≠ cache_buffers.none := by decide
  have hh : cache_buffers.host.and cache_buffers.host ≠ cache_buffers.none := by decide
  have hid : r.update info (fun _ => this) = r := by
    unfold protected_region.update
    rw [assoc_modify_const_self info this r.m_textures h]
  unfold cached_texture.sync cached_texture.sync_host
  simp only [h, if_neg hl, if_pos hh]
  by_cases hc : this.created = true
  · simp only [hc, Bool.not_true, Bool.false_eq_true, if_false]
    split
    · rw [hid]
    · split
      · rfl
      · rw [hid]
  · have hc2 : this.created = false := by simpa using hc
    simp only [hc2, Bool.not_false, if_true, create_state]
    split
    · rfl
    · split
      · simp only [protected_region.update, assoc_modify_const_twice]
      · rfl

/-- The function `invalidate_local` is `invalidate` called with `cache_buffers::local`. -/
theorem invalidate_local_eq (sz : texture_info → Nat) (r : protected_region)
    (info : texture_info) :
    cached_texture.invalidate sz r info cache_buffers.local_ =
      r.update info cached_texture.invalidate_local := by
  have hh : ¬ cache_buffers.local_.and cache_buffers.host ≠ cache_buffers.none := by decide
  have hl : cache_buffers.local_.and cache_buffers.local_ ≠ cache_buffers.none := by decide
  unfold cached_texture.invalidate
  simp only [if_neg hh, if_pos hl]
  rfl

/-- C3 applied to the first `sync(local)` of a new entry: the read case. -/
theorem sync_decision_table_witness :
    (cached_texture.sync example_size backend.initial example_region_one_invalid
        (example_info 4096 1024 256 256) cache_buffers.local_).2.1.state_of
          (example_info 4096 1024 256 256)
      = some cache_entry_state.synchronized :=
  ((sync_decision_table example_size backend.initial example_region_one_invalid
    (example_info 4096 1024 256 256) cached_texture.fresh cache_buffers.local_
    (by decide)).1 (by decide)).2

theorem is_synchronized_iff (t : cached_texture) (b : cache_buffers) :
    t.is_synchronized b = true ↔
      ((b.host_bit = true → t.m_state.host_bit = true) ∧
        (b.local_bit = true → t.m_state.local_bit = true)) := by
  have key : ∀ (st : cache_entry_state) (g : Nat) (p : Option Nat)
      (ip : Option (Nat × texture_info)),
      cached_texture.is_synchronized ⟨g, st, p, ip⟩ b = true ↔
        ((b.host_bit = true → st.host_bit = true) ∧ (b.local_bit = true → st.local_bit = true)) := by
    intro st g p ip
    rcases st with ⟨sh, sl⟩
    rcases b with ⟨bh, bl⟩
    cases sh <;> cases sl <;> cases bh <;> cases bl <;>
      simp [cached_texture.is_synchronized, cache_buffers.and, cache_entry_state.and,
        cache_buffers.host, cache_buffers.local_, cache_buffers.none,
        cache_entry_state.host_synchronized, cache_entry_state.local_synchronized,
        cache_entry_state.invalid]
  exact key t.m_state t.gl_name t.m_parent_region t.info

theorem unchanged_state_satisfies (st : cache_entry_state) (b : cache_buffers)
    (htarget : b.host_bit = true ∨ b.local_bit = true)
    (hexc : ¬ (st = cache_entry_state.invalid ∧ b = cache_buffers.host))
    (hr : ¬ ((st = cache_entry_state.invalid ∨ st = cache_entry_state.host_synchronized) ∧
      b.local_bit = true))
    (hw : ¬ (st = cache_entry_state.local_synchronized ∧ b.host_bit = true)) :
    (b.host_bit = true → st.host_bit = true) ∧ (b.local_bit = true → st.local_bit = true) := by
  rcases st with ⟨sh, sl⟩
  rcases b with ⟨bh, bl⟩
  revert htarget hexc hr hw
  cases sh <;> cases sl <;> cases bh <;> cases bl <;> decide

/-- C4, as stated, fails: `sync(host)` on an entry in state `invalid` does
nothing but create the texture; the entry stays `invalid`, so
`is_synchronized(host)` is false afterwards. -/
theorem sync_host_on_invalid_entry :
    (cached_texture.sync example_size backend.initial example_region_one_invalid
        (example_info 4096 1024 256 256) cache_buffers.host).2.2 = false ∧
    (assoc_find (example_info 4096 1024 256 256)
        (cached_texture.sync example_size backend.initial example_region_one_invalid
          (example_info 4096 1024 256 256) cache_buffers.host).2.1.m_textures).map
      (fun t => (t.m_state, t.is_synchronized cache_buffers.host))
      = some (cache_entry_state.invalid, false) := by
  decide

/-- C4, amended.  For a target that names at least one side, `sync(target)`
leaves `is_synchronized(target)` true, except for an entry in state `invalid`
with target `host`: there `sync` returns false and the entry stays `invalid`. -/
theorem sync_establishes_target (sz : texture_info → Nat) (w : backend) (r : protected_region)
    (info : texture_info) (this : cached_texture) (buffers : cache_buffers)
    (hthis : assoc_find info r.m_textures = some this)
    (htarget : buffers.host_bit = true ∨ buffers.local_bit = true) :
    (¬ (this.m_state = cache_entry_state.invalid ∧ buffers = cache_buffers.host) →
      ∃ t1, assoc_find info (cached_texture.sync sz w r info buffers).2.1.m_textures = some t1 ∧
        t1.is_synchronized buffers = true) ∧
    ((this.m_state = cache_entry_state.invalid ∧ buffers = cache_buffers.host) →
      (cached_texture.sync sz w r info buffers).2.2 = false ∧
      (cached_texture.sync sz w r info buffers).2.1.state_of info
        = some cache_entry_state.invalid) := by
  obtain ⟨hread, hwrite, hother, _⟩ := sync_cases sz w r info this buffers hthis
  have key : ∀ st : cache_entry_state,
      (cached_texture.sync sz w r info buffers).2.1.state_of info = some st →
      ((buffers.host_bit = true → st.host_bit = true) ∧
        (buffers.local_bit = true → st.local_bit = true)) →
      ∃ t1, assoc_find info (cached_texture.sync sz w r info buffers).2.1.m_textures = some t1 ∧
        t1.is_synchronized buffers = true := by
    intro st hst hbits
    unfold protected_region.state_of at hst
    cases hf : assoc_find info (cached_texture.sync sz w r info buffers).2.1.m_textures with
    | none => rw [hf] at hst; simp at hst
    | some t1 =>
      rw [hf] at hst
      have : t1.m_state = st := by simpa using hst
      exact ⟨t1, rfl, (is_synchronized_iff t1 buffers).2 (this ▸ hbits)⟩
  constructor
  · intro hexc
    by_cases hr : (this.m_state = cache_entry_state.invalid ∨
        this.m_state = cache_entry_state.host_synchronized) ∧ buffers.local_bit = true
    · exact key _ (hread hr).2 ⟨fun _ => rfl, fun _ => rfl⟩
    · by_cases hw : this.m_state = cache_entry_state.local_synchronized ∧ buffers.host_bit = true
      · exact key _ (hwrite hw).2 ⟨fun _ => rfl, fun _ => rfl⟩
      · have ho := (hother (fun h => h.elim hr hw)).2.2
        exact key _ ho (unchanged_state_satisfies this.m_state buffers htarget hexc hr hw)
  · rintro ⟨hinv, hb⟩
    have hn : ¬ (((this.m_state = cache_entry_state.invalid ∨
        this.m_state = cache_entry_state.host_synchronized) ∧ buffers.local_bit = true) ∨
        (this.m_state = cache_entry_state.local_synchronized ∧ buffers.host_bit = true)) := by
      rw [hinv, hb]
      decide
    have ho := hother hn
    refine ⟨by rw [ho.1], ?_⟩
    rw [ho.2.2, hinv]

/-- C4, amended, applied to an entry in state `invalid` and the target `local`. -/
theorem sync_establishes_target_witness :
    ∃ t1, assoc_find (example_info 4096 1024 256 256)
        (cached_texture.sync example_size backend.initial example_region_one_invalid
          (example_info 4096 1024 256 256) cache_buffers.local_).2.1.m_textures = some t1 ∧
      t1.is_synchronized cache_buffers.local_ = true :=
  (sync_establishes_target example_size backend.initial example_region_one_invalid
    (example_info 4096 1024 256 256) cached_texture.fresh cache_buffers.local_
    (by decide) (by decide)).1 (by decide)

/-- A `sync` that returned true left the entry `synchronized` and created. -/
theorem sync_true_find (sz : texture_info → Nat) (w : backend) (r : protected_region)
    (info : texture_info) (buffers : cache_buffers)
    (h : (cached_texture.sync sz w r info buffers).2.2 = true) :
    ∃ t1, assoc_find info (cached_texture.sync sz w r info buffers).2.1.m_textures = some t1 ∧
      t1.m_state = cache_entry_state.synchronized ∧ t1.created = true := by
  cases hthis : assoc_find info r.m_textures with
  | none =>
    unfold cached_texture.sync at h
    simp [hthis] at h
  | some this =>
    have hfind := sync_create_find w r info this hthis
    have hcreated := sync_create_created w info this
    obtain ⟨hread, hwrite, hother, _⟩ := sync_cases sz w r info this buffers hthis
    by_cases hr : (this.m_state = cache_entry_state.invalid ∨
        this.m_state = cache_entry_state.host_synchronized) ∧ buffers.local_bit = true
    · rw [(hread hr).1]
      exact read_find sz _ _ info _ hfind hcreated
    · by_cases hw : this.m_state = cache_entry_state.local_synchronized ∧ buffers.host_bit = true
      · rw [(hwrite hw).1]
        generalize (if !this.created then this.create w info else (w, this)) = c at hfind hcreated ⊢
        generalize (if !this.created then r.update info (fun _ => c.2) else r) = r1 at hfind ⊢
        refine ⟨(c.2.write c.1 info).2, ?_, write_state c.1 info c.2,
          write_created c.1 info c.2 hcreated⟩
        simp [protected_region.update, assoc_find_modify_self, hfind]
      · have ho := (hother (fun h => h.elim hr hw)).1
        rw [ho] at h
        simp at h

/-- C5. Convergence of `sync`: if `sync(t1)` returns true, the entry is
`synchronized`, and a following `sync(t2)` with any `t2` returns false and
changes neither the backend (no call is issued at all) nor the region. -/
theorem sync_converges (sz : texture_info → Nat) (w : backend) (r : protected_region)
    (info : texture_info) (t1 : cache_buffers)
    (h : (cached_texture.sync sz w r info t1).2.2 = true) :
    (cached_texture.sync sz w r info t1).2.1.state_of info
        = some cache_entry_state.synchronized ∧
    ∀ t2 : cache_buffers,
      cached_texture.sync sz (cached_texture.sync sz w r info t1).1
          (cached_texture.sync sz w r info t1).2.1 info t2
        = ((cached_texture.sync sz w r info t1).1, (cached_texture.sync sz w r info t1).2.1,
            false) := by
  obtain ⟨this1, hf, hs, hc⟩ := sync_true_find sz w r info t1 h
  constructor
  · simp [protected_region.state_of, hf, hs]
  · intro t2
    generalize (cached_texture.sync sz w r info t1).1 = w1 at *
    generalize (cached_texture.sync sz w r info t1).2.1 = r1 at *
    unfold cached_texture.sync
    simp [hf, hc, hs, cache_entry_state.synchronized, cache_entry_state.invalid,
      cache_entry_state.host_synchronized, cache_entry_state.local_synchronized]

/-- C5 applied to the first `sync(local)` of a new entry. -/
theorem sync_converges_witness :
    (cached_texture.sync example_size backend.initial example_region_one_invalid
        (example_info 4096 1024 256 256) cache_buffers.local_).2.1.state_of
          (example_info 4096 1024 256 256)
        = some cache_entry_state.synchronized ∧
    ∀ t2 : cache_buffers,
      cached_texture.sync example_size
          (cached_texture.sync example_size backend.initial example_region_one_invalid
            (example_info 4096 1024 256 256) cache_buffers.local_).1
          (cached_texture.sync example_size backend.initial example_region_one_invalid
            (example_info 4096 1024 256 256) cache_buffers.local_).2.1
          (example_info 4096 1024 256 256) t2
        = ((cached_texture.sync example_size backend.initial example_region_one_invalid
            (example_info 4096 1024 256 256) cache_buffers.local_).1,
           (cached_texture.sync example_size backend.initial example_region_one_invalid
            (example_info 4096 1024 256 256) cache_buffers.local_).2.1, false) :=
  sync_converges example_size backend.initial example_region_one_invalid
    (example_info 4096 1024 256 256) cache_buffers.local_ (by decide)

/-! ## `invalidate` -/

theorem assoc_find_map_values {α β : Type} [DecidableEq α] (g : α → β → β) (k : α)
    (l : List (α × β)) :
    assoc_find k (l.map (fun p => (p.1, g p.1 p.2))) = (assoc_find k l).map (g k) := by
  induction l with
  | nil => rfl
  | cons p rest ih =>
    obtain ⟨k1, v⟩ := p
    by_cases h : k1 = k
    · subst h
      simp [assoc_find]
    · simp [assoc_find, h, ih]

/-- The `for_each` of `invalidate` rewrites each entry on its own. -/
theorem invalidate_for_each (sz : texture_info → Nat) (this : texture_info) (a n : Nat)
    (l : texture_map) :
    (for_each_loop sz a n (invalidate_callback this) () l).2 =
      l.map (fun p => (p.1,
        (fun (k : texture_info) (t : cached_texture) =>
          if k.start_address < u32 (a + n) ∧ a < u32 (k.start_address + k.size sz) ∧ k ≠ this
          then t.invalidate_local else t) p.1 p.2)) := by
  induction l with
  | nil => rfl
  | cons p rest ih =>
    obtain ⟨k, t⟩ := p
    unfold for_each_loop
    by_cases h1 : k.start_address ≥ u32 (a + n)
    · have hc : ¬ (k.start_address < u32 (a + n) ∧ a < u32 (k.start_address + k.size sz) ∧
          k ≠ this) := fun h => absurd h.1 (Nat.not_lt.2 h1)
      rw [if_pos h1]
      simp only [List.map_cons, if_neg hc, ih]
    · by_cases h2 : u32 (k.start_address + k.size sz) ≤ a
      · have hc : ¬ (k.start_address < u32 (a + n) ∧ a < u32 (k.start_address + k.size sz) ∧
            k ≠ this) := fun h => absurd h.2.1 (Nat.not_lt.2 h2)
        rw [if_neg h1, if_pos h2]
        simp only [List.map_cons, if_neg hc, ih]
      · rw [if_neg h1, if_neg h2]
        by_cases h3 : k = this
        · have hc : ¬ (k.start_address < u32 (a + n) ∧
              a < u32 (k.start_address + k.size sz) ∧ k ≠ this) := fun h => h.2.2 h3
          have h4 : ¬ k ≠ this := fun h => h h3
          simp only [List.map_cons, if_neg hc, ih, invalidate_callback, if_neg h4]
        · have hc : k.start_address < u32 (a + n) ∧
              a < u32 (k.start_address + k.size sz) ∧ k ≠ this :=
            ⟨Nat.lt_of_not_le h1, Nat.lt_of_not_le h2, h3⟩
          have h4 : k ≠ this := h3
          simp only [List.map_cons, if_pos hc, ih, invalidate_callback, if_pos h4]

/-- The cascade of `invalidate(host)` inside one region, for an entry `A` whose
pointers are intact.  For two distinct entries `A` and `B` of the region whose
byte ranges end below `2^32` (so that no `u32` sum wraps), it leaves `B` with
its local bit cleared if the byte ranges overlap and with its state unchanged
if they do not; the host bit of `B` is the same in both cases. -/
theorem region_invalidate_host (sz : texture_info → Nat) (r : protected_region)
    (A B : texture_info) (tA tB : cached_texture) (hne : A ≠ B)
    (_hA : assoc_find A r.m_textures = some tA) (hB : assoc_find B r.m_textures = some tB)
    (hAend : A.start_address + A.size sz < 4294967296)
    (hBend : B.start_address + B.size sz < 4294967296) :
    (cached_texture.invalidate sz r A cache_buffers.host).state_of B =
      some (if B.start_address < A.start_address + A.size sz ∧
              B.start_address + B.size sz > A.start_address
            then { host_bit := tB.m_state.host_bit, local_bit := false }
            else tB.m_state) ∧
    ∃ st, (cached_texture.invalidate sz r A cache_buffers.host).state_of B = some st ∧
      st.host_bit = tB.m_state.host_bit := by
  have hmain : (cached_texture.invalidate sz r A cache_buffers.host).state_of B =
      some (if B.start_address < A.start_address + A.size sz ∧
              B.start_address + B.size sz > A.start_address
            then { host_bit := tB.m_state.host_bit, local_bit := false }
            else tB.m_state) := by
    have h1 : cache_buffers.host.and cache_buffers.host ≠ cache_buffers.none := by decide
    have h2 : ¬ cache_buffers.host.and cache_buffers.local_ ≠ cache_buffers.none := by decide
    have hBA : B ≠ A := fun e => hne e.symm
    unfold cached_texture.invalidate
    simp only [if_pos h1, if_neg h2, protected_region.state_of, protected_region.for_each,
      protected_region.update, invalidate_for_each]
    refine Eq.trans (congrArg (Option.map cached_texture.m_state)
      (assoc_find_map_values (fun (k : texture_info) (t : cached_texture) =>
          if k.start_address < u32 (A.start_address + A.size sz) ∧
            A.start_address < u32 (k.start_address + k.size sz) ∧ k ≠ A
          then t.invalidate_local else t) B _)) ?_
    rw [assoc_find_modify_ne A B _ _ hBA, hB]
    have e1 : u32 (A.start_address + A.size sz) = A.start_address + A.size sz :=
      Nat.mod_eq_of_lt hAend
    have e2 : u32 (B.start_address + B.size sz) = B.start_address + B.size sz :=
      Nat.mod_eq_of_lt hBend
    simp only [e1, e2, Option.map_some']
    by_cases hov : B.start_address < A.start_address + A.size sz ∧
        B.start_address + B.size sz > A.start_address
    · have hc : B.start_address < A.start_address + A.size sz ∧
          A.start_address < B.start_address + B.size sz ∧ B ≠ A :=
        ⟨hov.1, hov.2, hBA⟩
      rw [if_pos hov, if_pos hc]
      rcases tB with ⟨g, ⟨sh, sl⟩, p, ip⟩
      cases sh <;> cases sl <;> rfl
    · have hc : ¬ (B.start_address < A.start_address + A.size sz ∧
          A.start_address < B.start_address + B.size sz ∧ B ≠ A) := by
        intro h
        exact hov ⟨h.1, h.2.1⟩
      rw [if_neg hov, if_neg hc]
  refine ⟨hmain, _, hmain, ?_⟩
  split <;> rfl

/-! ## Protection -/

theorem protection_flags_or (a b : cache_access) :
    protection_flags (a.or b) = protection_flags a ||| protection_flags b := by
  rcases a with ⟨ar, aw⟩
  rcases b with ⟨br, bw⟩
  cases ar <;> cases aw <;> cases br <;> cases bw <;> decide

theorem protection_flags_entry (t : cached_texture) :
    protection_flags t.requires_protection = entry_requirement t.m_state := by
  have key : ∀ (st : cache_entry_state) (g : Nat) (p : Option Nat)
      (ip : Option (Nat × texture_info)),
      protection_flags (cached_texture.requires_protection ⟨g, st, p, ip⟩) = entry_requirement st := by
    intro st g p ip
    rcases st with ⟨sh, sl⟩
    cases sh <;> cases sl <;>
      simp [cached_texture.requires_protection, entry_requirement, protection_flags,
        cache_entry_state.local_synchronized, cache_entry_state.synchronized,
        cache_access.read_write, cache_access.write, cache_access.read, cache_access.none,
        cache_access.and]
  exact key t.m_state t.gl_name t.m_parent_region t.info

theorem protection_flags_foldl (l : texture_map) :
    ∀ acc : cache_access,
      protection_flags
          (l.foldl (fun result entry => result.or entry.2.requires_protection) acc)
        = protection_flags acc ||| region_requirement l := by
  induction l with
  | nil => intro acc; simp [region_requirement]
  | cons p rest ih =>
    intro acc
    obtain ⟨k, t⟩ := p
    simp only [List.foldl_cons, ih, protection_flags_or, protection_flags_entry,
      region_requirement, Nat.lor_assoc]

theorem protection_flags_region (r : protected_region) :
    protection_flags r.requires_protection = region_requirement r.m_textures := by
  unfold protected_region.requires_protection
  rw [protection_flags_foldl]
  simp [protection_flags, cache_access.none, cache_access.and, cache_access.read,
    cache_access.write]

/-- After `protect()` the applied flags are the required ones; nothing else in
the region changes. -/
theorem protect_region (w : backend) (r : protected_region) :
    (r.protect w).2 = { r with m_current_protection := region_requirement r.m_textures } := by
  unfold protected_region.protect
  rw [protection_flags_region]
  by_cases h : r.m_current_protection = region_requirement r.m_textures
  · have hn : ¬ r.m_current_protection ≠ region_requirement r.m_textures := fun hn => hn h
    rw [if_neg hn, ← h]
  · rw [if_pos h]

theorem update_protection_loop_regions (m : region_map) :
    ∀ w : backend, (update_protection_loop w m).2 =
      m.map (fun p => (p.1,
        { p.2 with m_current_protection := region_requirement p.2.m_textures })) := by
  induction m with
  | nil => intro w; rfl
  | cons p rest ih =>
    intro w
    obtain ⟨key, region⟩ := p
    simp only [update_protection_loop, List.map_cons, ih, protect_region]

/-- C8. Postcondition of `update_protection()`: every region keeps its key, its
range and its entries, and its applied flags `m_current_protection` become the
union over its entries of each entry's requirement (read+write for
`local_synchronized`, write for `synchronized`, nothing for `invalid` and
`host_synchronized`); the union over no entries is no flags. -/
theorem update_protection_postcondition (w : backend) (c : texture_cache) :
    (c.update_protection w).2.m_protected_regions =
      c.m_protected_regions.map (fun p => (p.1,
        { p.2 with m_current_protection := region_requirement p.2.m_textures })) ∧
    region_requirement [] = 0 ∧
    (∀ (info : texture_info) (t : cached_texture) (rest : texture_map),
      region_requirement ((info, t) :: rest) =
        (if t.m_state = cache_entry_state.local_synchronized then
            vm.page_readable ||| vm.page_writable
          else if t.m_state = cache_entry_state.synchronized then vm.page_writable
          else 0) ||| region_requirement rest) :=
  ⟨update_protection_loop_regions c.m_protected_regions w, rfl, fun _ _ _ => rfl⟩

/-- C9. Idempotence of `protect()`: a second `protect()` right after the first
changes neither the backend (it issues no call) nor the region (so
`m_current_protection` is unchanged), and both calls together issue at most one
`vm::page_protect`. -/
theorem protect_idempotent (w : backend) (r : protected_region) :
    (r.protect w).2.protect (r.protect w).1 = r.protect w ∧
    ((r.protect w).2.protect (r.protect w).1).1.protect_calls ≤ w.protect_calls + 1 := by
  have h2 : (r.protect w).2.protect (r.protect w).1 = r.protect w := by
    have hr := protect_region w r
    generalize r.protect w = p at hr ⊢
    obtain ⟨w1, r1⟩ := p
    simp only at hr
    subst hr
    unfold protected_region.protect
    rw [protection_flags_region]
    simp
  refine ⟨h2, ?_⟩
  rw [h2]
  unfold protected_region.protect
  by_cases h : r.m_current_protection ≠ protection_flags r.requires_protection
  · simp only [if_pos h]
    simp [backend.protect_calls, backend.call, List.filter_append,
      backend_call.is_page_protect]
  · simp only [if_neg h]
    exact Nat.le_succ _

/-! ## `clear` -/

theorem remove_loop_protect_calls (l : texture_map) :
    ∀ w : backend, (remove_loop w l).protect_calls = w.protect_calls := by
  induction l with
  | nil => intro w; rfl
  | cons p rest ih =>
    intro w
    obtain ⟨k, t⟩ := p
    simp only [remove_loop, ih]
    unfold cached_texture.remove
    split
    · simp [backend.protect_calls, backend.call, List.filter_append,
        backend_call.is_page_protect]
    · rfl

theorem unprotect_protect_calls (w : backend) (r : protected_region) (access : cache_access) :
    (r.unprotect w access).1.protect_calls = w.protect_calls + 1 := by
  simp [protected_region.unprotect, backend.protect_calls, backend.call, List.filter_append,
    backend_call.is_page_protect]

theorem region_clear_protect_calls (w : backend) (r : protected_region) :
    (r.clear w).1.protect_calls = w.protect_calls + 1 := by
  unfold protected_region.clear
  simp only [remove_loop_protect_calls, unprotect_protect_calls]

theorem clear_loop_protect_calls (m : region_map) :
    ∀ w : backend, (clear_loop w m).1.protect_calls = w.protect_calls + m.length := by
  induction m with
  | nil => intro w; rfl
  | cons p rest ih =>
    intro w
    obtain ⟨key, region⟩ := p
    simp only [clear_loop, ih, region_clear_protect_calls, List.length_cons]
    omega

/-- C10, as stated, fails: `clear()` on a registry whose only region has no
protection applied still issues one `vm::page_protect` call, while no region
had a non-zero `m_current_protection`. -/
theorem clear_calls_page_protect_for_unprotected_region :
    (example_cache_unprotected.m_protected_regions.filter
        (fun p => p.2.m_current_protection ≠ 0)).length = 0 ∧
    backend.initial.protect_calls = 0 ∧
    (example_cache_unprotected.clear backend.initial).1.protect_calls = 1 := by
  decide

/-- C10, amended.  After `clear()` the registry holds no regions,
`find_region(a)` returns none for every address, and `clear()` has issued one
`vm::page_protect` call for every region the registry held, whether or not
protection was applied to it. -/
theorem clear_postcondition (w : backend) (c : texture_cache) :
    (c.clear w).2.m_protected_regions = [] ∧
    (∀ a : Nat, (c.clear w).2.find_region a = none) ∧
    (c.clear w).1.protect_calls = w.protect_calls + c.m_protected_regions.length :=
  ⟨rfl, fun _ => rfl, clear_loop_protect_calls c.m_protected_regions w⟩

/-! ## `entry` -/

/-- C1: the code breaks the no-overlap invariant.  Three `entry()` calls from
the empty registry, for one page at `0x2000`, then two pages at `0x1000`, then
one page at `0x1000`: the second call lowers the `start_address` of the region
stored under key `0x2000` to `0x1000` without moving it in the map, so the
third call, whose `find_regions` compares keys, finds no region and creates a
second one at `0x1000`.  The registry then holds two regions whose ranges
`[0x1000, 0x2000)` and `[0x1000, 0x3000)` intersect. -/
theorem entry_leaves_overlapping_regions :
    (entry_sequence example_size (backend.initial, texture_cache.empty)
        [(example_info 8192 4096 1024 1, cache_buffers.local_),
         (example_info 4096 4096 1024 2, cache_buffers.local_),
         (example_info 4096 4096 1024 1, cache_buffers.local_)]).map
      (fun s => (s.2.ranges, has_overlap s.2.m_protected_regions))
      = some ([(4096, 4096, 1), (8192, 4096, 2)], true) := by
  decide

theorem same_shape_refl (r : protected_region) : same_shape r r := ⟨rfl, rfl, rfl, rfl⟩

theorem same_shape_trans {a b c : protected_region} (h1 : same_shape a b) (h2 : same_shape b c) :
    same_shape a c :=
  ⟨h2.1.trans h1.1, h2.2.1.trans h1.2.1, h2.2.2.1.trans h1.2.2.1, h2.2.2.2.trans h1.2.2.2⟩

theorem update_same_shape (r : protected_region) (info : texture_info)
    (f : cached_texture → cached_texture) : same_shape r (r.update info f) :=
  ⟨rfl, rfl, rfl, assoc_modify_keys info f r.m_textures⟩

theorem for_each_same_shape {σ : Type} (sz : texture_info → Nat) (r : protected_region)
    (a n : Nat) (cb : σ → texture_info → cached_texture → σ × cached_texture) (s : σ) :
    same_shape r (r.for_each sz a n cb s).2 :=
  ⟨rfl, rfl, rfl, for_each_loop_keys sz a n cb r.m_textures s⟩

theorem read_same_shape (sz : texture_info → Nat) (w : backend) (r : protected_region)
    (info : texture_info) : same_shape r (cached_texture.read sz w r info).2 := by
  unfold cached_texture.read
  split
  · exact same_shape_refl r
  · dsimp only
    split
    · exact update_same_shape r info _
    · split
      · exact for_each_same_shape sz r _ _ _ _
      · exact same_shape_trans (for_each_same_shape sz r _ _ read_flush_callback w)
          (update_same_shape _ info _)

theorem sync_same_shape (sz : texture_info → Nat) (w : backend) (r : protected_region)
    (info : texture_info) (buffers : cache_buffers) :
    same_shape r (cached_texture.sync sz w r info buffers).2.1 := by
  unfold cached_texture.sync
  split
  · exact same_shape_refl r
  · rename_i this _
    have h1 : same_shape r
        (if !this.created then
          r.update info (fun _ => (if !this.created then this.create w info else (w, this)).2)
        else r) := by
      split
      · exact update_same_shape r info _
      · exact same_shape_refl r
    dsimp only
    split
    · split
      · exact same_shape_trans h1 (read_same_shape sz _ _ info)
      · exact h1
    · split
      · split
        · exact same_shape_trans h1 (update_same_shape _ info _)
        · exact h1
      · exact h1

theorem assoc_find_append_new {α β : Type} [DecidableEq α] (k : α) (v : β) (l : List (α × β))
    (h : assoc_find k l = none) : assoc_find k (l ++ [(k, v)]) = some v := by
  induction l with
  | nil => simp [assoc_find]
  | cons p rest ih =>
    obtain ⟨k1, v1⟩ := p
    by_cases hk : k1 = k
    · simp [assoc_find, hk] at h
    · have h1 : assoc_find k rest = none := by simpa [assoc_find, hk] using h
      simp [assoc_find, hk, ih h1]

theorem assoc_modify_append_new {α β : Type} [DecidableEq α] (k : α) (v : β) (f : β → β)
    (l : List (α × β)) (h : assoc_find k l = none) :
    assoc_modify k f (l ++ [(k, v)]) = l ++ [(k, f v)] := by
  induction l with
  | nil => simp [assoc_modify]
  | cons p rest ih =>
    obtain ⟨k1, v1⟩ := p
    by_cases hk : k1 = k
    · simp [assoc_find, hk] at h
    · have h1 : assoc_find k rest = none := by simpa [assoc_find, hk] using h
      simp [assoc_modify, hk, ih h1]

/-- The region in which `entry()` looks the descriptor up and, if it is absent,
adds it. -/
theorem find_or_add (this : Nat) (r : protected_region) (info : texture_info) :
    (match r.find info with
      | some _ => some r
      | none => r.add this info) =
    some (match assoc_find info r.m_textures with
      | some _ => r
      | none => { r with
        m_textures :=
          r.m_textures ++ [(info, (cached_texture.fresh.set_info this info).parent this)] }) := by
  unfold protected_region.find
  cases h : assoc_find info r.m_textures with
  | some t => rfl
  | none =>
    simp only [protected_region.add, texture_map_emplace, h, Bool.not_true, Bool.false_eq_true,
      if_false]
    rw [assoc_modify_append_new info _ _ _ h]

/-- The call `entry()` on the empty registry: a region for the aligned range is created,
the descriptor is added to it and synchronised. -/
theorem entry_empty (sz : texture_info → Nat) (w : backend) (info : texture_info)
    (sync : cache_buffers) :
    texture_cache.empty.entry sz w info sync =
      some ((cached_texture.sync sz w
          { start_address := info.start_address &&& u32_not (vm.page_size - 1),
            pages_count := align (info.size sz) vm.page_size / vm.page_size,
            m_textures := [(info, (cached_texture.fresh.set_info
              (info.start_address &&& u32_not (vm.page_size - 1)) info).parent
              (info.start_address &&& u32_not (vm.page_size - 1)))],
            m_current_protection := 0 } info sync).1,
        { m_protected_regions := [(info.start_address &&& u32_not (vm.page_size - 1),
          (cached_texture.sync sz w
            { start_address := info.start_address &&& u32_not (vm.page_size - 1),
              pages_count := align (info.size sz) vm.page_size / vm.page_size,
              m_textures := [(info, (cached_texture.fresh.set_info
                (info.start_address &&& u32_not (vm.page_size - 1)) info).parent
                (info.start_address &&& u32_not (vm.page_size - 1)))],
              m_current_protection := 0 } info sync).2.1)] },
        info.start_address &&& u32_not (vm.page_size - 1)) := by
  simp [texture_cache.entry, entry_region, texture_cache.empty, find_regions_loop,
    region_map_index, assoc_find, region_map_insert, assoc_modify, protected_region.find,
    protected_region.add, texture_map_emplace, protected_region.fresh]

/-- The call `entry()` on a registry with one region that `find_regions` returns: the
region is grown, the descriptor is added if absent, and synchronised. -/
theorem entry_single_found (sz : texture_info → Nat) (w : backend) (k : Nat)
    (r : protected_region) (info : texture_info) (sync : cache_buffers)
    (hfound : find_regions_loop (info.start_address &&& u32_not (vm.page_size - 1))
      (align (info.size sz) vm.page_size) [(k, r)] = [k]) :
    texture_cache.entry sz w { m_protected_regions := [(k, r)] } info sync =
      some ((cached_texture.sync sz w
          (match assoc_find info r.m_textures with
            | some _ => grown r (info.start_address &&& u32_not (vm.page_size - 1))
                (align (info.size sz) vm.page_size)
            | none =>
              { grown r (info.start_address &&& u32_not (vm.page_size - 1))
                  (align (info.size sz) vm.page_size) with
                m_textures := r.m_textures ++ [(info, (cached_texture.fresh.set_info k info).parent k)] })
          info sync).1,
        { m_protected_regions := [(k,
          (cached_texture.sync sz w
            (match assoc_find info r.m_textures with
              | some _ => grown r (info.start_address &&& u32_not (vm.page_size - 1))
                  (align (info.size sz) vm.page_size)
              | none =>
                { grown r (info.start_address &&& u32_not (vm.page_size - 1))
                    (align (info.size sz) vm.page_size) with
                  m_textures := r.m_textures ++ [(info, (cached_texture.fresh.set_info k info).parent k)] })
            info sync).2.1)] },
        k) := by
  have hg : (grown r (info.start_address &&& u32_not (vm.page_size - 1))
      (align (info.size sz) vm.page_size)).m_textures = r.m_textures := by
    unfold grown
    split <;> rfl
  unfold texture_cache.entry entry_region
  simp only [hfound, entry_combine_loop, entry_erase_loop, assoc_find, if_true, assoc_modify]
  have := find_or_add k (grown r (info.start_address &&& u32_not (vm.page_size - 1))
      (align (info.size sz) vm.page_size)) info
  rw [hg] at this
  unfold grown at this ⊢
  simp only [this]

theorem assoc_find_none_of_not_mem {α β : Type} [DecidableEq α] (k : α) (l : List (α × β))
    (h : k ∉ l.map Prod.fst) : assoc_find k l = none := by
  cases hf : assoc_find k l with
  | none => rfl
  | some v =>
    have := (assoc_find_isSome_iff k l).1 (by simp [hf])
    exact absurd this h

/-- C2. Merge scenario with `page_size = 4096`: for any descriptor `X` whose
byte range is exactly pages `[2,5)` and any descriptor `Y` whose byte range is
exactly pages `[4,8)`, and any two targets, `entry(X)` on the empty registry
followed by `entry(Y)` both return, and the registry then holds exactly one
region; it starts at `2 * page_size`, has 6 pages, and holds both `X` and
`Y`. -/
theorem entry_merge_scenario (sz : texture_info → Nat) (w : backend) (X Y : texture_info)
    (s1 s2 : cache_buffers)
    (hX : X.start_address = 2 * vm.page_size) (hXs : X.size sz = 3 * vm.page_size)
    (hY : Y.start_address = 4 * vm.page_size) (hYs : Y.size sz = 4 * vm.page_size) :
    ∃ (w2 : backend) (c2 : texture_cache) (r : protected_region),
      entry_sequence sz (w, texture_cache.empty) [(X, s1), (Y, s2)] = some (w2, c2) ∧
      c2.m_protected_regions = [(2 * vm.page_size, r)] ∧
      r.start_address = 2 * vm.page_size ∧ r.pages_count = 6 ∧
      (r.find X).isSome = true ∧ (r.find Y).isSome = true := by
  have hXa : X.start_address &&& u32_not (vm.page_size - 1) = 8192 := by rw [hX]; decide
  have hYa : Y.start_address &&& u32_not (vm.page_size - 1) = 16384 := by rw [hY]; decide
  have hXz : align (X.size sz) vm.page_size = 12288 := by rw [hXs]; decide
  have hYz : align (Y.size sz) vm.page_size = 16384 := by rw [hYs]; decide
  have hne : Y ≠ X := by
    intro e
    rw [e, hX] at hY
    revert hY
    decide
  have h1 := entry_empty sz w X s1
  rw [hXa, hXz] at h1
  have hshape1 := sync_same_shape sz w
    { start_address := 8192, pages_count := 12288 / vm.page_size,
      m_textures := [(X, (cached_texture.fresh.set_info 8192 X).parent 8192)], m_current_protection := 0 } X s1
  generalize cached_texture.sync sz w
    { start_address := 8192, pages_count := 12288 / vm.page_size,
      m_textures := [(X, (cached_texture.fresh.set_info 8192 X).parent 8192)], m_current_protection := 0 } X s1
      = res1 at h1 hshape1
  obtain ⟨w1, r1, b1⟩ := res1
  obtain ⟨hst1, hpc1, _, hk1⟩ := hshape1
  simp only [List.map_cons, List.map_nil] at hst1 hpc1 hk1
  have hYnot : assoc_find Y r1.m_textures = none := by
    apply assoc_find_none_of_not_mem
    rw [hk1]
    simpa using hne
  have hfound : find_regions_loop (Y.start_address &&& u32_not (vm.page_size - 1))
      (align (Y.size sz) vm.page_size) [(8192, r1)] = [8192] := by
    rw [hYa, hYz]
    simp only [find_regions_loop, protected_region.size, hpc1]
    decide
  have h2 := entry_single_found sz w1 8192 r1 Y s2 hfound
  rw [hYa, hYz, hYnot] at h2
  have hshape2 := sync_same_shape sz w1
    { grown r1 16384 16384 with
      m_textures := r1.m_textures ++ [(Y, (cached_texture.fresh.set_info 8192 Y).parent 8192)] } Y s2
  generalize cached_texture.sync sz w1
    { grown r1 16384 16384 with
      m_textures := r1.m_textures ++ [(Y, (cached_texture.fresh.set_info 8192 Y).parent 8192)] } Y s2
      = res2 at h2 hshape2
  obtain ⟨w2, r2, b2⟩ := res2
  obtain ⟨hst2, hpc2, _, hk2⟩ := hshape2
  have hg : (grown r1 16384 16384).start_address = 8192 ∧
      (grown r1 16384 16384).pages_count = 6 := by
    have h0 : ¬ (8192 : Nat) > 16384 := by decide
    unfold grown
    simp only [hst1, hpc1, if_neg h0]
    decide
  simp only [List.map_append, hk1, List.map_cons, List.map_nil] at hk2
  refine ⟨w2, { m_protected_regions := [(8192, r2)] }, r2, ?_, rfl, ?_, ?_, ?_, ?_⟩
  · simp only [entry_sequence, h1, h2]
  · exact hst2.trans hg.1
  · exact hpc2.trans hg.2
  · unfold protected_region.find
    rw [assoc_find_isSome_iff, hk2]
    simp
  · unfold protected_region.find
    rw [assoc_find_isSome_iff, hk2]
    simp

/-- C2 applied to two colour descriptors of pitch 4096 with 3 and 4 rows. -/
theorem entry_merge_scenario_witness :
    ∃ (w2 : backend) (c2 : texture_cache) (r : protected_region),
      entry_sequence example_size (backend.initial, texture_cache.empty)
        [(example_info 8192 4096 1024 3, cache_buffers.local_),
         (example_info 16384 4096 1024 4, cache_buffers.host)] = some (w2, c2) ∧
      c2.m_protected_regions = [(2 * vm.page_size, r)] ∧
      r.start_address = 2 * vm.page_size ∧ r.pages_count = 6 ∧
      (r.find (example_info 8192 4096 1024 3)).isSome = true ∧
      (r.find (example_info 16384 4096 1024 4)).isSome = true :=
  entry_merge_scenario example_size backend.initial (example_info 8192 4096 1024 3)
    (example_info 16384 4096 1024 4) cache_buffers.local_ cache_buffers.host
    (by decide) (by decide) (by decide) (by decide)

/-- The first `sync(local)` of an entry that is alone in its region: the
texture is created, `read()` finds no donor and takes the host path, and the
entry is marked `synchronized`. -/
theorem sync_local_alone (sz : texture_info → Nat) (w : backend) (X : texture_info)
    (k pc : Nat) (hend : X.start_address + X.size sz < 4294967296) :
    cached_texture.sync sz w
        { start_address := k, pages_count := pc,
          m_textures := [(X, (cached_texture.fresh.set_info k X).parent k)], m_current_protection := 0 }
        X cache_buffers.local_ =
      (read_upload
          ((((cached_texture.fresh.set_info k X).parent k).create w X).2.bind
            (((cached_texture.fresh.set_info k X).parent k).create w X).1)
          X (((cached_texture.fresh.set_info k X).parent k).create w X).2,
        { start_address := k, pages_count := pc,
          m_textures := [(X, ⟨w.names + 1, cache_entry_state.synchronized, some k, some (k, X)⟩)],
          m_current_protection := 0 },
        true) := by
  have e1 : u32 (X.start_address + X.size sz) = X.start_address + X.size sz :=
    Nat.mod_eq_of_lt hend
  simp [cached_texture.sync, assoc_find, cached_texture.fresh, cached_texture.parent, cached_texture.set_info,
    cached_texture.created, cached_texture.create, cached_texture.read,
    protected_region.for_each, for_each_loop, e1, read_find_callback, read_flush_callback,
    cached_texture.sync_host, protected_region.update, assoc_modify, cached_texture.bind,
    backend.call, cached_texture.ignore, cache_buffers.and, cache_buffers.local_,
    cache_buffers.host, cache_buffers.all, cache_buffers.none, cache_entry_state.and,
    cache_entry_state.or, cache_entry_state.invalid, cache_entry_state.host_synchronized,
    cache_entry_state.local_synchronized, cache_entry_state.synchronized]

/-- The call `sync(host)` of a new entry: the texture is created and nothing else
happens; the entry stays `invalid`. -/
theorem sync_host_new (sz : texture_info → Nat) (w : backend) (X Y : texture_info)
    (tX : cached_texture) (k st pc pr : Nat) (hne : X ≠ Y) :
    cached_texture.sync sz w
        { start_address := st, pages_count := pc,
          m_textures := [(X, tX), (Y, (cached_texture.fresh.set_info k Y).parent k)],
          m_current_protection := pr }
        Y cache_buffers.host =
      ((((cached_texture.fresh.set_info k Y).parent k).create w Y).1,
        { start_address := st, pages_count := pc,
          m_textures := [(X, tX), (Y, ⟨w.names + 1, cache_entry_state.invalid, some k, some (k, Y)⟩)],
          m_current_protection := pr },
        false) := by
  simp [cached_texture.sync, assoc_find, hne, cached_texture.fresh, cached_texture.parent, cached_texture.set_info,
    cached_texture.created, cached_texture.create, protected_region.update, assoc_modify,
    cached_texture.bind, backend.call, cache_buffers.and, cache_buffers.local_,
    cache_buffers.host, cache_buffers.none, cache_entry_state.invalid,
    cache_entry_state.host_synchronized, cache_entry_state.local_synchronized]

/-- The call `sync(buffers)` with the local side named, of a new entry `Y` next to a
`synchronized` entry `X` that starts at the same address with the same pitch
and is at least as large: the texture is created and filled by one
`glCopyImageSubData` from the texture of `X`. -/
theorem sync_local_donor (sz : texture_info → Nat) (w : backend) (X Y : texture_info)
    (gX k st pc pr : Nat) (pX : Option Nat) (iX : Option (Nat × texture_info))
    (buffers : cache_buffers) (hne : X ≠ Y)
    (hb : buffers.local_bit = true)
    (hstart : X.start_address = Y.start_address) (hpitch : X.pitch = Y.pitch)
    (hheight : Y.height ≤ X.height) (hwidth : Y.width ≤ X.width)
    (hXpos : 0 < X.size sz) (hXend : X.start_address + X.size sz < 4294967296)
    (hYpos : 0 < Y.size sz) (hYend : Y.start_address + Y.size sz < 4294967296) :
    cached_texture.sync sz w
        { start_address := st, pages_count := pc,
          m_textures := [(X, ⟨gX, cache_entry_state.synchronized, pX, iX⟩),
            (Y, (cached_texture.fresh.set_info k Y).parent k)],
          m_current_protection := pr }
        Y buffers =
      ((((cached_texture.fresh.set_info k Y).parent k).create w Y).1.call
          (backend_call.glCopyImageSubData gX (w.names + 1) Y.width Y.height Y.depth),
        { start_address := st, pages_count := pc,
          m_textures := [(X, ⟨gX, cache_entry_state.synchronized, pX, iX⟩),
            (Y, ⟨w.names + 1, cache_entry_state.synchronized, some k, some (k, Y)⟩)],
          m_current_protection := pr },
        true) := by
  have e1 : u32 (X.start_address + X.size sz) = X.start_address + X.size sz :=
    Nat.mod_eq_of_lt hXend
  have e2 : u32 (Y.start_address + Y.size sz) = Y.start_address + Y.size sz :=
    Nat.mod_eq_of_lt hYend
  have h1 : ¬ X.height < Y.height := Nat.not_lt.2 hheight
  have h2 : ¬ X.width < Y.width := Nat.not_lt.2 hwidth
  have h3 : ¬ Y.start_address ≥ Y.start_address + Y.size sz := by omega
  have h4 : ¬ Y.start_address + X.size sz ≤ Y.start_address := by omega
  rw [hstart] at e1
  simp [cached_texture.sync, assoc_find, hne, cached_texture.fresh, cached_texture.parent, cached_texture.set_info,
    cached_texture.created, cached_texture.create, cached_texture.read,
    protected_region.for_each, for_each_loop, e1, e2, read_find_callback, hstart, hpitch,
    h1, h2, h3, h4, hb,
    protected_region.update, assoc_modify, cached_texture.bind,
    backend.call, cached_texture.ignore, cache_buffers.and, cache_buffers.local_,
    cache_buffers.host, cache_buffers.all, cache_buffers.none, cache_entry_state.and,
    cache_entry_state.or, cache_entry_state.invalid, cache_entry_state.host_synchronized,
    cache_entry_state.local_synchronized, cache_entry_state.synchronized]

/-- The call `entry()` on a registry with one region, for a descriptor whose aligned
address is the key of that region: whether or not `find_regions` returns the
region, the descriptor is looked up in it, added if absent, and synchronised;
the entries of the region and its protection are not touched before that. -/
theorem entry_single_same_key (sz : texture_info → Nat) (w : backend) (k : Nat)
    (r : protected_region) (info : texture_info) (sync : cache_buffers)
    (hk : info.start_address &&& u32_not (vm.page_size - 1) = k) :
    ∃ st pc : Nat,
      texture_cache.entry sz w { m_protected_regions := [(k, r)] } info sync =
        some ((cached_texture.sync sz w
            { start_address := st, pages_count := pc,
              m_textures :=
                (match assoc_find info r.m_textures with
                  | some _ => r.m_textures
                  | none => r.m_textures ++ [(info, (cached_texture.fresh.set_info k info).parent k)]),
              m_current_protection := r.m_current_protection } info sync).1,
          { m_protected_regions := [(k,
            (cached_texture.sync sz w
              { start_address := st, pages_count := pc,
                m_textures :=
                  (match assoc_find info r.m_textures with
                    | some _ => r.m_textures
                    | none => r.m_textures ++ [(info, (cached_texture.fresh.set_info k info).parent k)]),
                m_current_protection := r.m_current_protection } info sync).2.1)] },
          k) := by
  subst hk
  have hcases : find_regions_loop (info.start_address &&& u32_not (vm.page_size - 1))
      (align (info.size sz) vm.page_size)
        [(info.start_address &&& u32_not (vm.page_size - 1), r)] = [] ∨
      find_regions_loop (info.start_address &&& u32_not (vm.page_size - 1))
      (align (info.size sz) vm.page_size)
        [(info.start_address &&& u32_not (vm.page_size - 1), r)] =
        [info.start_address &&& u32_not (vm.page_size - 1)] := by
    simp only [find_regions_loop]
    split
    · exact Or.inl rfl
    · split
      · exact Or.inl rfl
      · exact Or.inr rfl
  rcases hcases with hnone | hfound
  · refine ⟨info.start_address &&& u32_not (vm.page_size - 1),
      align (info.size sz) vm.page_size / vm.page_size, ?_⟩
    have hadd := find_or_add (info.start_address &&& u32_not (vm.page_size - 1))
      { r with pages_count := align (info.size sz) vm.page_size / vm.page_size
               start_address := info.start_address &&& u32_not (vm.page_size - 1) } info
    unfold texture_cache.entry entry_region
    simp only [hnone, region_map_index, assoc_find, if_true, assoc_modify, hadd]
    cases h : assoc_find info r.m_textures <;> rfl
  · refine ⟨(grown r (info.start_address &&& u32_not (vm.page_size - 1))
        (align (info.size sz) vm.page_size)).start_address,
      (grown r (info.start_address &&& u32_not (vm.page_size - 1))
        (align (info.size sz) vm.page_size)).pages_count, ?_⟩
    rw [entry_single_found sz w _ r info sync hfound]
    have hg : ∀ a n : Nat, (grown r a n).m_textures = r.m_textures ∧
        (grown r a n).m_current_protection = r.m_current_protection := by
      intro a n
      unfold grown
      split <;> exact ⟨rfl, rfl⟩
    cases h : assoc_find info r.m_textures with
    | none =>
      simp only [(hg _ _).2]
    | some t =>
      simp only []
      have e : grown r (info.start_address &&& u32_not (vm.page_size - 1))
          (align (info.size sz) vm.page_size) =
          { start_address := (grown r (info.start_address &&& u32_not (vm.page_size - 1))
              (align (info.size sz) vm.page_size)).start_address,
            pages_count := (grown r (info.start_address &&& u32_not (vm.page_size - 1))
              (align (info.size sz) vm.page_size)).pages_count,
            m_textures := r.m_textures,
            m_current_protection := r.m_current_protection } := by
        rw [← (hg _ _).1, ← (hg _ _).2]
      rw [← e]

theorem call_transfers (w : backend) (c : backend_call) :
    (w.call c).transfers = w.transfers ++ (if c.is_transfer then [c] else []) := by
  unfold backend.call backend.transfers
  rw [List.filter_append]
  cases h : c.is_transfer <;> simp [List.filter, h]

/-- C7, as stated, fails: the second `entry()` call, with target `host`, finds
the new entry in state `invalid`, for which `sync(host)` does nothing; the only
pixel transfer of the whole run is the pull of the first entry, no
`glCopyImageSubData` is issued, and the returned entry is `invalid`. -/
theorem entry_second_descriptor_host_does_not_copy :
    (entry_sequence example_size (backend.initial, texture_cache.empty)
        [(example_info 4096 1024 256 256, cache_buffers.local_),
         (example_info 4096 1024 128 128, cache_buffers.host)]).map
      (fun s => (s.1.transfers,
        s.2.m_protected_regions.map (fun p => p.2.state_of (example_info 4096 1024 128 128))))
      = some ([backend_call.glTexImage2D 1 (example_info 4096 1024 256 256) (some 4096)],
          [some cache_entry_state.invalid]) := by
  decide

/-- C7, amended.  Let `X` be a 256 by 256 descriptor at `0x1000` and `Y` a
128 by 128 descriptor at the same address with the same pitch, both with
non-empty byte ranges that end below `2^32`.  From the empty registry,
`entry(X, local)` returns with `X` `synchronized`.  A following `entry(Y, host)`
issues no pixel transfer at all (no copy, no pull) and returns `Y` in state
`invalid`.  A following `entry(Y, target)` with a target that includes `local`
issues exactly one pixel transfer, a `glCopyImageSubData` of 128 by 128 texels
from the texture of `X`, so no pull, and returns `Y` `synchronized`. -/
theorem entry_second_descriptor (sz : texture_info → Nat) (w : backend) (X Y : texture_info)
    (hX : X.start_address = 4096) (hXw : X.width = 256) (hXh : X.height = 256)
    (hY : Y.start_address = 4096) (hYw : Y.width = 128) (hYh : Y.height = 128)
    (hpitch : Y.pitch = X.pitch)
    (hXpos : 0 < X.size sz) (hXend : X.start_address + X.size sz < 4294967296)
    (hYpos : 0 < Y.size sz) (hYend : Y.start_address + Y.size sz < 4294967296) :
    ∃ (w1 : backend) (r1 : protected_region) (tX : cached_texture),
      texture_cache.empty.entry sz w X cache_buffers.local_ =
        some (w1, { m_protected_regions := [(4096, r1)] }, 4096) ∧
      assoc_find X r1.m_textures = some tX ∧
      tX.m_state = cache_entry_state.synchronized ∧
      (∃ (w2 : backend) (r2 : protected_region),
        texture_cache.entry sz w1 { m_protected_regions := [(4096, r1)] } Y cache_buffers.host =
          some (w2, { m_protected_regions := [(4096, r2)] }, 4096) ∧
        w2.transfers = w1.transfers ∧
        r2.state_of Y = some cache_entry_state.invalid) ∧
      (∀ target : cache_buffers, target.local_bit = true →
        ∃ (w3 : backend) (r3 : protected_region),
          texture_cache.entry sz w1 { m_protected_regions := [(4096, r1)] } Y target =
            some (w3, { m_protected_regions := [(4096, r3)] }, 4096) ∧
          w3.transfers = w1.transfers ++
            [backend_call.glCopyImageSubData tX.gl_name (w1.names + 1) 128 128 Y.depth] ∧
          r3.state_of Y = some cache_entry_state.synchronized) := by
  have hXa : X.start_address &&& u32_not (vm.page_size - 1) = 4096 := by rw [hX]; decide
  have hYa : Y.start_address &&& u32_not (vm.page_size - 1) = 4096 := by rw [hY]; decide
  have hne : X ≠ Y := by
    intro e
    rw [e, hYw] at hXw
    revert hXw
    decide
  have hYX : ¬ Y = X := fun e => hne e.symm
  have h1 := entry_empty sz w X cache_buffers.local_
  rw [hXa, sync_local_alone sz w X 4096 _ hXend] at h1
  dsimp only at h1
  refine ⟨_, _, ⟨w.names + 1, cache_entry_state.synchronized, some 4096, some (4096, X)⟩,
    h1, ?_, rfl, ?_, ?_⟩
  · simp [assoc_find]
  · obtain ⟨st, pc, h2⟩ := entry_single_same_key sz
      (read_upload
        ((((cached_texture.fresh.set_info 4096 X).parent 4096).create w X).2.bind
          (((cached_texture.fresh.set_info 4096 X).parent 4096).create w X).1)
        X (((cached_texture.fresh.set_info 4096 X).parent 4096).create w X).2) 4096
      { start_address := 4096,
        pages_count := align (X.size sz) vm.page_size / vm.page_size,
        m_textures :=
          [(X, ⟨w.names + 1, cache_entry_state.synchronized, some 4096, some (4096, X)⟩)],
        m_current_protection := 0 } Y cache_buffers.host hYa
    simp only [assoc_find, if_neg hne, List.cons_append, List.nil_append] at h2
    rw [sync_host_new sz _ X Y _ 4096 st pc 0 hne] at h2
    refine ⟨_, _, h2, create_transfers _ Y _, ?_⟩
    simp [protected_region.state_of, assoc_find, hne]
  · intro target htarget
    obtain ⟨st, pc, h2⟩ := entry_single_same_key sz
      (read_upload
        ((((cached_texture.fresh.set_info 4096 X).parent 4096).create w X).2.bind
          (((cached_texture.fresh.set_info 4096 X).parent 4096).create w X).1)
        X (((cached_texture.fresh.set_info 4096 X).parent 4096).create w X).2) 4096
      { start_address := 4096,
        pages_count := align (X.size sz) vm.page_size / vm.page_size,
        m_textures :=
          [(X, ⟨w.names + 1, cache_entry_state.synchronized, some 4096, some (4096, X)⟩)],
        m_current_protection := 0 } Y target hYa
    simp only [assoc_find, if_neg hne, List.cons_append, List.nil_append] at h2
    rw [sync_local_donor sz _ X Y (w.names + 1) 4096 st pc 0 (some 4096) (some (4096, X))
      target hne htarget
      (hX.trans hY.symm) hpitch.symm (by rw [hXh, hYh]; decide) (by rw [hXw, hYw]; decide)
      hXpos hXend hYpos hYend] at h2
    refine ⟨_, _, h2, ?_, ?_⟩
    · rw [call_transfers, create_transfers, hYw, hYh]
      rfl
    · simp [protected_region.state_of, assoc_find, hne]

/-- C7, amended, applied to two colour descriptors of pitch 1024. -/
theorem entry_second_descriptor_witness :
    ∃ (w1 : backend) (r1 : protected_region) (tX : cached_texture),
      texture_cache.empty.entry example_size backend.initial (example_info 4096 1024 256 256)
          cache_buffers.local_ =
        some (w1, { m_protected_regions := [(4096, r1)] }, 4096) ∧
      assoc_find (example_info 4096 1024 256 256) r1.m_textures = some tX ∧
      tX.m_state = cache_entry_state.synchronized ∧
      (∃ (w2 : backend) (r2 : protected_region),
        texture_cache.entry example_size w1 { m_protected_regions := [(4096, r1)] }
            (example_info 4096 1024 128 128) cache_buffers.host =
          some (w2, { m_protected_regions := [(4096, r2)] }, 4096) ∧
        w2.transfers = w1.transfers ∧
        r2.state_of (example_info 4096 1024 128 128) = some cache_entry_state.invalid) ∧
      (∀ target : cache_buffers, target.local_bit = true →
        ∃ (w3 : backend) (r3 : protected_region),
          texture_cache.entry example_size w1 { m_protected_regions := [(4096, r1)] }
              (example_info 4096 1024 128 128) target =
            some (w3, { m_protected_regions := [(4096, r3)] }, 4096) ∧
          w3.transfers = w1.transfers ++
            [backend_call.glCopyImageSubData tX.gl_name (w1.names + 1) 128 128
              (example_info 4096 1024 128 128).depth] ∧
          r3.state_of (example_info 4096 1024 128 128)
            = some cache_entry_state.synchronized) :=
  entry_second_descriptor example_size backend.initial (example_info 4096 1024 256 256)
    (example_info 4096 1024 128 128) (by decide) (by decide) (by decide) (by decide)
    (by decide) (by decide) (by decide) (by decide) (by decide) (by decide) (by decide)

/-! ## `add` -/

/-- C11. Duplicate registration: `add(d)` throws (`none`) exactly when the
region already holds an entry for `d`; the `emplace` that precedes the throw
leaves the entry map as it was, so the existing entry keeps its state and its
texture; when `d` is absent, `add` returns the region with one more entry,
stored under `d`, in state `invalid`, without a texture, whose parent is the
region `this` and whose `info` points at the key `d` of the map of `this`, and
with every other entry and field unchanged. -/
theorem add_duplicate (this : Nat) (r : protected_region) (d : texture_info) :
    (r.add this d = none ↔ (r.find d).isSome = true) ∧
    ((r.find d).isSome = true →
      (texture_map_emplace r.m_textures d cached_texture.fresh).1 = r.m_textures) ∧
    (r.find d = none →
      r.add this d = some { r with
        m_textures := r.m_textures ++
          [(d, ⟨0, cache_entry_state.invalid, some this, some (this, d)⟩)] }) := by
  unfold protected_region.find
  cases h : assoc_find d r.m_textures with
  | some t =>
    simp [protected_region.add, texture_map_emplace, h]
  | none =>
    refine ⟨?_, ?_, ?_⟩
    · simp [protected_region.add, texture_map_emplace, h]
    · intro hs
      simp at hs
    · intro _
      simp only [protected_region.add, texture_map_emplace, h, Bool.not_true,
        Bool.false_eq_true, if_false]
      rw [assoc_modify_append_new d _ _ _ h]
      rfl

/-! ## The invariants of the registry -/

/-- C14: the code breaks co-residence of overlapping entries.  After the three
`entry()` calls for one page at `0x2000`, two pages at `0x1000` and one page at
`0x1000`, the registry holds the entry for `[0x1000, 0x2000)` in the region
under key `0x1000` and the entry for `[0x1000, 0x3000)` in the region under
key `0x2000`: their byte ranges overlap and they are in different regions. -/
theorem entry_splits_overlapping_entries :
    (entry_sequence example_size (backend.initial, texture_cache.empty)
        [(example_info 8192 4096 1024 1, cache_buffers.local_),
         (example_info 4096 4096 1024 2, cache_buffers.local_),
         (example_info 4096 4096 1024 1, cache_buffers.local_)]).map
      (fun s => (s.2.entries, s.2.has_split_overlap example_size))
      = some ([(4096, example_info 4096 4096 1024 1), (8192, example_info 8192 4096 1024 1),
          (8192, example_info 4096 4096 1024 2)], true) ∧
    descriptors_overlap example_size (example_info 4096 4096 1024 1)
      (example_info 4096 4096 1024 2) = true := by
  decide

/-- C15: the code breaks coverage of a region's entries.  One `entry()` call
for a descriptor of 4096 bytes at `0x1800` creates the region
`[0x1000, 0x2000)`, which does not contain the byte range `[0x1800, 0x2800)`:
the aligned size is computed from `size()` alone.  With page-aligned
descriptors the same happens through `combine`: after `entry()` for one page
at 0, three pages at `0x2000` and three pages at 0, the only region is
`[0, 0x3000)` and holds the descriptor for `[0x2000, 0x5000)`. -/
theorem entry_region_does_not_cover :
    (entry_sequence example_size (backend.initial, texture_cache.empty)
        [(example_info 6144 4096 1024 1, cache_buffers.local_)]).map
      (fun s => (s.2.ranges, s.2.entries))
      = some ([(4096, 4096, 1)], [(4096, example_info 6144 4096 1024 1)]) ∧
    (entry_sequence example_size (backend.initial, texture_cache.empty)
        [(example_info 6144 4096 1024 1, cache_buffers.local_)]).map
      (fun s => s.2.m_protected_regions.map (fun p => region_covers example_size p.2))
      = some [false] ∧
    (entry_sequence example_size (backend.initial, texture_cache.empty)
        [(example_info 0 4096 1024 1, cache_buffers.local_),
         (example_info 8192 4096 1024 3, cache_buffers.local_),
         (example_info 0 4096 1024 3, cache_buffers.local_)]).map
      (fun s => (s.2.ranges, s.2.entries))
      = some ([(0, 0, 3)], [(0, example_info 0 4096 1024 1), (0, example_info 8192 4096 1024 3),
          (0, example_info 0 4096 1024 3)]) ∧
    (entry_sequence example_size (backend.initial, texture_cache.empty)
        [(example_info 0 4096 1024 1, cache_buffers.local_),
         (example_info 8192 4096 1024 3, cache_buffers.local_),
         (example_info 0 4096 1024 3, cache_buffers.local_)]).map
      (fun s => s.2.m_protected_regions.map (fun p => region_covers example_size p.2))
      = some [false] := by
  decide

/-- C16: the code does not grow the range to the union.  Combining the region
`[0x2000, 0x3000)` into the region `[0, 0x1000)` leaves the start at 0 but sets
`pages_count` to `(0x2000 + 1 - 0) / 4096 = 2`, so the range ends at `0x2000`
and not at `0x3000`, the larger of the two ends. -/
theorem combine_range_is_not_union :
    example_region_low.start_address % vm.page_size = 0 ∧
    example_region_high.start_address % vm.page_size = 0 ∧
    (example_region_low.combine backend.initial 0 example_region_high).2.1.start_address
      = min example_region_low.start_address example_region_high.start_address ∧
    (example_region_low.combine backend.initial 0 example_region_high).2.1.pages_count = 2 ∧
    (example_region_low.combine backend.initial 0 example_region_high).2.1.range_end = 8192 ∧
    max example_region_low.range_end example_region_high.range_end = 12288 := by
  decide

/-- C17: the code breaks `key = start_address`.  After `entry()` for one page
at `0x2000` and then for two pages at `0x1000`, the only region is stored
under key `0x2000` and has `start_address = 0x1000`. -/
theorem entry_key_differs_from_start :
    (entry_sequence example_size (backend.initial, texture_cache.empty)
        [(example_info 8192 4096 1024 1, cache_buffers.local_),
         (example_info 4096 4096 1024 2, cache_buffers.local_)]).map
      (fun s => s.2.ranges) = some [(8192, 4096, 2)] := by
  decide

/-! ## Unsupported transfers -/

theorem call_uploads (w : backend) (c : backend_call) :
    (w.call c).uploads = w.uploads ++ (if c.is_upload then [c] else []) := by
  unfold backend.call backend.uploads
  rw [List.filter_append]
  cases h : c.is_upload <;> simp [List.filter, h]

theorem create_uploads (w : backend) (info : texture_info) (t : cached_texture) :
    (t.create w info).1.uploads = w.uploads := by
  simp [cached_texture.create, cached_texture.bind, backend.call, backend.uploads,
    List.filter_append, backend_call.is_upload]

theorem write_uploads (w : backend) (info : texture_info) (t : cached_texture) :
    (t.write w info).1.uploads = w.uploads := by
  unfold cached_texture.write cached_texture.bind
  dsimp only
  split
  · simp [call_uploads, backend_call.is_upload]
  · split
    · simp [call_uploads, backend_call.is_upload]
    · simp [call_uploads, backend_call.is_upload]

theorem sync_host_uploads (w : backend) (info : texture_info) (t : cached_texture) :
    (t.sync_host w info).1.uploads = w.uploads := by
  have hc : (if !t.created then t.create w info else (w, t)).1.uploads = w.uploads := by
    split
    · exact create_uploads w info t
    · rfl
  unfold cached_texture.sync_host
  dsimp only
  generalize (if !t.created then t.create w info else (w, t)) = p at hc ⊢
  split
  · exact hc
  · split
    · exact (write_uploads p.1 info p.2).trans hc
    · exact hc

/-- A quantity of the captured state that the callback does not change is not
changed by `for_each`. -/
theorem for_each_loop_preserves {σ α : Type} (sz : texture_info → Nat) (a n : Nat)
    (cb : σ → texture_info → cached_texture → σ × cached_texture) (f : σ → α)
    (hcb : ∀ s k t, f (cb s k t).1 = f s) (l : texture_map) :
    ∀ s : σ, f (for_each_loop sz a n cb s l).1 = f s := by
  induction l with
  | nil => intro s; rfl
  | cons p rest ih =>
    intro s
    obtain ⟨k, t⟩ := p
    unfold for_each_loop
    split
    · exact ih s
    · split
      · exact ih s
      · exact (ih _).trans (hcb s k t)

theorem read_flush_uploads (sz : texture_info → Nat) (w : backend) (r : protected_region)
    (a n : Nat) : (r.for_each sz a n read_flush_callback w).1.uploads = w.uploads :=
  for_each_loop_preserves sz a n read_flush_callback backend.uploads
    (fun s k t => sync_host_uploads s k t) r.m_textures w

/-- For a depth format `read()` issues no upload. -/
theorem read_uploads_depth (sz : texture_info → Nat) (w : backend) (r : protected_region)
    (info : texture_info)
    (hdepth : info.format.format = texture.format.depth ∨
      info.format.format = texture.format.depth_stencil) :
    (cached_texture.read sz w r info).1.uploads = w.uploads := by
  unfold cached_texture.read
  split
  · rfl
  · dsimp only
    split
    · simp [call_uploads, backend_call.is_upload]
    · split
      · exact read_flush_uploads sz w r _ _
      · simp only [read_upload, if_pos hdepth, cached_texture.bind, call_uploads,
          backend_call.is_upload]
        simpa using read_flush_uploads sz w r info.start_address (info.size sz)

/-- For a depth format or a compressed texture `write()` issues no transfer. -/
theorem write_transfers_unsupported (w : backend) (info : texture_info) (t : cached_texture)
    (h : info.format.format = texture.format.depth ∨
      info.format.format = texture.format.depth_stencil ∨ info.compressed_size ≠ 0) :
    (t.write w info).1.transfers = w.transfers := by
  unfold cached_texture.write cached_texture.bind
  dsimp only
  split
  · simp [call_transfers, backend_call.is_transfer]
  · split
    · simp [call_transfers, backend_call.is_transfer]
    · rename_i h1 h2
      rcases h with h | h | h
      · exact absurd (Or.inl h) h1
      · exact absurd (Or.inr h) h1
      · exact absurd h h2

/-- C12. Unsupported transfers still converge.  A `sync` that takes the read
path for an entry with a depth or depth-stencil format returns true, leaves
the entry `synchronized` and issues no upload from guest memory; a `sync` that
takes the write path for an entry with a depth or depth-stencil format or
with a `compressed_size` returns true, leaves the entry `synchronized` and
issues no pixel transfer at all.  `sync` is a total function: no path raises
an error. -/
theorem sync_unsupported_converges (sz : texture_info → Nat) (w : backend)
    (r : protected_region) (info : texture_info) (this : cached_texture)
    (buffers : cache_buffers) (hthis : assoc_find info r.m_textures = some this) :
    (((this.m_state = cache_entry_state.invalid ∨
          this.m_state = cache_entry_state.host_synchronized) ∧ buffers.local_bit = true) →
      (info.format.format = texture.format.depth ∨
        info.format.format = texture.format.depth_stencil) →
      (cached_texture.sync sz w r info buffers).2.2 = true ∧
      (cached_texture.sync sz w r info buffers).2.1.state_of info
        = some cache_entry_state.synchronized ∧
      (cached_texture.sync sz w r info buffers).1.uploads = w.uploads) ∧
    ((this.m_state = cache_entry_state.local_synchronized ∧ buffers.host_bit = true) →
      (info.format.format = texture.format.depth ∨
        info.format.format = texture.format.depth_stencil ∨ info.compressed_size ≠ 0) →
      (cached_texture.sync sz w r info buffers).2.2 = true ∧
      (cached_texture.sync sz w r info buffers).2.1.state_of info
        = some cache_entry_state.synchronized ∧
      (cached_texture.sync sz w r info buffers).1.transfers = w.transfers) := by
  obtain ⟨hread, hwrite, _, _⟩ := sync_cases sz w r info this buffers hthis
  have hcu : (if !this.created then this.create w info else (w, this)).1.uploads = w.uploads := by
    split
    · exact create_uploads w info this
    · rfl
  constructor
  · intro hr hdepth
    have h := hread hr
    refine ⟨by rw [h.1], h.2, ?_⟩
    rw [h.1]
    exact (read_uploads_depth sz _ _ info hdepth).trans hcu
  · intro hw hfmt
    have h := hwrite hw
    refine ⟨by rw [h.1], h.2, ?_⟩
    rw [h.1]
    exact (write_transfers_unsupported _ info _ hfmt).trans
      (sync_create_transfers w info this)

/-- C12 applied to the first `sync(local)` of a new depth texture. -/
theorem sync_unsupported_converges_witness :
    (cached_texture.sync example_size backend.initial
        { example_region_one_invalid with
          m_textures := [({ example_info 4096 1024 256 256 with
            format := { bpp := 4, format := texture.format.depth, swap_bytes := false } },
            cached_texture.fresh)] }
        { example_info 4096 1024 256 256 with
          format := { bpp := 4, format := texture.format.depth, swap_bytes := false } }
        cache_buffers.local_).1.uploads = backend.initial.uploads :=
  ((sync_unsupported_converges example_size backend.initial
    { example_region_one_invalid with
      m_textures := [({ example_info 4096 1024 256 256 with
        format := { bpp := 4, format := texture.format.depth, swap_bytes := false } },
        cached_texture.fresh)] }
    { example_info 4096 1024 256 256 with
      format := { bpp := 4, format := texture.format.depth, swap_bytes := false } }
    cached_texture.fresh cache_buffers.local_ (by decide)).1 (by decide) (by decide)).2.2

/-! ## `find_regions` -/

theorem find_regions_loop_eq_filter (address size : Nat) (m : region_map) :
    (m.map Prod.fst).Pairwise (fun a b => a < b) →
    find_regions_loop address size m =
      (m.filter (fun p => overlap_test address size p.1 p.2)).map Prod.fst := by
  induction m with
  | nil => intro _; rfl
  | cons p rest ih =>
    intro hs
    obtain ⟨k, r⟩ := p
    simp only [List.map_cons, List.pairwise_cons] at hs
    obtain ⟨hk, hrest⟩ := hs
    unfold find_regions_loop
    by_cases h1 : k ≥ u32 (address + size)
    · rw [if_pos h1]
      have hnone : ((k, r) :: rest).filter (fun p => overlap_test address size p.1 p.2) = [] := by
        rw [List.filter_eq_nil_iff]
        intro q hq
        have hq1 : k ≤ q.1 := by
          rcases List.mem_cons.1 hq with e | hmem
          · rw [e]
          · exact Nat.le_of_lt (hk q.1 (List.mem_map_of_mem Prod.fst hmem))
        simp only [overlap_test, decide_eq_true_eq, not_and]
        intro hlt
        omega
      rw [hnone]
      rfl
    · rw [if_neg h1]
      by_cases h2 : u32 (k + r.size) ≤ address
      · rw [if_pos h2, ih hrest]
        have hf : overlap_test address size k r = false := by
          simp only [overlap_test, decide_eq_false_iff_not, not_and]
          intro _
          omega
        simp [List.filter_cons, hf]
      · rw [if_neg h2, ih hrest]
        have hf : overlap_test address size k r = true := by
          simp only [overlap_test, decide_eq_true_eq]
          omega
        simp [List.filter_cons, hf]

theorem overlap_test_iff_common_byte (address size key : Nat) (region : protected_region)
    (hregion : key < u32 (key + region.size)) (hquery : address < u32 (address + size)) :
    overlap_test address size key region = true ↔
      ∃ x, key ≤ x ∧ x < u32 (key + region.size) ∧ address ≤ x ∧ x < u32 (address + size) := by
  simp only [overlap_test, decide_eq_true_eq]
  constructor
  · rintro ⟨h1, h2⟩
    exact ⟨max key address, by omega, by omega, by omega, by omega⟩
  · rintro ⟨x, h1, h2, h3, h4⟩
    exact ⟨by omega, by omega⟩

/-- C13, as stated, fails for an empty interval: `find_regions(0x1800, 0)` on a
registry whose only region is `[0x1000, 0x3000)` returns that region, although
the interval `[0x1800, 0x1800)` holds no byte and so intersects no range. -/
theorem find_regions_returns_region_for_empty_interval :
    example_cache_two_pages.find_regions 6144 0 = [4096] ∧
    u32 (6144 + 0) = 6144 ∧
    ¬ ∃ x, 6144 ≤ x ∧ x < u32 (6144 + 0) := by
  refine ⟨by decide, by decide, ?_⟩
  rintro ⟨x, h1, h2⟩
  have h3 : u32 (6144 + 0) = 6144 := by decide
  omega

/-- C13, amended.  For a registry whose keys ascend, `find_regions(address,
size)` returns, in the order of the registry and so in ascending key order and
without duplicates, exactly the regions that pass the test
`key < address + size` and `address < key + size()` with both sums computed in
`u32` arithmetic, so the early exit skips no such region.  Whenever both ranges
are non-empty as computed (`key < key + size()` and `address < address + size`)
the test holds exactly when the two ranges have a byte in common. -/
theorem find_regions_complete (c : texture_cache) (address size : Nat)
    (hsorted : (c.m_protected_regions.map Prod.fst).Pairwise (fun a b => a < b)) :
    c.find_regions address size =
      (c.m_protected_regions.filter (fun p => overlap_test address size p.1 p.2)).map Prod.fst ∧
    (c.find_regions address size).Pairwise (fun a b => a < b) ∧
    (∀ (key : Nat) (region : protected_region),
      key < u32 (key + region.size) → address < u32 (address + size) →
      (overlap_test address size key region = true ↔
        ∃ x, key ≤ x ∧ x < u32 (key + region.size) ∧ address ≤ x ∧ x < u32 (address + size))) := by
  have h := find_regions_loop_eq_filter address size c.m_protected_regions hsorted
  refine ⟨h, ?_, fun key region => overlap_test_iff_common_byte address size key region⟩
  unfold texture_cache.find_regions
  rw [h]
  exact hsorted.sublist ((List.filter_sublist _).map Prod.fst)

/-- C13, amended, applied to the registry with the region `[0x1000, 0x3000)`
and the interval `[0x2000, 0x4000)`. -/
theorem find_regions_complete_witness :
    example_cache_two_pages.find_regions 8192 8192 =
      (example_cache_two_pages.m_protected_regions.filter
        (fun p => overlap_test 8192 8192 p.1 p.2)).map Prod.fst :=
  (find_regions_complete example_cache_two_pages 8192 8192 (by decide)).1

/-! ## Donor selection in `read` -/

theorem read_find_callback_eq (sz : texture_info → Nat) (info : texture_info)
    (found : Option (texture_info × cached_texture)) (k : texture_info) (t : cached_texture)
    (h1 : ¬ k.start_address ≥ u32 (info.start_address + info.size sz))
    (h2 : ¬ u32 (k.start_address + k.size sz) ≤ info.start_address) :
    read_find_callback info found k t =
      (if is_donor sz info k t = true then some (k, t) else found, t) := by
  have key : ∀ (st : cache_entry_state) (g : Nat) (p : Option Nat)
      (ip : Option (Nat × texture_info)),
      read_find_callback info found k ⟨g, st, p, ip⟩ =
        (if is_donor sz info k ⟨g, st, p, ip⟩ = true then some (k, ⟨g, st, p, ip⟩) else found,
          ⟨g, st, p, ip⟩) := by
    intro st g p ip
    rcases st with ⟨sh, sl⟩
    unfold read_find_callback
    cases sl
    · have hd : is_donor sz info k ⟨g, ⟨sh, false⟩, p, ip⟩ = false := by simp [is_donor]
      rw [hd]
      simp [cache_entry_state.and, cache_entry_state.local_synchronized,
        cache_entry_state.invalid]
    · have e : (cache_entry_state.and ⟨sh, true⟩ cache_entry_state.local_synchronized
          = cache_entry_state.invalid) = False := by
        simp [cache_entry_state.and, cache_entry_state.local_synchronized,
          cache_entry_state.invalid]
      simp only [e, if_false]
      by_cases hg : k.start_address ≠ info.start_address ∨ k.pitch ≠ info.pitch ∨
          k.height < info.height ∨ k.width < info.width
      · rw [if_pos hg]
        have hn : ¬ (k.start_address < u32 (info.start_address + info.size sz) ∧
            info.start_address < u32 (k.start_address + k.size sz) ∧
            true = true ∧ k.start_address = info.start_address ∧ k.pitch = info.pitch ∧
            info.height ≤ k.height ∧ info.width ≤ k.width) := by
          rintro ⟨_, _, _, e1, e2, e3, e4⟩
          rcases hg with hg | hg | hg | hg
          · exact hg e1
          · exact hg e2
          · omega
          · omega
        have hd : is_donor sz info k ⟨g, ⟨sh, true⟩, p, ip⟩ = false := decide_eq_false hn
        rw [hd]
        rfl
      · rw [if_neg hg]
        have hy : k.start_address < u32 (info.start_address + info.size sz) ∧
            info.start_address < u32 (k.start_address + k.size sz) ∧
            true = true ∧ k.start_address = info.start_address ∧ k.pitch = info.pitch ∧
            info.height ≤ k.height ∧ info.width ≤ k.width := by
          simp only [not_or, ne_eq, not_not, not_lt] at hg
          exact ⟨by omega, by omega, rfl, hg.1, hg.2.1, hg.2.2.1, hg.2.2.2⟩
        have hd : is_donor sz info k ⟨g, ⟨sh, true⟩, p, ip⟩ = true := decide_eq_true hy
        rw [hd]
        rfl
  exact key t.m_state t.gl_name t.m_parent_region t.info

theorem not_donor_of_not_visited (sz : texture_info → Nat) (info k : texture_info)
    (t : cached_texture)
    (h : k.start_address ≥ u32 (info.start_address + info.size sz) ∨
      u32 (k.start_address + k.size sz) ≤ info.start_address) :
    is_donor sz info k t = false := by
  simp only [is_donor, decide_eq_false_iff_not]
  rintro ⟨h1, h2, _⟩
  omega

/-- The search of `read()`: the entries are not changed; the result is the
last entry that passes `is_donor`, or the initial value if there is none. -/
theorem read_find_loop (sz : texture_info → Nat) (info : texture_info) (l : texture_map) :
    ∀ found : Option (texture_info × cached_texture),
      (for_each_loop sz info.start_address (info.size sz) (read_find_callback info) found l).2 = l ∧
      ((∀ p ∈ l, is_donor sz info p.1 p.2 = false) →
        (for_each_loop sz info.start_address (info.size sz) (read_find_callback info)
          found l).1 = found) ∧
      ((∃ p ∈ l, is_donor sz info p.1 p.2 = true) →
        ∃ p ∈ l, is_donor sz info p.1 p.2 = true ∧
          (for_each_loop sz info.start_address (info.size sz) (read_find_callback info)
            found l).1 = some p) := by
  induction l with
  | nil =>
    intro found
    exact ⟨rfl, fun _ => rfl, fun ⟨p, hp, _⟩ => absurd hp (List.not_mem_nil p)⟩
  | cons q rest ih =>
    intro found
    obtain ⟨k, t⟩ := q
    by_cases hv : k.start_address ≥ u32 (info.start_address + info.size sz) ∨
        u32 (k.start_address + k.size sz) ≤ info.start_address
    · have hnd := not_donor_of_not_visited sz info k t hv
      have hstep : for_each_loop sz info.start_address (info.size sz)
          (read_find_callback info) found ((k, t) :: rest) =
          ((for_each_loop sz info.start_address (info.size sz)
              (read_find_callback info) found rest).1,
            (k, t) :: (for_each_loop sz info.start_address (info.size sz)
              (read_find_callback info) found rest).2) := by
        rw [for_each_loop]
        by_cases h1 : k.start_address ≥ u32 (info.start_address + info.size sz)
        · rw [if_pos h1]
        · rw [if_neg h1, if_pos (hv.resolve_left h1)]
      obtain ⟨i1, i2, i3⟩ := ih found
      rw [hstep]
      refine ⟨by rw [i1], ?_, ?_⟩
      · intro hall
        exact i2 (fun p hp => hall p (List.mem_cons_of_mem _ hp))
      · rintro ⟨p, hp, hd⟩
        rcases List.mem_cons.1 hp with e | hmem
        · rw [e, hnd] at hd
          exact absurd hd (by decide)
        · obtain ⟨p1, hp1, hd1, e1⟩ := i3 ⟨p, hmem, hd⟩
          exact ⟨p1, List.mem_cons_of_mem _ hp1, hd1, e1⟩
    · have h1 : ¬ k.start_address ≥ u32 (info.start_address + info.size sz) :=
        fun h => hv (Or.inl h)
      have h2 : ¬ u32 (k.start_address + k.size sz) ≤ info.start_address :=
        fun h => hv (Or.inr h)
      have hstep : for_each_loop sz info.start_address (info.size sz)
          (read_find_callback info) found ((k, t) :: rest) =
          ((for_each_loop sz info.start_address (info.size sz) (read_find_callback info)
              (if is_donor sz info k t = true then some (k, t) else found) rest).1,
            (k, t) :: (for_each_loop sz info.start_address (info.size sz)
              (read_find_callback info)
              (if is_donor sz info k t = true then some (k, t) else found) rest).2) := by
        rw [for_each_loop, if_neg h1, if_neg h2, read_find_callback_eq sz info found k t h1 h2]
      obtain ⟨i1, i2, i3⟩ := ih (if is_donor sz info k t = true then some (k, t) else found)
      rw [hstep]
      refine ⟨by rw [i1], ?_, ?_⟩
      · intro hall
        have hkt : is_donor sz info k t = false := hall (k, t) (List.mem_cons_self _ _)
        rw [i2 (fun p hp => hall p (List.mem_cons_of_mem _ hp)), hkt]
        rfl
      · rintro ⟨p, hp, hd⟩
        by_cases hrest : ∃ p ∈ rest, is_donor sz info p.1 p.2 = true
        · obtain ⟨p1, hp1, hd1, e1⟩ := i3 hrest
          exact ⟨p1, List.mem_cons_of_mem _ hp1, hd1, e1⟩
        · have hall : ∀ p ∈ rest, is_donor sz info p.1 p.2 = false := by
            intro p1 hp1
            cases hdp : is_donor sz info p1.1 p1.2 with
            | false => rfl
            | true => exact absurd ⟨p1, hp1, hdp⟩ hrest
          have hkt : is_donor sz info k t = true := by
            rcases List.mem_cons.1 hp with e | hmem
            · rw [e] at hd; exact hd
            · rw [hall p hmem] at hd
              exact absurd hd (by decide)
          refine ⟨(k, t), List.mem_cons_self _ _, hkt, ?_⟩
          rw [i2 hall, if_pos hkt]

theorem call_copies (w : backend) (c : backend_call) :
    (w.call c).copies = w.copies ++ (if c.is_copy then [c] else []) := by
  unfold backend.call backend.copies
  rw [List.filter_append]
  cases h : c.is_copy <;> simp [List.filter, h]

theorem sync_host_copies (w : backend) (info : texture_info) (t : cached_texture) :
    (t.sync_host w info).1.copies = w.copies := by
  have hc : (if !t.created then t.create w info else (w, t)).1.copies = w.copies := by
    split
    · simp [cached_texture.create, cached_texture.bind, backend.call, backend.copies,
        List.filter_append, backend_call.is_copy]
    · rfl
  have hw : ∀ (w1 : backend) (t1 : cached_texture), (t1.write w1 info).1.copies = w1.copies := by
    intro w1 t1
    unfold cached_texture.write cached_texture.bind
    dsimp only
    split
    · simp [call_copies, backend_call.is_copy]
    · split
      · simp [call_copies, backend_call.is_copy]
      · simp [call_copies, backend_call.is_copy]
  unfold cached_texture.sync_host
  dsimp only
  generalize (if !t.created then t.create w info else (w, t)) = p at hc ⊢
  split
  · exact hc
  · split
    · exact (hw p.1 p.2).trans hc
    · exact hc

/-- The call `sync(host)` does nothing to an entry that has its texture and
whose local bit is not set. -/
theorem sync_host_noop (w : backend) (info : texture_info) (t : cached_texture)
    (hcreated : t.created = true)
    (hstate : t.m_state = cache_entry_state.invalid ∨
      t.m_state = cache_entry_state.host_synchronized) :
    t.sync_host w info = (w, t, false) := by
  unfold cached_texture.sync_host
  simp only [hcreated, Bool.not_true, Bool.false_eq_true, if_false, if_pos hstate]

theorem read_upload_uploads (w : backend) (info : texture_info) (t : cached_texture) :
    (read_upload w info t).uploads = w.uploads ++ host_upload info t.gl_name := by
  unfold read_upload host_upload
  split
  · simp
  · split
    · simp [call_uploads, backend_call.is_upload]
    · simp [call_uploads, backend_call.is_upload]

theorem read_upload_copies (w : backend) (info : texture_info) (t : cached_texture) :
    (read_upload w info t).copies = w.copies := by
  unfold read_upload
  split
  · rfl
  · split
    · simp [call_copies, backend_call.is_copy]
    · simp [call_copies, backend_call.is_copy]

/-- Donor selection of `read()` inside one region, for entries whose pointers
are intact, in terms of the test `is_donor` with its `u32` sums.  Let `B` be an
entry that has its texture and whose state is `invalid` or
`host_synchronized`.  If the region holds an entry that passes `is_donor`,
then `read()` issues exactly one call, a `glCopyImageSubData` from the texture
of such an entry into the texture of `B`.  If no entry passes, `read()` issues
no copy, and the uploads it issues are the pull of `B` from guest memory. -/
theorem region_read_donor (sz : texture_info → Nat) (w : backend) (r : protected_region)
    (info : texture_info) (this : cached_texture)
    (hthis : assoc_find info r.m_textures = some this) (hcreated : this.created = true)
    (hstate : this.m_state = cache_entry_state.invalid ∨
      this.m_state = cache_entry_state.host_synchronized) :
    ((∃ p ∈ r.m_textures, is_donor sz info p.1 p.2 = true) →
      ∃ p ∈ r.m_textures, is_donor sz info p.1 p.2 = true ∧
        cached_texture.read sz w r info =
          (w.call (backend_call.glCopyImageSubData p.2.gl_name this.gl_name
              info.width info.height info.depth),
            r.update info (fun t => t.ignore cache_buffers.all))) ∧
    ((∀ p ∈ r.m_textures, is_donor sz info p.1 p.2 = false) →
      (cached_texture.read sz w r info).1.copies = w.copies ∧
      (cached_texture.read sz w r info).1.uploads = w.uploads ++ host_upload info this.gl_name) := by
  obtain ⟨_, hnone, hsome⟩ := read_find_loop sz info r.m_textures none
  constructor
  · intro hex
    obtain ⟨p, hp, hd, hfound⟩ := hsome hex
    refine ⟨p, hp, hd, ?_⟩
    unfold cached_texture.read
    simp only [hthis, protected_region.for_each, hfound]
  · intro hall
    have hfound := hnone hall
    obtain ⟨t1, ht1, hP⟩ := for_each_loop_find sz info.start_address (info.size sz)
      read_flush_callback (fun t => t = this)
      (fun s k t ht => by
        rw [ht]
        unfold read_flush_callback
        rw [sync_host_noop s k this hcreated hstate])
      info r.m_textures w this hthis rfl
    subst hP
    have hflush_u := read_flush_uploads sz w r info.start_address (info.size sz)
    have hflush_c : (r.for_each sz info.start_address (info.size sz)
        read_flush_callback w).1.copies = w.copies :=
      for_each_loop_preserves sz _ _ read_flush_callback backend.copies
        (fun s k t => sync_host_copies s k t) r.m_textures w
    unfold cached_texture.read
    simp only [hthis, protected_region.for_each, hfound, ht1] at hflush_u hflush_c ⊢
    constructor
    · rw [read_upload_copies, cached_texture.bind, call_copies, hflush_c]
      simp [backend_call.is_copy]
    · rw [read_upload_uploads, cached_texture.bind, call_uploads, hflush_u]
      simp [backend_call.is_upload]

/-! ## `combine` -/

theorem assoc_find_append {α β : Type} [DecidableEq α] (k : α) (a b : List (α × β)) :
    assoc_find k (a ++ b) =
      (match assoc_find k a with
        | some v => some v
        | none => assoc_find k b) := by
  induction a with
  | nil => rfl
  | cons p rest ih =>
    obtain ⟨k1, v1⟩ := p
    by_cases hk : k1 = k
    · simp [assoc_find, hk]
    · simp [assoc_find, hk, ih]

theorem insert_range_find (d : texture_info) (other : texture_map) :
    ∀ m : texture_map, assoc_find d (texture_map_insert_range other m) =
      (match assoc_find d m with
        | some t => some t
        | none => assoc_find d other) := by
  induction other with
  | nil =>
    intro m
    cases h : assoc_find d m <;> simp [texture_map_insert_range, assoc_find, h]
  | cons p rest ih =>
    intro m
    obtain ⟨k, t⟩ := p
    rw [texture_map_insert_range, ih]
    unfold texture_map_emplace
    cases hk : assoc_find k m with
    | some v =>
      simp only []
      cases hd : assoc_find d m with
      | some v1 => rfl
      | none =>
        have hne : ¬ k = d := by
          intro e
          rw [e, hd] at hk
          exact absurd hk (by simp)
        simp [assoc_find, hne]
    | none =>
      simp only [assoc_find_append]
      cases hd : assoc_find d m with
      | some v1 => rfl
      | none =>
        by_cases hkd : k = d
        · simp [assoc_find, hkd]
        · simp [assoc_find, hkd]

theorem insert_range_mem (other : texture_map) :
    ∀ (m : texture_map) (e : texture_info × cached_texture),
      e ∈ texture_map_insert_range other m → e ∈ m ∨ e ∈ other := by
  induction other with
  | nil => intro m e h; exact Or.inl h
  | cons p rest ih =>
    intro m e h
    obtain ⟨k, t⟩ := p
    rw [texture_map_insert_range] at h
    rcases ih _ e h with h1 | h1
    · unfold texture_map_emplace at h1
      split at h1
      · exact Or.inl h1
      · rcases List.mem_append.1 h1 with h2 | h2
        · exact Or.inl h2
        · rw [List.mem_singleton] at h2
          exact Or.inr (h2 ▸ List.mem_cons_self _ _)
    · exact Or.inr (List.mem_cons_of_mem _ h1)

theorem unprotect_textures (w : backend) (r : protected_region) (access : cache_access) :
    (r.unprotect w access).2.m_textures = r.m_textures := rfl

theorem combine_textures (w : backend) (this : Nat) (R O : protected_region) :
    (R.combine w this O).2.1.m_textures =
      texture_map_insert_range (O.m_textures.map (fun e => (e.1, e.2.parent this))) R.m_textures ∧
    (R.combine w this O).2.2.m_textures = O.m_textures.map (fun e => (e.1, e.2.parent this)) := by
  unfold protected_region.combine
  dsimp only
  split <;> exact ⟨rfl, rfl⟩

/-- C19, as stated, fails: combining the region `[0x2000, 0x3000)`, which
holds one entry, into an empty region leaves that entry in the entry map of
the argument as well; the map of the argument is copied, not emptied. -/
theorem combine_keeps_entries_of_argument :
    (example_region_low.combine backend.initial 0 example_region_high).2.2.m_textures =
      [(example_info 8192 4096 1024 1,
        (cached_texture.fresh.set_info 8192 (example_info 8192 4096 1024 1)).parent 0)] ∧
    (example_region_low.combine backend.initial 0 example_region_high).2.1.m_textures =
      [(example_info 8192 4096 1024 1,
        (cached_texture.fresh.set_info 8192 (example_info 8192 4096 1024 1)).parent 0)] := by
  decide

/-- C19, amended.  After `R.combine(O)` the entry map of `O` still holds every
entry it held, each with `R` as its parent; the entry map of `R` holds exactly
the descriptors that were in `R` or in `O`; an entry of `R` is unchanged, and
a descriptor that was only in `O` is stored in `R` with the entry of `O`
re-parented to `R`; so if every entry of `R` had `R` as its parent before the
call, every entry of `R` has `R` as its parent after it. -/
theorem combine_entries (w : backend) (this : Nat) (R O : protected_region) :
    (R.combine w this O).2.2.m_textures = O.m_textures.map (fun e => (e.1, e.2.parent this)) ∧
    (∀ d : texture_info, d ∈ (R.combine w this O).2.1.m_textures.map Prod.fst ↔
      (d ∈ R.m_textures.map Prod.fst ∨ d ∈ O.m_textures.map Prod.fst)) ∧
    (∀ (d : texture_info) (t : cached_texture), assoc_find d R.m_textures = some t →
      assoc_find d (R.combine w this O).2.1.m_textures = some t) ∧
    (∀ (d : texture_info) (t : cached_texture), assoc_find d R.m_textures = none →
      assoc_find d O.m_textures = some t →
      assoc_find d (R.combine w this O).2.1.m_textures = some (t.parent this)) ∧
    ((∀ e ∈ R.m_textures, e.2.m_parent_region = some this) →
      ∀ e ∈ (R.combine w this O).2.1.m_textures, e.2.m_parent_region = some this) := by
  obtain ⟨hR, hO⟩ := combine_textures w this R O
  have hmapfind : ∀ d : texture_info,
      assoc_find d (O.m_textures.map (fun e => (e.1, e.2.parent this))) =
        (assoc_find d O.m_textures).map (fun t => t.parent this) :=
    fun d => assoc_find_map_values (fun _ t => cached_texture.parent t this) d O.m_textures
  refine ⟨hO, ?_, ?_, ?_, ?_⟩
  · intro d
    rw [← assoc_find_isSome_iff, ← assoc_find_isSome_iff, ← assoc_find_isSome_iff, hR,
      insert_range_find, hmapfind]
    cases h1 : assoc_find d R.m_textures <;> cases h2 : assoc_find d O.m_textures <;> simp
  · intro d t h
    rw [hR, insert_range_find, h]
  · intro d t h1 h2
    rw [hR, insert_range_find, h1, hmapfind, h2]
    rfl
  · intro hall e he
    rw [hR] at he
    rcases insert_range_mem _ _ e he with h | h
    · exact hall e h
    · obtain ⟨e0, _, rfl⟩ := List.mem_map.1 h
      rfl

/-! ## Monotonicity of the authority bits -/

theorem subset_refl (a : cache_entry_state) : a.subset a := ⟨id, id⟩

theorem subset_trans {a b c : cache_entry_state} (h1 : a.subset b) (h2 : b.subset c) :
    a.subset c :=
  ⟨fun h => h2.1 (h1.1 h), fun h => h2.2 (h1.2 h)⟩

theorem subset_synchronized (a : cache_entry_state) : a.subset cache_entry_state.synchronized :=
  ⟨fun _ => rfl, fun _ => rfl⟩

theorem ignore_state (t : cached_texture) (b : cache_buffers) :
    (t.ignore b).m_state =
      ⟨t.m_state.host_bit || b.host_bit, t.m_state.local_bit || b.local_bit⟩ := by
  have key : ∀ (st : cache_entry_state) (g : Nat) (p : Option Nat)
      (ip : Option (Nat × texture_info)),
      (cached_texture.ignore ⟨g, st, p, ip⟩ b).m_state =
        ⟨st.host_bit || b.host_bit, st.local_bit || b.local_bit⟩ := by
    intro st g p ip
    rcases st with ⟨sh, sl⟩
    rcases b with ⟨bh, bl⟩
    cases sh <;> cases sl <;> cases bh <;> cases bl <;>
      simp [cached_texture.ignore, cache_buffers.and, cache_buffers.host, cache_buffers.local_,
        cache_buffers.none, cache_entry_state.or, cache_entry_state.host_synchronized,
        cache_entry_state.local_synchronized]
  exact key t.m_state t.gl_name t.m_parent_region t.info

theorem sync_host_state_subset (w : backend) (info : texture_info) (t : cached_texture) :
    t.m_state.subset (t.sync_host w info).2.1.m_state := by
  have hc : (if !t.created then t.create w info else (w, t)).2.m_state = t.m_state :=
    sync_create_state w info t
  unfold cached_texture.sync_host
  dsimp only
  generalize (if !t.created then t.create w info else (w, t)) = p at hc ⊢
  split
  · rw [hc]; exact subset_refl _
  · split
    · rw [write_state]; exact subset_synchronized _
    · rw [hc]; exact subset_refl _

/-- An update of one entry that only adds bits leaves every state a superset. -/
theorem update_state_superset (r : protected_region) (info e : texture_info)
    (f : cached_texture → cached_texture) (hf : ∀ t : cached_texture, t.m_state.subset (f t).m_state)
    (st : cache_entry_state) (he : r.state_of e = some st) :
    ∃ st1, (r.update info f).state_of e = some st1 ∧ st.subset st1 := by
  unfold protected_region.state_of at he ⊢
  cases hfe : assoc_find e r.m_textures with
  | none => rw [hfe] at he; simp at he
  | some t =>
    rw [hfe] at he
    have hst : t.m_state = st := by simpa using he
    by_cases hk : e = info
    · subst hk
      simp only [protected_region.update, assoc_find_modify_self, hfe, Option.map_some']
      exact ⟨_, rfl, hst ▸ hf t⟩
    · simp only [protected_region.update, assoc_find_modify_ne info e f _ hk, hfe,
        Option.map_some']
      exact ⟨_, rfl, hst ▸ subset_refl _⟩

/-- An update of one entry that only removes bits leaves every state a subset. -/
theorem update_state_subset (r : protected_region) (info e : texture_info)
    (f : cached_texture → cached_texture) (hf : ∀ t : cached_texture, (f t).m_state.subset t.m_state)
    (st : cache_entry_state) (he : r.state_of e = some st) :
    ∃ st1, (r.update info f).state_of e = some st1 ∧ st1.subset st := by
  unfold protected_region.state_of at he ⊢
  cases hfe : assoc_find e r.m_textures with
  | none => rw [hfe] at he; simp at he
  | some t =>
    rw [hfe] at he
    have hst : t.m_state = st := by simpa using he
    by_cases hk : e = info
    · subst hk
      simp only [protected_region.update, assoc_find_modify_self, hfe, Option.map_some']
      exact ⟨_, rfl, hst ▸ hf t⟩
    · simp only [protected_region.update, assoc_find_modify_ne info e f _ hk, hfe,
        Option.map_some']
      exact ⟨_, rfl, hst ▸ subset_refl _⟩

theorem flush_state_superset (sz : texture_info → Nat) (w : backend) (r : protected_region)
    (a n : Nat) (e : texture_info) (st : cache_entry_state) (he : r.state_of e = some st) :
    ∃ st1, (r.for_each sz a n read_flush_callback w).2.state_of e = some st1 ∧
      st.subset st1 := by
  unfold protected_region.state_of at he
  cases hfe : assoc_find e r.m_textures with
  | none => rw [hfe] at he; simp at he
  | some t =>
    rw [hfe] at he
    have hst : t.m_state = st := by simpa using he
    obtain ⟨t1, h1, h2⟩ := for_each_loop_find sz a n read_flush_callback
      (fun t : cached_texture => st.subset t.m_state)
      (fun s k t ht => subset_trans ht (sync_host_state_subset s k t))
      e r.m_textures w t hfe (hst ▸ subset_refl _)
    exact ⟨t1.m_state, by simp [protected_region.state_of, protected_region.for_each, h1], h2⟩

theorem read_state_superset (sz : texture_info → Nat) (w : backend) (r : protected_region)
    (info e : texture_info) (st : cache_entry_state) (he : r.state_of e = some st) :
    ∃ st1, (cached_texture.read sz w r info).2.state_of e = some st1 ∧ st.subset st1 := by
  have hig : ∀ t : cached_texture, t.m_state.subset (t.ignore cache_buffers.all).m_state :=
    fun t => by rw [ignore_all_state]; exact subset_synchronized _
  unfold cached_texture.read
  split
  · exact ⟨st, he, subset_refl _⟩
  · dsimp only
    split
    · exact update_state_superset r info e _ hig st he
    · obtain ⟨st1, h1, h2⟩ := flush_state_superset sz w r info.start_address (info.size sz) e st he
      split
      · exact ⟨st1, h1, h2⟩
      · obtain ⟨st2, h3, h4⟩ := update_state_superset _ info e _ hig st1 h1
        exact ⟨st2, h3, subset_trans h2 h4⟩

theorem sync_state_superset (sz : texture_info → Nat) (w : backend) (r : protected_region)
    (info e : texture_info) (buffers : cache_buffers) (st : cache_entry_state)
    (he : r.state_of e = some st) :
    ∃ st1, (cached_texture.sync sz w r info buffers).2.1.state_of e = some st1 ∧
      st.subset st1 := by
  unfold cached_texture.sync
  split
  · exact ⟨st, he, subset_refl _⟩
  · rename_i this hthis
    have hc : (if !this.created then this.create w info else (w, this)).2.m_state
        = this.m_state := sync_create_state w info this
    have h1 : ∃ st1, (if !this.created then
          r.update info (fun _ => (if !this.created then this.create w info else (w, this)).2)
        else r).state_of e = some st1 ∧ st.subset st1 := by
      split
      · unfold protected_region.state_of at he ⊢
        by_cases hk : e = info
        · subst hk
          rw [hthis] at he
          have hst : this.m_state = st := by simpa using he
          simp only [protected_region.update, assoc_find_modify_self, hthis, Option.map_some']
          exact ⟨_, rfl, by rw [create_state, hst]; exact subset_refl _⟩
        · simp only [protected_region.update, assoc_find_modify_ne info e _ _ hk]
          exact ⟨st, he, subset_refl _⟩
      · exact ⟨st, he, subset_refl _⟩
    dsimp only
    generalize (if !this.created then this.create w info else (w, this)) = c at h1 ⊢
    generalize (if !this.created then r.update info (fun _ => c.2) else r) = r1 at h1 ⊢
    obtain ⟨st1, h2, h3⟩ := h1
    split
    · split
      · obtain ⟨st2, h4, h5⟩ := read_state_superset sz c.1 r1 info e st1 h2
        exact ⟨st2, h4, subset_trans h3 h5⟩
      · exact ⟨st1, h2, h3⟩
    · split
      · split
        · obtain ⟨st2, h4, h5⟩ := update_state_superset r1 info e
            (fun _ => (c.2.write c.1 info).2)
            (fun t => by
              show t.m_state.subset (c.2.write c.1 info).2.m_state
              rw [write_state]
              exact subset_synchronized _) st1 h2
          exact ⟨st2, h4, subset_trans h3 h5⟩
        · exact ⟨st1, h2, h3⟩
      · exact ⟨st1, h2, h3⟩

theorem and_not_subset (a b : cache_entry_state) : (a.and b.not).subset a := by
  rcases a with ⟨ah, al⟩
  rcases b with ⟨bh, bl⟩
  cases ah <;> cases al <;> cases bh <;> cases bl <;>
    simp [cache_entry_state.subset, cache_entry_state.and, cache_entry_state.not]

theorem invalidate_for_each_state_subset (sz : texture_info → Nat) (r : protected_region)
    (info e : texture_info) (a n : Nat) (st : cache_entry_state)
    (he : r.state_of e = some st) :
    ∃ st1, (r.for_each sz a n (invalidate_callback info) ()).2.state_of e = some st1 ∧
      st1.subset st ∧ (e = info → st1 = st) := by
  unfold protected_region.state_of at he ⊢
  cases hfe : assoc_find e r.m_textures with
  | none => rw [hfe] at he; simp at he
  | some t =>
    rw [hfe] at he
    have hst : t.m_state = st := by simpa using he
    have hm := assoc_find_map_values (fun (k : texture_info) (t : cached_texture) =>
        if k.start_address < u32 (a + n) ∧ a < u32 (k.start_address + k.size sz) ∧ k ≠ info
        then t.invalidate_local else t) e r.m_textures
    simp only [protected_region.for_each, invalidate_for_each]
    rw [hm, hfe]
    simp only [Option.map_some']
    split
    · rename_i hcond
      refine ⟨_, rfl, ?_, fun heq => absurd heq hcond.2.2⟩
      rw [← hst]
      exact and_not_subset _ _
    · exact ⟨_, rfl, hst ▸ subset_refl _, fun _ => hst⟩

/-- An update of the entry `info` whose effect on the state is the function
`g`: the state of `info` becomes `g` of its state, every other state is kept. -/
theorem update_state_exact (r : protected_region) (info e : texture_info)
    (f : cached_texture → cached_texture) (g : cache_entry_state → cache_entry_state)
    (hf : ∀ t : cached_texture, (f t).m_state = g t.m_state)
    (st : cache_entry_state) (he : r.state_of e = some st) :
    (r.update info f).state_of e = some (if e = info then g st else st) := by
  unfold protected_region.state_of at he ⊢
  cases hfe : assoc_find e r.m_textures with
  | none => rw [hfe] at he; simp at he
  | some t =>
    rw [hfe] at he
    have hst : t.m_state = st := by simpa using he
    by_cases hk : e = info
    · subst hk
      simp only [protected_region.update, assoc_find_modify_self, hfe, Option.map_some',
        if_true, hf, hst]
    · simp only [protected_region.update, assoc_find_modify_ne info e f _ hk, hfe,
        Option.map_some', if_neg hk, hst]

theorem invalidate_state (sz : texture_info → Nat) (r : protected_region)
    (info e : texture_info) (buffers : cache_buffers) (st : cache_entry_state)
    (he : r.state_of e = some st) :
    ∃ st1, (cached_texture.invalidate sz r info buffers).state_of e = some st1 ∧
      st1.subset st ∧
      (e = info → st1 = ⟨st.host_bit && !buffers.host_bit, st.local_bit && !buffers.local_bit⟩) := by
  have hstep1 : ∃ st1, (if buffers.and cache_buffers.host ≠ cache_buffers.none then
        ((r.update info (fun t => { t with
            m_state := t.m_state.and cache_entry_state.host_synchronized.not })).for_each sz
          info.start_address (info.size sz) (invalidate_callback info) ()).2
      else r).state_of e = some st1 ∧ st1.subset st ∧
      (e = info → st1 = ⟨st.host_bit && !buffers.host_bit, st.local_bit⟩) := by
    by_cases hh : buffers.and cache_buffers.host ≠ cache_buffers.none
    · have hb : buffers.host_bit = true := (buffers_and_host_ne_none buffers).1 hh
      rw [if_pos hh]
      have h1 := update_state_exact r info e
        (fun t => { t with m_state := t.m_state.and cache_entry_state.host_synchronized.not })
        (fun s => s.and cache_entry_state.host_synchronized.not) (fun _ => rfl) st he
      obtain ⟨st2, h2, h3, h4⟩ := invalidate_for_each_state_subset sz _ info e
        info.start_address (info.size sz) _ h1
      refine ⟨st2, h2, ?_, ?_⟩
      · refine subset_trans h3 ?_
        split
        · exact and_not_subset _ _
        · exact subset_refl _
      · intro heq
        rw [h4 heq, if_pos heq, hb]
        rcases st with ⟨sh, sl⟩
        cases sh <;> cases sl <;> rfl
    · have hb : buffers.host_bit = false := by
        cases hbb : buffers.host_bit with
        | false => rfl
        | true => exact absurd ((buffers_and_host_ne_none buffers).2 hbb) hh
      rw [if_neg hh]
      refine ⟨st, he, subset_refl _, fun _ => ?_⟩
      rw [hb]
      simp
  unfold cached_texture.invalidate
  dsimp only
  generalize (if buffers.and cache_buffers.host ≠ cache_buffers.none then
        ((r.update info (fun t => { t with
            m_state := t.m_state.and cache_entry_state.host_synchronized.not })).for_each sz
          info.start_address (info.size sz) (invalidate_callback info) ()).2
      else r) = r1 at hstep1 ⊢
  obtain ⟨st1, h1, h2, h3⟩ := hstep1
  by_cases hl : buffers.and cache_buffers.local_ ≠ cache_buffers.none
  · have hb : buffers.local_bit = true := (buffers_and_local_ne_none buffers).1 hl
    rw [if_pos hl]
    have h4 := update_state_exact r1 info e
      (fun t => { t with m_state := t.m_state.and cache_entry_state.local_synchronized.not })
      (fun s => s.and cache_entry_state.local_synchronized.not) (fun _ => rfl) st1 h1
    refine ⟨_, h4, ?_, ?_⟩
    · refine subset_trans ?_ h2
      split
      · exact and_not_subset _ _
      · exact subset_refl _
    · intro heq
      rw [if_pos heq, h3 heq, hb]
      rcases st with ⟨sh, sl⟩
      cases sh <;> cases sl <;> cases buffers.host_bit <;> rfl
  · have hb : buffers.local_bit = false := by
      cases hbb : buffers.local_bit with
      | false => rfl
      | true => exact absurd ((buffers_and_local_ne_none buffers).2 hbb) hl
    rw [if_neg hl]
    refine ⟨st1, h1, h2, fun heq => ?_⟩
    rw [h3 heq, hb]
    simp

/-- C20. Monotonicity of the authority bits.  For every entry `e` of a region
and a call on the entry `info` of that region: after `sync(buffers)` and after
`ignore(buffers)` the state of `e` is a superset of its previous state; after
`invalidate(buffers)` it is a subset of its previous state; and on the called
entry itself `ignore(b)` yields exactly `state | b` and `invalidate(b)` yields
exactly `state & ~b`. -/
theorem authority_bits_monotone (sz : texture_info → Nat) (w : backend) (r : protected_region)
    (info e : texture_info) (buffers : cache_buffers) (st : cache_entry_state)
    (he : r.state_of e = some st) :
    (∃ st1, (cached_texture.sync sz w r info buffers).2.1.state_of e = some st1 ∧
      st.subset st1) ∧
    (∃ st1, (r.update info (fun t => t.ignore buffers)).state_of e = some st1 ∧
      st.subset st1 ∧
      (e = info → st1 = ⟨st.host_bit || buffers.host_bit, st.local_bit || buffers.local_bit⟩)) ∧
    (∃ st1, (cached_texture.invalidate sz r info buffers).state_of e = some st1 ∧
      st1.subset st ∧
      (e = info →
        st1 = ⟨st.host_bit && !buffers.host_bit, st.local_bit && !buffers.local_bit⟩)) := by
  refine ⟨sync_state_superset sz w r info e buffers st he, ?_,
    invalidate_state sz r info e buffers st he⟩
  have h := update_state_exact r info e (fun t => t.ignore buffers)
    (fun s => ⟨s.host_bit || buffers.host_bit, s.local_bit || buffers.local_bit⟩)
    (fun t => ignore_state t buffers) st he
  refine ⟨_, h, ?_, fun heq => by rw [if_pos heq]⟩
  split
  · constructor
    · intro hb
      simp [hb]
    · intro hb
      simp [hb]
  · exact subset_refl _

/-- C20 applied to the region with the `synchronized` entries `A` and `B` at
the top of the address space, a call on `A`, and the state of `B`. -/
theorem authority_bits_monotone_witness :
    ∃ st1, (cached_texture.invalidate example_size example_region_top
        (example_info 4294963200 4096 1024 1) cache_buffers.all).state_of
          (example_info 4294963200 2048 512 1) = some st1 ∧
      st1.subset cache_entry_state.synchronized :=
  (authority_bits_monotone example_size backend.initial example_region_top
    (example_info 4294963200 4096 1024 1) (example_info 4294963200 2048 512 1)
    cache_buffers.all cache_entry_state.synchronized (by decide)).2.2.elim
    (fun st1 h => ⟨st1, h.1, h.2.1⟩)


/-! ## The pointers of an entry -/

theorem region_set_region_self (c : texture_cache) (a : Nat) (r r1 : protected_region)
    (h : c.region a = some r) : (c.set_region a r1).region a = some r1 := by
  unfold texture_cache.region at h
  unfold texture_cache.region texture_cache.set_region
  rw [assoc_find_modify_self, h]
  rfl

theorem region_set_region_ne (c : texture_cache) (a a2 : Nat) (r1 : protected_region)
    (hne : a2 ≠ a) : (c.set_region a r1).region a2 = c.region a2 := by
  unfold texture_cache.region texture_cache.set_region
  exact assoc_find_modify_ne a a2 _ _ hne

theorem set_region_twice (c : texture_cache) (a : Nat) (r1 r2 : protected_region) :
    (c.set_region a r1).set_region a r2 = c.set_region a r2 := by
  unfold texture_cache.set_region
  simp only [assoc_modify_const_twice]

/-- Dereferencing `info` depends only on the keys of the maps: a store that
keeps the keys of a region keeps every `info` pointer valid. -/
theorem deref_info_set_region (c : texture_cache) (a : Nat) (r r1 : protected_region)
    (t : cached_texture) (h : c.region a = some r)
    (hkeys : r1.m_textures.map Prod.fst = r.m_textures.map Prod.fst) :
    (c.set_region a r1).deref_info t = c.deref_info t := by
  unfold texture_cache.deref_info
  cases hi : t.info with
  | none => rfl
  | some q =>
    obtain ⟨a2, k⟩ := q
    dsimp only
    by_cases ha : a2 = a
    · subst ha
      rw [region_set_region_self c a2 r r1 h, h]
      dsimp only
      have e : (assoc_find k r1.m_textures).isSome = (assoc_find k r.m_textures).isSome := by
        rw [Bool.eq_iff_iff, assoc_find_isSome_iff, assoc_find_isSome_iff, hkeys]
      rw [e]
    · rw [region_set_region_ne c a a2 r1 ha]

theorem deref_info_congr (c : texture_cache) (t1 t2 : cached_texture) (h : t1.info = t2.info) :
    c.deref_info t1 = c.deref_info t2 := by
  unfold texture_cache.deref_info
  rw [h]

theorem update_keys (r : protected_region) (k : texture_info)
    (f : cached_texture → cached_texture) :
    (r.update k f).m_textures.map Prod.fst = r.m_textures.map Prod.fst :=
  assoc_modify_keys k f r.m_textures

theorem invalidate_callback_holder (h : Nat) (A : texture_info) :
    texture_cache.invalidate_callback h A h = invalidate_callback A := by
  funext s k t
  unfold texture_cache.invalidate_callback invalidate_callback
  by_cases e : k = A
  · simp [e]
  · simp [e]

/-- For an entry whose `m_parent_region` points at the region that holds it and
whose `info` points at its own descriptor, `invalidate` through the pointers
is `invalidate` on that region. -/
theorem invalidate_intact (sz : texture_info → Nat) (c : texture_cache) (h : Nat)
    (r : protected_region) (A : texture_info) (tA : cached_texture) (buffers : cache_buffers)
    (hr : c.region h = some r) (hA : assoc_find A r.m_textures = some tA)
    (hparent : tA.m_parent_region = some h) (hinfo : c.deref_info tA = some A) :
    texture_cache.invalidate sz c h A buffers =
      some (c.set_region h (cached_texture.invalidate sz r A buffers)) := by
  unfold texture_cache.invalidate cached_texture.invalidate
  simp only [hr, hA]
  by_cases hh : buffers.and cache_buffers.host ≠ cache_buffers.none
  · simp only [if_pos hh]
    rw [deref_info_set_region c h r _ tA hr (update_keys r A _), hinfo, hparent]
    simp only [region_set_region_self c h r _ hr, set_region_twice, invalidate_callback_holder]
    by_cases hl : buffers.and cache_buffers.local_ ≠ cache_buffers.none
    · simp only [if_pos hl, region_set_region_self c h r _ hr, set_region_twice]
    · simp only [if_neg hl]
  · simp only [if_neg hh]
    by_cases hl : buffers.and cache_buffers.local_ ≠ cache_buffers.none
    · simp only [if_pos hl, hr]
    · simp only [if_neg hl]
      unfold texture_cache.set_region
      rw [assoc_modify_const_self h r _ hr]


/-- A loop whose callback can fail on a pointer runs as the loop without
failure when the callback succeeds on every entry of the list. -/
theorem for_each_loop_lift {σ : Type} (sz : texture_info → Nat) (a n : Nat)
    (cb : σ → texture_info → cached_texture → σ × cached_texture)
    (cb2 : Option σ → texture_info → cached_texture → Option σ × cached_texture)
    (l : texture_map)
    (h : ∀ p ∈ l, ∀ s : σ, cb2 (some s) p.1 p.2 = (some (cb s p.1 p.2).1, (cb s p.1 p.2).2)) :
    ∀ s : σ, for_each_loop sz a n cb2 (some s) l =
      (some (for_each_loop sz a n cb s l).1, (for_each_loop sz a n cb s l).2) := by
  induction l with
  | nil => intro s; rfl
  | cons p rest ih =>
    intro s
    obtain ⟨k, t⟩ := p
    have ih1 := ih (fun q hq => h q (List.mem_cons_of_mem _ hq))
    have hkt := h (k, t) (List.mem_cons_self _ _)
    unfold for_each_loop
    by_cases h1 : k.start_address ≥ u32 (a + n)
    · simp only [if_pos h1, ih1]
    · by_cases h2 : u32 (k.start_address + k.size sz) ≤ a
      · simp only [if_neg h1, if_pos h2, ih1]
      · simp only [if_neg h1, if_neg h2, hkt, ih1]

theorem read_find_callback_intact (c : texture_cache) (info k : texture_info)
    (t : cached_texture) (found : Option (texture_info × cached_texture))
    (hinfo : c.deref_info t = some k) :
    c.read_find_callback info (some found) k t =
      (some (read_find_callback info found k t).1, (read_find_callback info found k t).2) := by
  unfold texture_cache.read_find_callback read_find_callback
  simp only [hinfo]
  split
  · rfl
  · split
    · rfl
    · rfl

theorem sync_host_intact (c : texture_cache) (w : backend) (k : texture_info)
    (t : cached_texture) (hinfo : c.deref_info t = some k) :
    c.sync_host w t = some (t.sync_host w k) := by
  have hc : c.deref_info (t.create w k).2 = some k :=
    (deref_info_congr c (t.create w k).2 t rfl).trans hinfo
  unfold texture_cache.sync_host cached_texture.sync_host
  by_cases hcr : t.created = true
  · simp only [hcr, Bool.not_true, Bool.false_eq_true, if_false, hinfo]
    split
    · rfl
    · split
      · rfl
      · rfl
  · have hcr2 : t.created = false := by
      cases hx : t.created with
      | false => rfl
      | true => exact absurd hx hcr
    simp only [hcr2, Bool.not_false, if_true, hinfo, hc]
    split
    · rfl
    · split
      · rfl
      · rfl

theorem read_flush_callback_intact (c : texture_cache) (w : backend) (k : texture_info)
    (t : cached_texture) (hinfo : c.deref_info t = some k) :
    c.read_flush_callback (some w) k t =
      (some (read_flush_callback w k t).1, (read_flush_callback w k t).2) := by
  unfold texture_cache.read_flush_callback read_flush_callback
  simp only [sync_host_intact c w k t hinfo]

theorem assoc_find_mem {α β : Type} [DecidableEq α] (k : α) (v : β) (l : List (α × β))
    (h : assoc_find k l = some v) : (k, v) ∈ l := by
  induction l with
  | nil => simp [assoc_find] at h
  | cons p rest ih =>
    obtain ⟨k1, v1⟩ := p
    by_cases hk : k1 = k
    · simp only [assoc_find, if_pos hk, Option.some.injEq] at h
      rw [hk, h]
      exact List.mem_cons_self _ _
    · simp only [assoc_find, if_neg hk] at h
      exact List.mem_cons_of_mem _ (ih h)

/-- For an entry whose `m_parent_region` points at the region that holds it,
in a region in which the `info` of every entry points at the descriptor the
entry is stored under, `read` through the pointers is `read` on that region. -/
theorem read_intact (sz : texture_info → Nat) (w : backend) (c : texture_cache) (h : Nat)
    (r : protected_region) (B : texture_info) (this : cached_texture)
    (hr : c.region h = some r) (hthis : assoc_find B r.m_textures = some this)
    (hparent : this.m_parent_region = some h)
    (hinfo : ∀ p ∈ r.m_textures, c.deref_info p.2 = some p.1) :
    texture_cache.read sz w c h B =
      some ((cached_texture.read sz w r B).1,
        c.set_region h (cached_texture.read sz w r B).2) := by
  have hB : c.deref_info this = some B := hinfo (B, this) (assoc_find_mem B this _ hthis)
  have hfind := for_each_loop_lift sz B.start_address (B.size sz) (read_find_callback B)
    (c.read_find_callback B) r.m_textures
    (fun p hp s => read_find_callback_intact c B p.1 p.2 s (hinfo p hp)) none
  have hflush := for_each_loop_lift sz B.start_address (B.size sz) read_flush_callback
    c.read_flush_callback r.m_textures
    (fun p hp s => read_flush_callback_intact c s p.1 p.2 (hinfo p hp)) w
  unfold texture_cache.read cached_texture.read
  simp only [hr, hthis, hB, hparent, protected_region.for_each, hfind]
  cases hf : (for_each_loop sz B.start_address (B.size sz) (read_find_callback B) none
      r.m_textures).1 with
  | some found => rfl
  | none =>
    simp only [hflush, region_set_region_self c h r _ hr, set_region_twice]
    have hkeys := for_each_loop_keys sz B.start_address (B.size sz) read_flush_callback
      r.m_textures w
    cases hB1 : assoc_find B (for_each_loop sz B.start_address (B.size sz)
        read_flush_callback w r.m_textures).2 with
    | some this1 => rfl
    | none =>
      have hin : B ∈ r.m_textures.map Prod.fst :=
        (assoc_find_isSome_iff B r.m_textures).1 (by rw [hthis]; rfl)
      rw [← hkeys] at hin
      have := (assoc_find_isSome_iff B _).2 hin
      rw [hB1] at this
      exact absurd this (by decide)


theorem is_donor_eq_donor_test (sz : texture_info → Nat) (info k : texture_info)
    (t : cached_texture) (hinfo : info.start_address + info.size sz < 4294967296)
    (hk : k.start_address + k.size sz < 4294967296) :
    is_donor sz info k t = donor_test sz info k t := by
  have e1 : u32 (info.start_address + info.size sz) = info.start_address + info.size sz :=
    Nat.mod_eq_of_lt hinfo
  have e2 : u32 (k.start_address + k.size sz) = k.start_address + k.size sz :=
    Nat.mod_eq_of_lt hk
  unfold is_donor donor_test
  rw [e1, e2]

/-- The pointer `info` of an entry that points at a key of the region at `h` is
valid. -/
theorem deref_info_own (c : texture_cache) (h : Nat) (r : protected_region) (k : texture_info)
    (t : cached_texture) (hr : c.region h = some r) (hk : k ∈ r.m_textures.map Prod.fst)
    (hi : t.info = some (h, k)) : c.deref_info t = some k := by
  unfold texture_cache.deref_info
  rw [hi]
  dsimp only
  rw [hr]
  dsimp only
  rw [if_pos ((assoc_find_isSome_iff k r.m_textures).2 hk)]

/-! ## Cascading invalidation -/

/-- C6, as stated, fails in two ways.  First, where a byte range ends exactly
at `2^32`: in the region at `0xFFFFF000`, whose two entries have their
pointers as `add` sets them, the `u32` sum `start_address + size()` of `A`
wraps to 0, `for_each` skips every entry, and the overlapping entry `B` keeps
its local bit.  Second, where `m_parent_region` of `A` points at another
region: the four `entry()` calls for one page at `0x2000`, two pages at
`0x1000`, one page at 0 and three pages at 0 leave the region at `0x2000` in
the registry with its two overlapping entries, both `synchronized`, with
`info` as `add` set it, and both re-parented to the region at 0 by `combine`;
`invalidate(host)` on the second then walks the region at 0, and the first
keeps its local bit. -/
theorem invalidate_host_keeps_local_bit :
    (example_info 4294963200 4096 1024 1 ≠ example_info 4294963200 2048 512 1 ∧
      (example_info 4294963200 4096 1024 1).start_address
          + (example_info 4294963200 4096 1024 1).size example_size ≤ 4294967296 ∧
      (example_info 4294963200 2048 512 1).start_address
          + (example_info 4294963200 2048 512 1).size example_size ≤ 4294967296 ∧
      (example_info 4294963200 2048 512 1).start_address <
          (example_info 4294963200 4096 1024 1).start_address
            + (example_info 4294963200 4096 1024 1).size example_size ∧
      (example_info 4294963200 2048 512 1).start_address
          + (example_info 4294963200 2048 512 1).size example_size >
          (example_info 4294963200 4096 1024 1).start_address ∧
      example_cache_top.parents_of 4294963200 =
        [(example_info 4294963200 4096 1024 1, some 4294963200),
         (example_info 4294963200 2048 512 1, some 4294963200)] ∧
      example_cache_top.info_intact 4294963200 = true ∧
      example_cache_top.state_of 4294963200 (example_info 4294963200 2048 512 1)
          = some cache_entry_state.synchronized ∧
      (texture_cache.invalidate example_size example_cache_top 4294963200
          (example_info 4294963200 4096 1024 1) cache_buffers.host).map
        (fun c => c.state_of 4294963200 (example_info 4294963200 2048 512 1))
          = some (some cache_entry_state.synchronized)) ∧
    (example_info 4096 4096 1024 2 ≠ example_info 8192 4096 1024 1 ∧
      (example_info 4096 4096 1024 2).start_address
          + (example_info 4096 4096 1024 2).size example_size < 4294967296 ∧
      (example_info 8192 4096 1024 1).start_address
          + (example_info 8192 4096 1024 1).size example_size < 4294967296 ∧
      (example_info 8192 4096 1024 1).start_address <
          (example_info 4096 4096 1024 2).start_address
            + (example_info 4096 4096 1024 2).size example_size ∧
      (example_info 8192 4096 1024 1).start_address
          + (example_info 8192 4096 1024 1).size example_size >
          (example_info 4096 4096 1024 2).start_address ∧
      (entry_sequence example_size (backend.initial, texture_cache.empty)
          example_calls_reparent).map (fun s => s.2.ranges)
        = some [(0, 0, 3), (8192, 4096, 2)] ∧
      (entry_sequence example_size (backend.initial, texture_cache.empty)
          example_calls_reparent).map (fun s => s.2.parents_of 8192)
        = some [(example_info 8192 4096 1024 1, some 0),
            (example_info 4096 4096 1024 2, some 0)] ∧
      (entry_sequence example_size (backend.initial, texture_cache.empty)
          example_calls_reparent).map (fun s => s.2.info_intact 8192)
        = some true ∧
      (entry_sequence example_size (backend.initial, texture_cache.empty)
          example_calls_reparent).map
        (fun s => s.2.state_of 8192 (example_info 8192 4096 1024 1))
        = some (some cache_entry_state.synchronized) ∧
      (entry_sequence example_size (backend.initial, texture_cache.empty)
          example_calls_reparent).map
        (fun s => (texture_cache.invalidate example_size s.2 8192 (example_info 4096 4096 1024 2)
            cache_buffers.host).map
          (fun c => c.state_of 8192 (example_info 8192 4096 1024 1)))
        = some (some (some cache_entry_state.synchronized))) := by
  decide

/-- C6, amended.  Let `A` and `B` be two distinct entries of the region at `h`,
with `m_parent_region` of `A` pointing at that region, `info` of `A` pointing
at the key under which `A` is stored in that region, and byte ranges that end
below `2^32` (so that no `u32` sum wraps).  Then `A.invalidate(host)` returns and leaves
`B` with its local bit cleared if the byte ranges overlap and with its state
unchanged if they do not; the host bit of `B` is the same in both cases. -/
theorem invalidate_host_cascade (sz : texture_info → Nat) (c : texture_cache) (h : Nat)
    (r : protected_region) (A B : texture_info) (tA tB : cached_texture) (hne : A ≠ B)
    (hr : c.region h = some r)
    (hA : assoc_find A r.m_textures = some tA) (hB : assoc_find B r.m_textures = some tB)
    (hparent : tA.m_parent_region = some h) (hinfo : tA.info = some (h, A))
    (hAend : A.start_address + A.size sz < 4294967296)
    (hBend : B.start_address + B.size sz < 4294967296) :
    ∃ c1, texture_cache.invalidate sz c h A cache_buffers.host = some c1 ∧
      c1.state_of h B =
        some (if B.start_address < A.start_address + A.size sz ∧
                B.start_address + B.size sz > A.start_address
              then { host_bit := tB.m_state.host_bit, local_bit := false }
              else tB.m_state) ∧
      ∃ st, c1.state_of h B = some st ∧ st.host_bit = tB.m_state.host_bit := by
  have hreg := region_invalidate_host sz r A B tA tB hne hA hB hAend hBend
  have hst : (c.set_region h (cached_texture.invalidate sz r A cache_buffers.host)).state_of h B
      = (cached_texture.invalidate sz r A cache_buffers.host).state_of B := by
    unfold texture_cache.state_of
    rw [region_set_region_self c h r _ hr]
  have hderef : c.deref_info tA = some A :=
    deref_info_own c h r A tA hr ((assoc_find_isSome_iff A r.m_textures).1 (by rw [hA]; rfl))
      hinfo
  refine ⟨_, invalidate_intact sz c h r A tA cache_buffers.host hr hA hparent hderef, ?_, ?_⟩
  · rw [hst]
    exact hreg.1
  · rw [hst]
    exact hreg.2

/-- C6, amended, applied to the two entries of the region at `0x1000` of
`example_cache_contained`: `invalidate(host)` on the entry for
`[0x2000, 0x3000)` takes the local bit of the `synchronized` entry for
`[0x1000, 0x3000)`. -/
theorem invalidate_host_cascade_witness :
    ∃ c1, texture_cache.invalidate example_size example_cache_contained 4096
        (example_info 8192 4096 1024 1) cache_buffers.host = some c1 ∧
      c1.state_of 4096 (example_info 4096 4096 1024 2)
        = some cache_entry_state.host_synchronized :=
  match invalidate_host_cascade example_size example_cache_contained 4096
    example_region_contained (example_info 8192 4096 1024 1) (example_info 4096 4096 1024 2)
    { gl_name := 2, m_state := cache_entry_state.invalid, m_parent_region := some 4096,
      info := some (4096, example_info 8192 4096 1024 1) }
    { gl_name := 1, m_state := cache_entry_state.synchronized, m_parent_region := some 4096,
      info := some (4096, example_info 4096 4096 1024 2) }
    (by decide) (by decide) (by decide) (by decide) (by decide) (by decide) (by decide)
    (by decide) with
  | ⟨c1, h1, h2, _⟩ => ⟨c1, h1, h2.trans (by decide)⟩

/-! ## Donor selection of `read` through the pointers -/

/-- C18, as stated, fails.  In the region at `0x1000`, whose two entries have
their pointers as `add` sets them, entry `A` covers `[0x1000, 0x3000)` and has
its local bit set, entry `B` covers `[0x2000, 0x3000)`, inside the range of
`A`, has its texture and is `invalid`; `read()` on `B` finds no donor because
`A` starts at another address, and uploads `B` from guest memory.  The same
happens where the byte ranges end exactly at `2^32`, even for an entry `A`
that starts at the address of `B` with the same pitch and is as high and
wider: the `u32` sum `start_address + size()` of `B` wraps to 0, `for_each`
skips every entry, and `B` is uploaded from guest memory. -/
theorem read_pulls_despite_containing_entry :
    (example_cache_contained.state_of 4096 (example_info 4096 4096 1024 2)
        = some cache_entry_state.synchronized ∧
      example_cache_contained.state_of 4096 (example_info 8192 4096 1024 1)
        = some cache_entry_state.invalid ∧
      example_cache_contained.parents_of 4096 =
        [(example_info 4096 4096 1024 2, some 4096),
         (example_info 8192 4096 1024 1, some 4096)] ∧
      example_cache_contained.info_intact 4096 = true ∧
      (example_info 4096 4096 1024 2).start_address ≤
        (example_info 8192 4096 1024 1).start_address ∧
      (example_info 8192 4096 1024 1).start_address
          + (example_info 8192 4096 1024 1).size example_size ≤
        (example_info 4096 4096 1024 2).start_address
          + (example_info 4096 4096 1024 2).size example_size ∧
      (texture_cache.read example_size backend.initial example_cache_contained 4096
          (example_info 8192 4096 1024 1)).map (fun s => s.1.trace) =
        some [backend_call.glBindTexture 2,
         backend_call.glTexImage2D 2 (example_info 8192 4096 1024 1) (some 8192)]) ∧
    (example_cache_top_invalid.state_of 4294963200 (example_info 4294963200 4096 1024 1)
        = some cache_entry_state.synchronized ∧
      example_cache_top_invalid.state_of 4294963200 (example_info 4294963200 4096 512 1)
        = some cache_entry_state.invalid ∧
      example_cache_top_invalid.parents_of 4294963200 =
        [(example_info 4294963200 4096 1024 1, some 4294963200),
         (example_info 4294963200 4096 512 1, some 4294963200)] ∧
      example_cache_top_invalid.info_intact 4294963200 = true ∧
      (example_info 4294963200 4096 1024 1).start_address =
        (example_info 4294963200 4096 512 1).start_address ∧
      (example_info 4294963200 4096 1024 1).pitch = (example_info 4294963200 4096 512 1).pitch ∧
      (example_info 4294963200 4096 512 1).height ≤ (example_info 4294963200 4096 1024 1).height ∧
      (example_info 4294963200 4096 512 1).width ≤ (example_info 4294963200 4096 1024 1).width ∧
      (example_info 4294963200 4096 512 1).start_address
          + (example_info 4294963200 4096 512 1).size example_size ≤
        (example_info 4294963200 4096 1024 1).start_address
          + (example_info 4294963200 4096 1024 1).size example_size ∧
      (example_info 4294963200 4096 1024 1).start_address
          + (example_info 4294963200 4096 1024 1).size example_size = 4294967296 ∧
      (texture_cache.read example_size backend.initial example_cache_top_invalid 4294963200
          (example_info 4294963200 4096 512 1)).map (fun s => s.1.trace) =
        some [backend_call.glBindTexture 2,
         backend_call.glTexImage2D 2 (example_info 4294963200 4096 512 1)
           (some 4294963200)]) := by
  decide

/-- C18, amended.  Let `B` be an entry that `sync()` reads: it has its texture
and its state is `invalid` or `host_synchronized`.  Let `m_parent_region` of
`B` point at the region that holds `B`, and let every entry of that region have
`info` pointing at the key under which it is stored in that region, and a byte
range that ends below `2^32` (so that no `u32` sum wraps).  If the region holds an entry
that passes the donor test of `read()` (its byte range overlaps that of `B`,
its local bit is set, it starts at the same address with the same pitch and is
at least as high and as wide), then `read()` returns after exactly one call, a
`glCopyImageSubData` from the texture of such an entry into the texture of
`B`, and so without an upload from guest memory.  If no entry passes the test,
`read()` returns, has issued no copy, and the uploads it has issued are the
pull of `B` from guest memory: a compressed upload if `B` has a
`compressed_size`, a plain upload otherwise, and nothing for a depth or
depth-stencil format. -/
theorem read_donor_selection (sz : texture_info → Nat) (w : backend) (c : texture_cache)
    (h : Nat) (r : protected_region) (B : texture_info) (this : cached_texture)
    (hr : c.region h = some r) (hthis : assoc_find B r.m_textures = some this)
    (hcreated : this.created = true)
    (hstate : this.m_state = cache_entry_state.invalid ∨
      this.m_state = cache_entry_state.host_synchronized)
    (hparent : this.m_parent_region = some h)
    (hinfo : ∀ p ∈ r.m_textures, p.2.info = some (h, p.1))
    (hend : ∀ p ∈ r.m_textures, p.1.start_address + p.1.size sz < 4294967296) :
    ((∃ p ∈ r.m_textures, donor_test sz B p.1 p.2 = true) →
      ∃ p ∈ r.m_textures, donor_test sz B p.1 p.2 = true ∧
        texture_cache.read sz w c h B =
          some (w.call (backend_call.glCopyImageSubData p.2.gl_name this.gl_name
              B.width B.height B.depth),
            c.set_region h (r.update B (fun t => t.ignore cache_buffers.all)))) ∧
    ((∀ p ∈ r.m_textures, donor_test sz B p.1 p.2 = false) →
      ∃ (w1 : backend) (c1 : texture_cache),
        texture_cache.read sz w c h B = some (w1, c1) ∧
        w1.copies = w.copies ∧
        w1.uploads = w.uploads ++ host_upload B this.gl_name) := by
  have hBend : B.start_address + B.size sz < 4294967296 :=
    hend (B, this) (assoc_find_mem B this _ hthis)
  have hd : ∀ p ∈ r.m_textures, is_donor sz B p.1 p.2 = donor_test sz B p.1 p.2 :=
    fun p hp => is_donor_eq_donor_test sz B p.1 p.2 hBend (hend p hp)
  have hreg := region_read_donor sz w r B this hthis hcreated hstate
  have hderef : ∀ p ∈ r.m_textures, c.deref_info p.2 = some p.1 :=
    fun p hp => deref_info_own c h r p.1 p.2 hr (List.mem_map_of_mem Prod.fst hp) (hinfo p hp)
  have hread := read_intact sz w c h r B this hr hthis hparent hderef
  constructor
  · rintro ⟨p, hp, hdp⟩
    obtain ⟨p1, hp1, hd1, e⟩ := hreg.1 ⟨p, hp, (hd p hp).trans hdp⟩
    refine ⟨p1, hp1, (hd p1 hp1).symm.trans hd1, ?_⟩
    rw [hread, e]
  · intro hall
    obtain ⟨e1, e2⟩ := hreg.2 (fun p hp => (hd p hp).trans (hall p hp))
    exact ⟨_, _, hread, e1, e2⟩

/-- C18, amended, applied to the entry `B` of `example_cache_contained`, in
which `A` covers `B` but starts at another address: no entry passes the donor
test and `B` is pulled. -/
theorem read_donor_selection_witness :
    ∃ (w1 : backend) (c1 : texture_cache),
      texture_cache.read example_size backend.initial example_cache_contained 4096
          (example_info 8192 4096 1024 1) = some (w1, c1) ∧
      w1.copies = backend.initial.copies ∧
      w1.uploads = backend.initial.uploads ++ host_upload (example_info 8192 4096 1024 1) 2 :=
  (read_donor_selection example_size backend.initial example_cache_contained 4096
    example_region_contained (example_info 8192 4096 1024 1)
    { gl_name := 2, m_state := cache_entry_state.invalid, m_parent_region := some 4096,
      info := some (4096, example_info 8192 4096 1024 1) }
    (by decide) (by decide) (by decide) (by decide) (by decide) (by decide) (by decide)).2
    (by decide)

end gl
